import Mathlib

/-!
pcifuzzer: PCI device discovery, BAR probing and the region access surface.

A shallow embedding of `src/lib/io.h`, `src/lib/pci.h`, `src/lib/pci_device.c`,
`src/lib/input.c`, `src/lib/pci_fuzzer.c`, `lib/string.h` and the `--regions` option of
`src/main.c`.

Modelling conventions.

* Machine integers are natural numbers; conversions to a narrower C type are written
  as an explicit `% 2 ^ w`, and the bitwise complement of a `w`-bit value as `bnot w`.
* The host (port space, physical memory, `/dev/mem`, the allocator) is an `Env`: a record
  of deterministic responses, each a function of the access history so far.  Every access
  the code performs is recorded as an `Event` in `World.trace`, most recent first, so that
  "performs no access" is "the trace is unchanged".
* `errno` and the calls of `pci_device_error` are part of the `World`.  The registered error
  handler itself is external code; a call of `pci_device_error` is recorded as a report and
  is assumed to return without touching the device or `errno`.
* The functions generated by a C preprocessor definition (`_io_define`,
  `_pci_config_define`, `_pci_device_region_define`) are one Lean function with the element
  size as a parameter.
* The loop of `pci_device_regions_map` is `regions_map_from`, its body `regions_map_body`;
  the body is cut at the comments of the source into `size_bar32`, `ata_compat_override`,
  `size_bar64` and `map_region`.  `regions_map_entry` gives the state in which the function
  enters iteration `k`, so that a statement about "the BAR under the cursor when region `k`
  is sized" can be made for every region and every host.
-/

namespace PciFuzzer

/-! ## Constants -/

/-- Error number `EPERM` of `<errno.h>` (Linux). -/
def EPERM : Nat := 1

/-- Error number `EINVAL` of `<errno.h>` (Linux). -/
def EINVAL : Nat := 22

/-- The constant `MAX_REGIONS` of `pci_device.c`. -/
def MAX_REGIONS : Nat := 6

/-- The pointer `MAP_FAILED`, that is `(void *) -1`, on a 64-bit host. -/
def MAP_FAILED : Nat := 2 ^ 64 - 1

/-- Bitwise complement of `x` as a `bits`-wide unsigned value (C `~x` after conversion). -/
def bnot (bits x : Nat) : Nat := 2 ^ bits - 1 - x % 2 ^ bits

/-- Conversion of a C `int` to `uint8_t`. -/
def to_u8 (x : Int) : Nat := (x % 256).toNat

/-! ## The host environment -/

/-- One access performed by the program on its host. -/
inductive Event where
  /-- Instruction `in`: `io_read<size>(port)` returned `value`. -/
  | io_read (size port value : Nat)
  /-- Instruction `out`: `io_write<size>(port, value)`. -/
  | io_write (size port value : Nat)
  /-- Call `open("/dev/mem", O_RDWR | O_CLOEXEC)` returned `fd`. -/
  | dev_mem_open (fd : Int)
  /-- Call `mmap(NULL, length, PROT_READ | PROT_WRITE, MAP_SHARED, fd, offset)` returned `map`. -/
  | mmap (length : Nat) (fd : Int) (offset : Nat) (map : Nat)
  /-- Call `close(fd)`. -/
  | close (fd : Int)
  /-- Call `munmap(addr, length)` returned `result`. -/
  | munmap (addr length : Nat) (result : Int)
  /-- Load of element `index` of the mapping `map` seen as an array of `size`-bit values. -/
  | load (size map index value : Nat)
  /-- Store to element `index` of the mapping `map` seen as an array of `size`-bit values. -/
  | store (size map index value : Nat)
  deriving DecidableEq, Repr

/-- The responses of the host; the first argument of each is the access history. -/
structure Env where
  /-- Value delivered by an `in` of the given size at the given port. -/
  io_read : List Event → Nat → Nat → Nat
  /-- Outcome of `calloc`: `0` when the allocation succeeds, else the `errno` it sets. -/
  calloc_errno : List Event → Nat
  /-- Outcome of `open("/dev/mem", ...)`: descriptor (or `-1`) and the `errno` of a failure. -/
  dev_mem_open : List Event → Int × Nat
  /-- Outcome of `mmap`: pointer (or `MAP_FAILED`) and the `errno` of a failure. -/
  mmap : List Event → Nat → Int → Nat → Nat × Nat
  /-- Outcome of `munmap`: result (`0` or `-1`) and the `errno` of a failure. -/
  munmap : List Event → Nat → Nat → Int × Nat
  /-- Value delivered by a load through a mapping. -/
  load : List Event → Nat → Nat → Nat → Nat

/-- A call of `pci_device_error`: the `error` argument and the `format` argument. -/
structure ErrorReport where
  error : Nat
  format : String
  deriving DecidableEq, Repr

/-- Program-visible state outside the device object. -/
structure World where
  /-- Accesses performed so far, most recent first. -/
  trace : List Event := []
  /-- The C variable `errno`. -/
  errno : Nat := 0
  /-- Calls of `pci_device_error` so far, most recent first. -/
  reports : List ErrorReport := []
  deriving DecidableEq, Repr

/-- Assignment `errno = e`. -/
def set_errno (e : Nat) (w : World) : World := { w with errno := e }

/-- Function `pci_device_error` (`pci_device.c`, lines 133-144): hands the error to the
registered handler; the call is recorded. -/
def pci_device_error (error : Nat) (format : String) (w : World) : World :=
  { w with reports := ⟨error, format⟩ :: w.reports }

/-! ## Port I/O (`io.h`) -/

/-- Function `io_read<size>` (`io.h`, lines 14-19); the port is a `uint16_t`. -/
def io_read (env : Env) (size port : Nat) (w : World) : Nat × World :=
  let port := port % 2 ^ 16
  let value := env.io_read w.trace size port % 2 ^ size
  (value, { w with trace := Event.io_read size port value :: w.trace })

/-- Function `io_write<size>` (`io.h`, lines 26-29); the port is a `uint16_t`, the value
is converted to the element type. -/
def io_write (size port value : Nat) (w : World) : World :=
  { w with trace := Event.io_write size (port % 2 ^ 16) (value % 2 ^ size) :: w.trace }

/-! ## PCI configuration access (`pci.h`) -/

/-- The value written to port `0xcf8` (`pci.h`, lines 18 and 25); all four arguments are
`uint8_t`. -/
def pci_config_address (bus device function offset : Nat) : Nat :=
  (0x80000000 ||| (bus <<< 16) ||| (device <<< 11) ||| (function <<< 8) ||| offset) % 2 ^ 32

/-- Function `pci_config_read<size>` generated by `_pci_config_define(size, type, mask)`. -/
def pci_config_read (size mask : Nat) (env : Env) (bus device function : Int) (offset : Nat)
    (w : World) : Nat × World :=
  let offset := offset % 256
  let w := io_write 32 0xcf8 (pci_config_address (to_u8 bus) (to_u8 device) (to_u8 function) offset) w
  io_read env size (0xcfc + (offset &&& mask)) w

/-- Function `pci_config_write<size>` generated by `_pci_config_define(size, type, mask)`. -/
def pci_config_write (size mask : Nat) (bus device function : Int) (offset value : Nat)
    (w : World) : World :=
  let offset := offset % 256
  let w := io_write 32 0xcf8 (pci_config_address (to_u8 bus) (to_u8 device) (to_u8 function) offset) w
  io_write size (0xcfc + (offset &&& mask)) value w

/-- Instance `_pci_config_define(16, uint16_t, 2)`, read. -/
def pci_config_read16 := pci_config_read 16 2
/-- Instance `_pci_config_define(32, uint32_t, 0)`, read. -/
def pci_config_read32 := pci_config_read 32 0
/-- Instance `_pci_config_define(8, uint8_t, 3)`, read. -/
def pci_config_read8 := pci_config_read 8 3
/-- Instance `_pci_config_define(16, uint16_t, 2)`, write. -/
def pci_config_write16 := pci_config_write 16 2
/-- Instance `_pci_config_define(32, uint32_t, 0)`, write. -/
def pci_config_write32 := pci_config_write 32 0
/-- Instance `_pci_config_define(8, uint8_t, 3)`, write. -/
def pci_config_write8 := pci_config_write 8 3

/-! ## The device object (`pci_device.c`) -/

/-- The C `struct region`; `map` is a pointer (`0` is `NULL`). -/
structure region where
  base_address : Nat := 0
  size : Nat := 0
  map : Nat := 0
  is_io : Bool := false
  is_64 : Bool := false
  deriving DecidableEq, Repr

/-- The C `struct _pci_device`.  The array `regions[MAX_REGIONS]` is a total function of
the index; the code only uses indices below `num_regions`. -/
structure pci_device where
  bus : Int := 0
  device : Int := 0
  function : Int := 0
  vendor_id : Nat := 0
  device_id : Nat := 0
  class_code : Nat := 0
  header_type : Nat := 0
  num_regions : Nat := 0
  regions : Nat → region := fun _ => {}

/-- Assignment to the element `regions[i]`. -/
def pci_device.set_region (d : pci_device) (i : Nat) (r : region) : pci_device :=
  { d with regions := Function.update d.regions i r }

/-- Function `pci_device_get_num_regions` (lines 146-150). -/
def pci_device_get_num_regions (d : pci_device) : Nat := d.num_regions

/-- Function `pci_device_is_ata_controller` (lines 152-159). -/
def pci_device_is_ata_controller (d : pci_device) : Bool :=
  ((d.class_code &&& 0xff0000) >>> 16 == 0x01) && ((d.class_code &&& 0xff00) >>> 8 == 0x01)

/-- Function `pci_device_region_get_base_address` (lines 161-171); the failure value is
`(uint64_t) -1`. -/
def pci_device_region_get_base_address (d : pci_device) (region_num : Nat) (w : World) :
    Nat × World :=
  if region_num ≥ d.num_regions then
    let w := set_errno EINVAL w
    (2 ^ 64 - 1, pci_device_error w.errno "pci_device_region_get_base_address" w)
  else
    ((d.regions region_num).base_address, w)

/-- Function `pci_device_region_get_size` (lines 173-183); the failure value is
`(uint64_t) -1`. -/
def pci_device_region_get_size (d : pci_device) (region_num : Nat) (w : World) : Nat × World :=
  if region_num ≥ d.num_regions then
    let w := set_errno EINVAL w
    (2 ^ 64 - 1, pci_device_error w.errno "pci_device_region_get_size" w)
  else
    ((d.regions region_num).size, w)

/-- Function `pci_device_region_is_io` (lines 185-195); the failure value `(uint64_t) -1`
is converted to `bool`, which gives `true`. -/
def pci_device_region_is_io (d : pci_device) (region_num : Nat) (w : World) : Bool × World :=
  if region_num ≥ d.num_regions then
    let w := set_errno EINVAL w
    (decide (2 ^ 64 - 1 ≠ 0), pci_device_error w.errno "pci_device_region_is_io" w)
  else
    ((d.regions region_num).is_io, w)

/-- Function `pci_device_region_is_mapped` (lines 197-207); the failure value
`(uint64_t) -1` is converted to `bool`, which gives `true`. -/
def pci_device_region_is_mapped (d : pci_device) (region_num : Nat) (w : World) : Bool × World :=
  if region_num ≥ d.num_regions then
    let w := set_errno EINVAL w
    (decide (2 ^ 64 - 1 ≠ 0), pci_device_error w.errno "pci_device_region_is_mapped" w)
  else
    (!(d.regions region_num).is_io && (d.regions region_num).map != MAP_FAILED, w)

/-- Function `pci_device_region_read<size>` generated by `_pci_device_region_define`
(lines 210-232).  Returns the value and the new world. -/
def pci_device_region_read (size : Nat) (env : Env) (d : pci_device) (region_num offset : Nat)
    (w : World) : Nat × World :=
  if region_num ≥ d.num_regions ∨ offset ≥ (d.regions region_num).size then
    let w := set_errno EINVAL w
    let w := pci_device_error w.errno ("pci_device_region_read" ++ toString size) w
    (2 ^ size - 1, w)
  else if !(d.regions region_num).is_io && (d.regions region_num).map == MAP_FAILED then
    let w := set_errno EINVAL w
    let w := pci_device_error w.errno ("pci_device_region_read" ++ toString size) w
    (2 ^ size - 1, w)
  else if (d.regions region_num).is_io then
    io_read env size ((d.regions region_num).base_address + offset) w
  else
    let value := env.load w.trace size (d.regions region_num).map offset % 2 ^ size
    (value, { w with trace := Event.load size (d.regions region_num).map offset value :: w.trace })

/-- Function `pci_device_region_write<size>` generated by `_pci_device_region_define`
(lines 234-255). -/
def pci_device_region_write (size : Nat) (d : pci_device) (region_num offset value : Nat)
    (w : World) : World :=
  if region_num ≥ d.num_regions ∨ offset ≥ (d.regions region_num).size then
    let w := set_errno EINVAL w
    pci_device_error w.errno ("pci_device_region_write" ++ toString size) w
  else if !(d.regions region_num).is_io && (d.regions region_num).map == MAP_FAILED then
    let w := set_errno EINVAL w
    pci_device_error w.errno ("pci_device_region_write" ++ toString size) w
  else if (d.regions region_num).is_io then
    io_write size ((d.regions region_num).base_address + offset) value w
  else
    { w with trace :=
        Event.store size (d.regions region_num).map offset (value % 2 ^ size) :: w.trace }

/-! ### BAR sizing and classification: `pci_device_regions_map` -/

/-- Values held by the local variables after the low 32 bits of a BAR have been sized. -/
structure bar_sizing where
  command : Nat
  base_address : Nat
  /-- The value read back after the all-ones write (line 275). -/
  probe : Nat
  size : Nat
  world : World

/-- Lines 266-281 of `pci_device_regions_map`: size the 32-bit BAR at configuration
offset `j` (disable decoding, save, write all-ones, read back, restore, re-enable). -/
def size_bar32 (env : Env) (d : pci_device) (j : Nat) (w : World) : bar_sizing :=
  let r := pci_config_read16 env d.bus d.device d.function 2 w
  let command := r.1
  let w := pci_config_write16 d.bus d.device d.function 2 (command &&& bnot 32 0x03) r.2
  let r := pci_config_read32 env d.bus d.device d.function j w
  let base_address := r.1
  let w := pci_config_write32 d.bus d.device d.function j 0xffffffff r.2
  let r := pci_config_read32 env d.bus d.device d.function j w
  let probe := r.1
  let size := probe ||| (0xffffffff <<< 32)
  let w := pci_config_write32 d.bus d.device d.function j base_address r.2
  let w := pci_config_write16 d.bus d.device d.function 2 command w
  ⟨command, base_address, probe, size, w⟩

/-- Lines 284-308 of `pci_device_regions_map`: the legacy ports substituted for a zero BAR
of an ATA/IDE controller in compatibility mode.  Returns `(base_address, size)`. -/
def ata_compat_override (d : pci_device) (j base_address size : Nat) : Nat × Nat :=
  if pci_device_is_ata_controller d then
    if d.class_code &&& 0x05 = 0 then
      if base_address = 0 then
        if j = 16 then (0x1f0 ||| 0x01, bnot 64 0x07)
        else if j = 20 then (0x3f0 ||| 0x01, bnot 64 0x03)
        else if j = 24 then (0x170 ||| 0x01, bnot 64 0x07)
        else if j = 28 then (0x370 ||| 0x01, bnot 64 0x03)
        else (base_address, size)
      else (base_address, size)
    else (base_address, size)
  else (base_address, size)

/-- Values held by the local variables after the high half of a 64-bit BAR has been
sized; `high_saved` and `high_probe` are the two values read from the next slot. -/
structure bar64_sizing where
  base_address : Nat
  size : Nat
  j : Nat
  high_saved : Nat
  high_probe : Nat
  world : World

/-- Lines 323-340 of `pci_device_regions_map`: size the high half of a 64-bit BAR, found
in the slot after `j`; the cursor `j` is advanced by 4. -/
def size_bar64 (env : Env) (d : pci_device) (j command base_address size : Nat) (w : World) :
    bar64_sizing :=
  let w := pci_config_write16 d.bus d.device d.function 2 (command &&& bnot 32 0x03) w
  let j := j + 4
  let r := pci_config_read32 env d.bus d.device d.function j w
  let high_saved := r.1
  let base_address := base_address ||| (high_saved <<< 32)
  let w := pci_config_write32 d.bus d.device d.function j 0xffffffff r.2
  let r := pci_config_read32 env d.bus d.device d.function j w
  let high_probe := r.1
  let size := size ||| (high_probe <<< 32)
  let w := pci_config_write32 d.bus d.device d.function j (base_address >>> 32) r.2
  let w := pci_config_write16 d.bus d.device d.function 2 command w
  ⟨base_address, size, j, high_saved, high_probe, w⟩

/-- Lines 356-371 of `pci_device_regions_map`: map the memory region `i` through
`/dev/mem`.  The flag is `false` on `goto err`. -/
def map_region (env : Env) (d : pci_device) (i : Nat) (w : World) : Bool × pci_device × World :=
  let o := env.dev_mem_open w.trace
  let fd := o.1
  let w : World :=
    { w with trace := Event.dev_mem_open fd :: w.trace,
             errno := if fd = -1 then o.2 else w.errno }
  if fd = -1 then
    (false, d, pci_device_error w.errno "pci_device_regions_map" w)
  else
    let m := env.mmap w.trace (d.regions i).size fd (d.regions i).base_address
    let w : World :=
      { w with trace := Event.mmap (d.regions i).size fd (d.regions i).base_address m.1 :: w.trace,
               errno := if m.1 = MAP_FAILED then m.2 else w.errno }
    let d := d.set_region i { d.regions i with map := m.1 }
    if m.1 = MAP_FAILED ∧ w.errno ≠ EPERM then
      let w : World := { w with trace := Event.close fd :: w.trace }
      (false, d, pci_device_error w.errno "pci_device_regions_map" w)
    else
      (true, d, { w with trace := Event.close fd :: w.trace })

/-- Body of the loop of `pci_device_regions_map` (lines 266-371) for region index `i`
and BAR cursor `j`.  Returns `false` on `goto err`, else `true` with the cursor as the
body leaves it (before the `j += 4` of the loop header). -/
def regions_map_body (env : Env) (d : pci_device) (i j : Nat) (w : World) :
    Bool × pci_device × Nat × World :=
  let s := size_bar32 env d j w
  let o := ata_compat_override d j s.base_address s.size
  let base_address := o.1
  let size := o.2
  let w := s.world
  let t : pci_device × Nat × Nat × Nat × World :=
    if base_address &&& 0x01 ≠ 0 then
      let d := d.set_region i { d.regions i with is_io := true }
      let base_address := base_address &&& bnot 64 0x01
      let size := size &&& bnot 64 0x01
      let size := (bnot 64 size + 1) % 2 ^ 64
      (d, base_address, size, j, w)
    else
      let u : pci_device × Nat × Nat × Nat × World :=
        if base_address &&& 0x04 ≠ 0 then
          let d := d.set_region i { d.regions i with is_64 := true }
          let h := size_bar64 env d j s.command base_address size w
          (d, h.base_address, h.size, h.j, h.world)
        else
          (d, base_address, size, j, w)
      let base_address := u.2.1 &&& bnot 64 0x0f
      let size := u.2.2.1 &&& bnot 64 0x0f
      let size := (bnot 64 size + 1) % 2 ^ 64
      (u.1, base_address, size, u.2.2.2.1, u.2.2.2.2)
  let d := t.1
  let j := t.2.2.2.1
  let w := t.2.2.2.2
  let d := d.set_region i { d.regions i with base_address := t.2.1 }
  let d := d.set_region i { d.regions i with size := t.2.2.1 }
  if (d.regions i).is_io then
    (true, d, j, w)
  else
    let m := map_region env d i w
    (m.1, m.2.1, j, m.2.2)

/-- The loop of `pci_device_regions_map` (line 265) with `n` iterations left, that is
entered with `i = num_regions - n`; the body never changes `num_regions`.  Returns the
status (`0` or `-1`), the device and the world. -/
def regions_map_from (env : Env) : Nat → pci_device → Nat → Nat → World → Int × pci_device × World
  | 0, d, _, _, w => (0, d, w)
  | n + 1, d, i, j, w =>
    let b := regions_map_body env d i j w
    if b.1 then regions_map_from env n b.2.1 (i + 1) (b.2.2.1 + 4) b.2.2.2
    else (-1, b.2.1, b.2.2.2)

/-- Function `pci_device_regions_map` (lines 262-378). -/
def pci_device_regions_map (env : Env) (d : pci_device) (w : World) : Int × pci_device × World :=
  regions_map_from env d.num_regions d 0 16 w

/-- State of the loop of `pci_device_regions_map` on entry to iteration `k`: the device,
the BAR cursor `j` and the world; `none` when an earlier iteration left by `goto err`. -/
def regions_map_entry (env : Env) (d : pci_device) (w : World) :
    Nat → Option (pci_device × Nat × World)
  | 0 => some (d, 16, w)
  | k + 1 =>
    match regions_map_entry env d w k with
    | none => none
    | some s =>
      let b := regions_map_body env s.1 k s.2.1 s.2.2
      if b.1 then some (b.2.1, b.2.2.1 + 4, b.2.2.2) else none

/-- The loop of `pci_device_regions_unmap` (line 383) with `n` iterations left. -/
def regions_unmap_from (env : Env) : Nat → pci_device → Nat → World → Int × World
  | 0, _, _, w => (0, w)
  | n + 1, d, i, w =>
    if (d.regions i).is_io then regions_unmap_from env n d (i + 1) w
    else if !(d.regions i).is_io && (d.regions i).map == MAP_FAILED then
      regions_unmap_from env n d (i + 1) w
    else
      let r := env.munmap w.trace (d.regions i).base_address (d.regions i).size
      let w : World :=
        { w with trace := Event.munmap (d.regions i).base_address (d.regions i).size r.1 :: w.trace,
                 errno := if r.1 = -1 then r.2 else w.errno }
      if r.1 = -1 then (-1, pci_device_error w.errno "pci_device_regions_unmap" w)
      else regions_unmap_from env n d (i + 1) w

/-- Function `pci_device_regions_unmap` (lines 380-400). -/
def pci_device_regions_unmap (env : Env) (d : pci_device) (w : World) : Int × World :=
  regions_unmap_from env d.num_regions d 0 w

/-- World in which the loop of `pci_device_regions_unmap` enters iteration `k`; `none` when
an earlier iteration has returned. -/
def regions_unmap_entry (env : Env) (d : pci_device) (w : World) : Nat → Option World
  | 0 => some w
  | k + 1 =>
    match regions_unmap_entry env d w k with
    | none => none
    | some wk =>
      if (d.regions k).is_io then some wk
      else if !(d.regions k).is_io && (d.regions k).map == MAP_FAILED then some wk
      else if (env.munmap wk.trace (d.regions k).base_address (d.regions k).size).1 = -1 then none
      else
        some { wk with
          trace := Event.munmap (d.regions k).base_address (d.regions k).size
            (env.munmap wk.trace (d.regions k).base_address (d.regions k).size).1 :: wk.trace }

/-- Function `pci_device_destroy` (lines 122-131); `none` is the `NULL` pointer. -/
def pci_device_destroy (env : Env) (d : Option pci_device) (w : World) : World :=
  match d with
  | none => w
  | some d => (pci_device_regions_unmap env d w).2

/-- Function `pci_device_create` (lines 44-120); `none` is the `NULL` result.  The object
returned by `calloc` is all zero. -/
def pci_device_create (env : Env) (bus device function : Int) (w : World) :
    Option pci_device × World :=
  if env.calloc_errno w.trace ≠ 0 then
    let w := set_errno (env.calloc_errno w.trace) w
    (none, pci_device_error w.errno "pci_device_create" w)
  else
    let d : pci_device := {}
    if bus < 0 ∨ bus > 255 then
      let w := set_errno EINVAL w
      let w := pci_device_error w.errno "pci_device_create" w
      (none, pci_device_destroy env (some d) w)
    else if device < 0 ∨ device > 31 then
      let w := set_errno EINVAL w
      let w := pci_device_error w.errno "pci_device_create" w
      (none, pci_device_destroy env (some d) w)
    else if function < 0 ∨ function > 7 then
      let w := set_errno EINVAL w
      let w := pci_device_error w.errno "pci_device_create" w
      (none, pci_device_destroy env (some d) w)
    else
      let d := { d with bus := bus, device := device, function := function }
      let r := pci_config_read16 env d.bus d.device d.function 0 w
      let d := { d with vendor_id := r.1 }
      let w := r.2
      if d.vendor_id = 0xffff then
        let w := pci_device_error 0 "%s: Invalid device.\n" w
        (none, pci_device_destroy env (some d) w)
      else
        let r := pci_config_read16 env d.bus d.device d.function 2 w
        let d := { d with device_id := r.1 }
        let r := pci_config_read32 env d.bus d.device d.function 8 r.2
        let d := { d with class_code := r.1 >>> 8 }
        let r := pci_config_read8 env d.bus d.device d.function 14 r.2
        let d := { d with header_type := r.1 }
        let w := r.2
        let n : Option Nat :=
          if d.header_type &&& 0x7f = 0 then some 6
          else if d.header_type &&& 0x7f = 1 then some 2
          else if d.header_type &&& 0x7f = 2 then some 1
          else none
        match n with
        | none =>
          let w := pci_device_error 0 "%s: Unknown header type.\n" w
          (none, pci_device_destroy env (some d) w)
        | some n =>
          let d := { d with num_regions := n }
          let m := pci_device_regions_map env d w
          if m.1 = -1 then
            let w := pci_device_error m.2.2.errno "pci_device_create" m.2.2
            (none, pci_device_destroy env (some m.2.1) w)
          else
            (some m.2.1, m.2.2)

/-! ## A host for worked examples -/

/-- A configuration space for worked examples.  The dword at configuration offset `o`
reads `orig o`, except right after an all-ones write to it, when it reads `probe o`.
Allocation and `open` succeed, and `mmap` answers `map_result`. -/
def example_env (orig probe : Nat → Nat) (map_result : Nat × Nat) : Env where
  io_read := fun t _ port =>
    match t with
    | Event.io_write _ _ a :: Event.io_write _ p v :: _ =>
      if p = 0xcfc ∧ v = 0xffffffff then probe (a % 256)
      else orig (a % 256 / 4 * 4) >>> (8 * (port - 0xcfc))
    | Event.io_write _ _ a :: _ => orig (a % 256 / 4 * 4) >>> (8 * (port - 0xcfc))
    | _ => 0
  calloc_errno := fun _ => 0
  dev_mem_open := fun _ => (3, 0)
  mmap := fun _ _ _ _ => map_result
  munmap := fun _ _ _ => (0, 0)
  load := fun _ _ _ _ => 0

/-- The device object as `pci_device_create` hands it to `pci_device_regions_map` for a
function at 0:0.0 with header type 0: only the class code and `num_regions` are non-zero. -/
def example_dev (class_code : Nat) : pci_device := { class_code := class_code, num_regions := 6 }

/-- A table that is zero except at the listed offsets. -/
def table (l : List (Nat × Nat)) (o : Nat) : Nat :=
  match l.find? (fun p => p.1 == o) with
  | some p => p.2
  | none => 0

/-- Example host: every configuration register reads zero, also after an all-ones write;
`mmap` succeeds. -/
def zero_env : Env := example_env (table []) (table []) (0x7f0000000000, 0)

/-- Example host: BAR0 holds `0xFE000000` and reads `0xFF000000` after an all-ones write. -/
def mem32_env : Env :=
  example_env (table [(16, 0xFE000000)]) (table [(16, 0xFF000000)]) (0x7f0000000000, 0)

/-- Example host: an ATA/IDE controller (class code `0x010100`) whose BARs all read zero. -/
def ata_env : Env := example_env (table [(8, 0x01010000)]) (table []) (0x7f0000000000, 0)

/-- Example host: a 64-bit memory BAR in slots 0 and 1, saved `0xFE00000C` and `0x00000001`,
reading `0xFFFFF000` and `0xFFFFFFFF` after the all-ones writes. -/
def mem64_env : Env :=
  example_env (table [(16, 0xFE00000C), (20, 0x00000001)])
    (table [(16, 0xFFFFF000), (20, 0xFFFFFFFF)]) (0x7f0000000000, 0)

/-- Example host: an 8 GiB 64-bit memory BAR in slots 0 and 1, saved `0x0000000C` and
`0x00000004`, reading `0x0000000C` and `0xFFFFFFFE` after the all-ones writes. -/
def mem64_large_env : Env :=
  example_env (table [(16, 0x0000000C), (20, 0x00000004)])
    (table [(16, 0x0000000C), (20, 0xFFFFFFFE)]) (0x7f0000000000, 0)

/-- Example host: an I/O BAR in slot 0, saved `0x0000E001`, reading `0x0000FFF1` after the
all-ones write. -/
def io_env : Env :=
  example_env (table [(16, 0x0000E001)]) (table [(16, 0x0000FFF1)]) (0x7f0000000000, 0)

/-- Example host: an ATA/IDE controller (class code `0x010100`) with a 64-bit memory BAR
in slots 0 and 1 (saved `0xFE00000C` and `0`); the other BARs read zero. -/
def ata_mem64_env : Env :=
  example_env (table [(8, 0x01010000), (16, 0xFE00000C)]) (table [(16, 0xFFFFF00C), (20, 0xFFFFFFFF)])
    (0x7f0000000000, 0)

/-- Example host: no device answers; every configuration read returns all-ones. -/
def absent_env : Env :=
  example_env (fun _ => 0xFFFFFFFF) (fun _ => 0xFFFFFFFF) (0x7f0000000000, 0)

/-- The event is a write to the configuration data port (`0xcfc` to `0xcff`). -/
def Event.is_config_write : Event → Bool
  | Event.io_write _ port _ => decide (0xcfc ≤ port ∧ port ≤ 0xcff)
  | _ => false

/-- The event is a call of `mmap`. -/
def Event.is_mmap : Event → Bool
  | Event.mmap _ _ _ _ => true
  | _ => false

/-! ## Configuration space as a register file -/

/-- One step of the register file behind configuration mechanism 1, for the dword that
`a0` addresses (`a0` is the address word of a function with offset 0, so this is the dword
with the vendor, the device and, at offset 2, the register the program treats as the
command register).  The state is the address latch (port `0xcf8`) and the bytes of the
dword.  A 32-bit write to `0xcf8` sets the latch; a write to the data port (`0xcfc` to
`0xcff`) while the latch selects this dword stores its bytes, little-endian, at the byte
lanes it covers. -/
def cfg_step (a0 : Nat) (s : Nat × (Nat → Nat)) : Event → Nat × (Nat → Nat)
  | Event.io_write size port value =>
    if port = 0xcf8 then
      if size = 32 then (value, s.2) else s
    else if 0xcfc ≤ port ∧ port ≤ 0xcff ∧ s.1 / 4 = a0 / 4 then
      (s.1, fun b =>
        if port - 0xcfc ≤ b ∧ b < port - 0xcfc + size / 8 then
          (value >>> (8 * (b - (port - 0xcfc)))) % 256
        else s.2 b)
    else s
  | _ => s

/-- The register file after a history (most recent access first), from the initial bytes
`init` of the dword. -/
def cfg_replay (a0 : Nat) (init : Nat → Nat) : List Event → Nat × (Nat → Nat)
  | [] => (0, init)
  | e :: t => cfg_step a0 (cfg_replay a0 init t) e

/-- The 16-bit register at offset 2 of the dword: bytes 2 and 3. -/
def command_register (a0 : Nat) (init : Nat → Nat) (t : List Event) : Nat :=
  (cfg_replay a0 init t).2 2 % 256 + 256 * ((cfg_replay a0 init t).2 3 % 256)

/-- The host answers a 16-bit read of the command register (data port `0xcfe` while the
latch selects the dword of `a0`) with what the register file holds. -/
def command_register_stores (env : Env) (a0 : Nat) (init : Nat → Nat) : Prop :=
  ∀ t, (cfg_replay a0 init t).1 / 4 = a0 / 4 →
    env.io_read t 16 0xcfe % 2 ^ 16 = command_register a0 init t

/-- Example host: as `example_env`, but the command register of function 0:0.0 is a
register that stores what is written to it, initially the bytes `init`. -/
def regfile_env (init orig probe : Nat → Nat) (map_result : Nat × Nat) : Env :=
  { example_env orig probe map_result with
    io_read := fun t size port =>
      if size = 16 ∧ port = 0xcfe ∧ (cfg_replay 0x80000000 init t).1 / 4 = 0x80000000 / 4 then
        command_register 0x80000000 init t
      else (example_env orig probe map_result).io_read t size port }

/-- The world in which `pci_device_create` reads the header type: after the reads of the
vendor, the device and the class (lines 74-81). -/
def create_header_world (env : Env) (bus device function : Int) (w : World) : World :=
  (pci_config_read32 env bus device function 8
    (pci_config_read16 env bus device function 2
      (pci_config_read16 env bus device function 0 w).2).2).2

/-- Example host: a function whose header-type byte (offset `0x0E`) reads `h`; all its
BARs read zero. -/
def header_env (h : Nat) : Env := example_env (table [(12, h <<< 16)]) (table []) (0x7f0000000000, 0)

/-- Example host: the command register of function 0:0.0 stores what is written to it and
holds `0x0107`; slot 0 is an I/O BAR, slot 1 a 32-bit memory BAR, slots 2 and 3 a 64-bit
memory BAR. -/
def mixed_regfile_env : Env :=
  regfile_env (table [(2, 0x07), (3, 0x01)])
    (table [(16, 0x0000E001), (20, 0xFE000000), (24, 0xFD00000C), (28, 0x00000001)])
    (table [(16, 0x0000FFF1), (20, 0xFF000000), (24, 0xFFFFF00C), (28, 0xFFFFFFFF)])
    (0x7f0000000000, 0)

/-! ## The input decoder (`input.c`) -/

/-- How a call ends: it returns a value, the process calls `abort()`, or the behaviour is
undefined in C. -/
inductive Outcome (α : Type) where
  | ok (value : α)
  | abort
  | undefined
  deriving DecidableEq, Repr

/-- Value of a byte sequence in host byte order (little-endian on x86). -/
def le_value : List Nat → Nat
  | [] => 0
  | b :: bs => b % 256 + 256 * le_value bs

/-- Function `input_read<size>` generated by `_input_define` (`input.c`, lines 71-82).  The
stream is the list of the bytes still to be read.  When fewer than `size / 8` bytes are
left, `fread` consumes them and reports end of file; the function then calls `input_error`
(which hands the error to the handler of the decoder) and `abort()`. -/
def input_read (size : Nat) (stream : List Nat) : Outcome Nat × List Nat :=
  if size / 8 ≤ stream.length then
    (Outcome.ok (le_value (stream.take (size / 8))), stream.drop (size / 8))
  else
    (Outcome.abort, [])

/-- The constant `UINT64_MAX`. -/
def UINT64_MAX : Nat := 2 ^ 64 - 1

/-- The weight of the last of the 53 leading bits of `n`: 1 when `n < 2^53`, else the power
of two `q` with `2^52 ≤ n / q < 2^53`.  The first argument bounds the recursion. -/
def ulp53 : Nat → Nat → Nat
  | 0, _ => 1
  | fuel + 1, n => if n < 2 ^ 53 then 1 else 2 * ulp53 fuel (n / 2)

/-- Rounding of a natural number to 53 significant bits, to nearest with ties to even: the
rounding of IEEE 754 binary64 arithmetic in its default mode.  The same function rounds
`n / 2 ^ k` for every `k`, since the rounding of a binary format commutes with a scaling by
a power of two (as long as no overflow or underflow occurs). -/
def round53 (n : Nat) : Nat :=
  let q := ulp53 n n
  let d := n / q
  let r := n % q
  if 2 * r < q then d * q
  else if q < 2 * r then (d + 1) * q
  else if d % 2 = 0 then d * q
  else (d + 1) * q

/-- A finite non-negative value of the C type `double` (binary64): the dyadic rational
`num / 2 ^ scale`.  Each operation below is the exact operation followed by `round53`,
that is, every operation is rounded separately in binary64 (`FLT_EVAL_METHOD` 0, no
contraction).  The values that occur are in `[2^-64, 2^129]` or zero, where binary64 has
neither overflow nor underflow. -/
structure double where
  num : Nat
  scale : Nat
  deriving DecidableEq, Repr

/-- Conversion of an unsigned integer to `double`. -/
def double.of_u64 (n : Nat) : double := ⟨round53 n, 0⟩

/-- The quotient of a `double` by `2 ^ k`, which is exact. -/
def double.div_two_pow (x : double) (k : Nat) : double := ⟨x.num, x.scale + k⟩

/-- The product of two `double` values. -/
def double.mul (x y : double) : double := ⟨round53 (x.num * y.num), x.scale + y.scale⟩

/-- The sum of two `double` values. -/
def double.add (x y : double) : double :=
  ⟨round53 (x.num * 2 ^ (max x.scale y.scale - x.scale)
      + y.num * 2 ^ (max x.scale y.scale - y.scale)), max x.scale y.scale⟩

/-- Conversion of a `double` to `unsigned long` (64 bits): the fractional part is
discarded; the behaviour is undefined when the result does not fit. -/
def double.to_u64 (x : double) : Outcome Nat :=
  if x.num / 2 ^ x.scale < 2 ^ 64 then Outcome.ok (x.num / 2 ^ x.scale) else Outcome.undefined

/-- Function `input_derive_double` (`input.c`, lines 22-27): `input / (double)UINT64_MAX`.
The conversion of `UINT64_MAX` to `double` rounds it to `2^64` (`double_of_UINT64_MAX`), and
the quotient of a `double` by a power of two is exact. -/
def input_derive_double (stream : List Nat) : Outcome double × List Nat :=
  match input_read 64 stream with
  | (Outcome.ok input, rest) =>
    (Outcome.ok ((double.of_u64 input).div_two_pow 64), rest)
  | (Outcome.abort, rest) => (Outcome.abort, rest)
  | (Outcome.undefined, rest) => (Outcome.undefined, rest)

/-- Function `input_derive_range` (`input.c`, lines 63-68): `result * (end + 1) + begin`
computed in `double` and converted to `unsigned long`; `end + 1` is computed in
`unsigned long`. -/
def input_derive_range (stream : List Nat) (begin_ end_ : Nat) : Outcome Nat × List Nat :=
  match input_derive_double stream with
  | (Outcome.ok result, rest) =>
    (double.to_u64
      ((result.mul (double.of_u64 ((end_ + 1) % 2 ^ 64))).add (double.of_u64 begin_)), rest)
  | (Outcome.abort, rest) => (Outcome.abort, rest)
  | (Outcome.undefined, rest) => (Outcome.undefined, rest)

/-- The value `pow(2, n)` of `<math.h>` for a `double` with the integer value `n`: the power
of two, which is a `double` without rounding (beyond the range of `double` the model keeps
the power, which `double.to_u64` rejects like the infinity that `pow` returns). -/
def double.pow2 (n : Nat) : double := ⟨2 ^ n, 0⟩

/-- Function `input_derive_fermat_number` (`input.c`, lines 29-34):
`pow(2, result) + 1` converted to `unsigned long`. -/
def input_derive_fermat_number (stream : List Nat) : Outcome Nat × List Nat :=
  match input_derive_range stream 1 31 with
  | (Outcome.ok result, rest) =>
    (double.to_u64 ((double.pow2 (double.of_u64 result).num).add (double.of_u64 1)), rest)
  | (Outcome.abort, rest) => (Outcome.abort, rest)
  | (Outcome.undefined, rest) => (Outcome.undefined, rest)

/-! ## The fuzz driver (`pci_fuzzer.c`) -/

/-- The constant `PCI_FUZZER_MAX_INPUT` of `pci_fuzzer.h`. -/
def PCI_FUZZER_MAX_INPUT : Nat := 28

/-- Conversion of a C `int` to `size_t` (64 bits). -/
def to_size_t (x : Int) : Nat := (x % 2 ^ 64).toNat

/-- A call of `pci_fuzzer_log`: the format string and the values of the fields
`function`, `region`, `offset` and, for a write, `value`. -/
structure LogRecord where
  format : String
  function : String
  region : Nat
  offset : Nat
  value : Option Nat
  deriving DecidableEq, Repr

/-- The C `struct _pci_fuzzer`: the device, the array `regions` (`none` is `NULL`) and its
declared length `num_regions`.  The log handler and the log stream are external; a call of
`pci_fuzzer_log` is recorded as a `LogRecord`. -/
structure pci_fuzzer where
  pci_device : pci_device
  regions : Option (List Int) := none
  num_regions : Nat := 0

/-- What an iteration works on: the bytes still to be read from the input stream, the
world, and the calls of `pci_fuzzer_log` so far (most recent first). -/
structure FuzzState where
  stream : List Nat
  world : World := {}
  log : List LogRecord := []
  deriving DecidableEq, Repr

/-- Function `pci_fuzzer_log` (`pci_fuzzer.c`, lines 132-143): hands the record to the log
handler; the call is recorded. -/
def pci_fuzzer_log (format function : String) (region offset : Nat) (value : Option Nat)
    (st : FuzzState) : FuzzState :=
  { st with log := ⟨format, function, region, offset, value⟩ :: st.log }

/-- Lines 68-75 of `pci_fuzzer_iterate`: the draw of the region.  `num_regions - 1` is
computed in `size_t`; reading `regions[region_num]` past the end of the array is undefined
behaviour. -/
def iterate_region (f : pci_fuzzer) (stream : List Nat) : Outcome Nat × List Nat :=
  if f.regions = none ∨ f.num_regions = 0 then
    input_derive_range stream 0
      ((pci_device_get_num_regions f.pci_device + (2 ^ 64 - 1)) % 2 ^ 64)
  else
    match input_derive_range stream 0 ((f.num_regions + (2 ^ 64 - 1)) % 2 ^ 64) with
    | (Outcome.ok region_num, rest) =>
      match f.regions.bind fun l => l.get? region_num with
      | some region => (Outcome.ok (to_size_t region), rest)
      | none => (Outcome.undefined, rest)
    | (Outcome.abort, rest) => (Outcome.abort, rest)
    | (Outcome.undefined, rest) => (Outcome.undefined, rest)

/-- Lines 77-78 of `pci_fuzzer_iterate`: the test
`!pci_device_region_is_io(...) && !pci_device_region_is_mapped(...)`; the second call is
made only when the first returns false. -/
def iterate_unusable (d : pci_device) (region : Nat) (w : World) : Bool × World :=
  if (pci_device_region_is_io d region w).1 then
    (false, (pci_device_region_is_io d region w).2)
  else
    (!(pci_device_region_is_mapped d region (pci_device_region_is_io d region w).2).1,
      (pci_device_region_is_mapped d region (pci_device_region_is_io d region w).2).2)

/-- Lines 84-129 of `pci_fuzzer_iterate`: the switch on the operation selector. -/
def iterate_switch (env : Env) (f : pci_fuzzer) (region offset op : Nat) (st : FuzzState) :
    Outcome Unit × FuzzState :=
  if op = 0 then
    let st := pci_fuzzer_log "suu" "pci_device_region_read16" region offset none st
    (Outcome.ok (),
      { st with world := (pci_device_region_read 16 env f.pci_device region offset st.world).2 })
  else if op = 1 then
    let st := pci_fuzzer_log "suu" "pci_device_region_read32" region offset none st
    (Outcome.ok (),
      { st with world := (pci_device_region_read 32 env f.pci_device region offset st.world).2 })
  else if op = 2 then
    let st := pci_fuzzer_log "suu" "pci_device_region_read8" region offset none st
    (Outcome.ok (),
      { st with world := (pci_device_region_read 8 env f.pci_device region offset st.world).2 })
  else if op = 3 then
    match input_read 16 st.stream with
    | (Outcome.ok value, rest) =>
      let st := pci_fuzzer_log "suuu" "pci_device_region_write16" region offset (some value)
        { st with stream := rest }
      (Outcome.ok (),
        { st with world := pci_device_region_write 16 f.pci_device region offset value st.world })
    | (Outcome.abort, rest) => (Outcome.abort, { st with stream := rest })
    | (Outcome.undefined, rest) => (Outcome.undefined, { st with stream := rest })
  else if op = 4 then
    match input_read 32 st.stream with
    | (Outcome.ok value, rest) =>
      let st := pci_fuzzer_log "suuu" "pci_device_region_write32" region offset (some value)
        { st with stream := rest }
      (Outcome.ok (),
        { st with world := pci_device_region_write 32 f.pci_device region offset value st.world })
    | (Outcome.abort, rest) => (Outcome.abort, { st with stream := rest })
    | (Outcome.undefined, rest) => (Outcome.undefined, { st with stream := rest })
  else if op = 5 then
    match input_read 8 st.stream with
    | (Outcome.ok value, rest) =>
      let st := pci_fuzzer_log "suuu" "pci_device_region_write8" region offset (some value)
        { st with stream := rest }
      (Outcome.ok (),
        { st with world := pci_device_region_write 8 f.pci_device region offset value st.world })
    | (Outcome.abort, rest) => (Outcome.abort, { st with stream := rest })
    | (Outcome.undefined, rest) => (Outcome.undefined, { st with stream := rest })
  else
    (Outcome.abort, st)

/-- Function `pci_fuzzer_iterate` (`pci_fuzzer.c`, lines 65-130). -/
def pci_fuzzer_iterate (env : Env) (f : pci_fuzzer) (st : FuzzState) : Outcome Unit × FuzzState :=
  match iterate_region f st.stream with
  | (Outcome.ok region, s1) =>
    if (iterate_unusable f.pci_device region st.world).1 then
      (Outcome.ok (),
        { st with stream := s1, world := (iterate_unusable f.pci_device region st.world).2 })
    else
      match input_derive_range s1 0
        (((pci_device_region_get_size f.pci_device region
            (iterate_unusable f.pci_device region st.world).2).1 + (2 ^ 64 - 1)) % 2 ^ 64) with
      | (Outcome.ok offset, s2) =>
        match input_derive_range s2 0 5 with
        | (Outcome.ok op, s3) =>
          iterate_switch env f region offset op
            { stream := s3,
              world := (pci_device_region_get_size f.pci_device region
                (iterate_unusable f.pci_device region st.world).2).2,
              log := st.log }
        | (Outcome.abort, s3) =>
          (Outcome.abort,
            { stream := s3,
              world := (pci_device_region_get_size f.pci_device region
                (iterate_unusable f.pci_device region st.world).2).2,
              log := st.log })
        | (Outcome.undefined, s3) =>
          (Outcome.undefined,
            { stream := s3,
              world := (pci_device_region_get_size f.pci_device region
                (iterate_unusable f.pci_device region st.world).2).2,
              log := st.log })
      | (Outcome.abort, s2) =>
        (Outcome.abort,
          { stream := s2,
            world := (pci_device_region_get_size f.pci_device region
              (iterate_unusable f.pci_device region st.world).2).2,
            log := st.log })
      | (Outcome.undefined, s2) =>
        (Outcome.undefined,
          { stream := s2,
            world := (pci_device_region_get_size f.pci_device region
              (iterate_unusable f.pci_device region st.world).2).2,
            log := st.log })
  | (Outcome.abort, s1) => (Outcome.abort, { st with stream := s1 })
  | (Outcome.undefined, s1) => (Outcome.undefined, { st with stream := s1 })

/-- A run of `n` successive calls of `pci_fuzzer_iterate` on one stream; it ends at the
first call that does not return. -/
def pci_fuzzer_iterate_n (env : Env) (f : pci_fuzzer) : Nat → FuzzState → Outcome Unit × FuzzState
  | 0, st => (Outcome.ok (), st)
  | n + 1, st =>
    match pci_fuzzer_iterate env f st with
    | (Outcome.ok _, st') => pci_fuzzer_iterate_n env f n st'
    | (Outcome.abort, st') => (Outcome.abort, st')
    | (Outcome.undefined, st') => (Outcome.undefined, st')

/-! ## A mapping backed by plain memory -/

/-- The byte at address `addr` of a memory with initial content `init` after the stores of
the history `t` (most recent first).  A store of a `size`-bit value to element `index` of
the array at `map` writes the `size / 8` bytes from `map + index * (size / 8)`, least
significant byte first. -/
def ram_byte (init : Nat → Nat) : List Event → Nat → Nat
  | [], addr => init addr % 256
  | Event.store size map index value :: t, addr =>
    if map + index * (size / 8) ≤ addr ∧ addr < map + index * (size / 8) + size / 8 then
      value / 256 ^ (addr - (map + index * (size / 8))) % 256
    else
      ram_byte init t addr
  | _ :: t, addr => ram_byte init t addr

/-- The little-endian value of the `n` bytes from address `addr`. -/
def ram_value (init : Nat → Nat) (t : List Event) : Nat → Nat → Nat
  | _, 0 => 0
  | addr, n + 1 => ram_byte init t addr + 256 * ram_value init t (addr + 1) n

/-- The loads of the host `env` through a mapping deliver what was last stored: the
mappings are plain memory with initial content `init`. -/
def plain_ram (env : Env) (init : Nat → Nat) : Prop :=
  ∀ t size map index,
    env.load t size map index = ram_value init t (map + index * (size / 8)) (size / 8)

/-- Example host: as `zero_env`, with mappings backed by plain memory. -/
def ram_env (init : Nat → Nat) : Env :=
  { zero_env with
    load := fun t size map index => ram_value init t (map + index * (size / 8)) (size / 8) }

/-- Example device: one memory region of 4096 bytes mapped at `0x7f0000000000`. -/
def ram_dev : pci_device :=
  { num_regions := 1, regions := fun _ => ⟨0xfe000000, 4096, 0x7f0000000000, false, false⟩ }

/-! ## The region list of the command line (`lib/string.h`, `main.c`) -/

/-- The constant `INT_MAX` of `<limits.h>`. -/
def INT_MAX : Nat := 2 ^ 31 - 1

/-- The tokens that successive calls of `strtok_r` deliver from the characters still to be
scanned: the maximal non-empty runs of characters that are not in `delimiter`.  `cur` is
the run being read, in reverse. -/
def strtok_r_from (delimiter : List Char) : List Char → List Char → List (List Char)
  | [], cur => if cur = [] then [] else [cur.reverse]
  | c :: cs, cur =>
    if c ∈ delimiter then
      if cur = [] then strtok_r_from delimiter cs []
      else cur.reverse :: strtok_r_from delimiter cs []
    else strtok_r_from delimiter cs (c :: cur)

/-- All tokens of `string` for the separators `delimiter`, in the order in which the loop
`for (token = strtok_r(str, delimiter, &lasts); token != NULL; token = strtok_r(NULL, ...))`
visits them. -/
def strtok_r_all (string delimiter : List Char) : List (List Char) :=
  strtok_r_from delimiter string []

/-- State of the token loop of `string_split_range` after a token: the loop goes on with a
bit array and a value of `errno`, or the function leaves by `goto err`, or an element
outside the bit array has been written (undefined behaviour). -/
inductive SplitStep where
  | next (bit_array : Nat → Nat) (errno : Nat)
  | err (errno : Nat)
  | undefined

/-- The loop of lines 68-70,
`for (value = begin; (value <= end) && (value <= max_elements); ++value)
bit_array[value / sizeof(int)] |= 1 << (value % sizeof(int))`, with `sizeof(int) = 4` and
at most `n` iterations left; it is entered with `n = max_elements + 1 - begin`, which the
condition `value <= max_elements` never lets it exceed.  The array has `len` elements;
`none` when an element outside it is written. -/
def set_range (max_elements len end_ : Nat) : Nat → Nat → (Nat → Nat) → Option (Nat → Nat)
  | 0, _, bit_array => some bit_array
  | n + 1, value, bit_array =>
    if value ≤ end_ ∧ value ≤ max_elements then
      if value / 4 < len then
        set_range max_elements len end_ n (value + 1)
          (Function.update bit_array (value / 4) (bit_array (value / 4) ||| (1 <<< (value % 4))))
      else none
    else some bit_array

/-- Body of the token loop of `string_split_range` (lines 34-73): the token is cut at the
first two runs of `-`; `strtoul s` is the value `strtoul(s, NULL, 0)` returns and the value
it leaves in `errno` after `errno = 0`. -/
def split_range_token (strtoul : List Char → Nat × Nat) (max_elements len : Nat)
    (token : List Char) (bit_array : Nat → Nat) (errno : Nat) : SplitStep :=
  match strtok_r_all token ['-'] with
  | [] => SplitStep.next bit_array errno
  | subtoken :: more =>
    if (strtoul subtoken).2 = EINVAL then SplitStep.err EINVAL
    else if (strtoul subtoken).1 > max_elements then SplitStep.err EINVAL
    else
      match more with
      | [] =>
        match set_range max_elements len (strtoul subtoken).1
            (max_elements + 1 - (strtoul subtoken).1) (strtoul subtoken).1 bit_array with
        | some bit_array => SplitStep.next bit_array (strtoul subtoken).2
        | none => SplitStep.undefined
      | subtoken2 :: _ =>
        if (strtoul subtoken2).2 = EINVAL then SplitStep.err EINVAL
        else if (strtoul subtoken).1 > (strtoul subtoken2).1
            ∨ (strtoul subtoken2).1 > max_elements then SplitStep.err EINVAL
        else
          match set_range max_elements len (strtoul subtoken2).1
              (max_elements + 1 - (strtoul subtoken).1) (strtoul subtoken).1 bit_array with
          | some bit_array => SplitStep.next bit_array (strtoul subtoken2).2
          | none => SplitStep.undefined

/-- The token loop of `string_split_range` (lines 32-74) over the tokens still to come. -/
def split_range_tokens (strtoul : List Char → Nat × Nat) (max_elements len : Nat) :
    List (List Char) → (Nat → Nat) → Nat → SplitStep
  | [], bit_array, errno => SplitStep.next bit_array errno
  | token :: rest, bit_array, errno =>
    match split_range_token strtoul max_elements len token bit_array errno with
    | SplitStep.next bit_array errno =>
      split_range_tokens strtoul max_elements len rest bit_array errno
    | SplitStep.err errno => SplitStep.err errno
    | SplitStep.undefined => SplitStep.undefined

/-- The loops of lines 76-92, `for (i = 0; i <= max_elements; ++i)`, with `n` iterations
left: the indices whose bit is set, in increasing order; `none` when an element outside
the `len` elements of the bit array is read. -/
def collect_range (len : Nat) (bit_array : Nat → Nat) : Nat → Nat → Option (List Nat)
  | 0, _ => some []
  | n + 1, i =>
    if i / 4 < len then
      match collect_range len bit_array n (i + 1) with
      | some l => some (if bit_array (i / 4) &&& (1 <<< (i % 4)) ≠ 0 then i :: l else l)
      | none => none
    else none

/-- What a call of `string_split_range` leaves: the value returned, `errno`, and the
elements stored through `elements` (`*num_elements` is their number); on failure nothing
is stored. -/
structure split_result where
  status : Int
  errno : Nat
  elements : List Nat
  deriving DecidableEq, Repr

/-- Function `string_split_range<size>` generated by `_string_split_range_define(size,
type, max)` (`lib/string.h`, lines 16-102).  `string` is `none` for `NULL`; the pointers
`elements` and `num_elements` are not `NULL`, and the allocations (`calloc`, `strdup`)
succeed. -/
def string_split_range (max : Nat) (strtoul : List Char → Nat × Nat)
    (string : Option (List Char)) (delimiter : List Char) (max_elements errno : Nat) :
    Outcome split_result :=
  match string with
  | none => Outcome.ok ⟨-1, EINVAL, []⟩
  | some s =>
    if max_elements > max then Outcome.ok ⟨-1, EINVAL, []⟩
    else
      match split_range_tokens strtoul max_elements ((max_elements + (4 - 1)) / 4)
          (strtok_r_all s delimiter) (fun _ => 0) errno with
      | SplitStep.next bit_array errno =>
        match collect_range ((max_elements + (4 - 1)) / 4) bit_array (max_elements + 1) 0 with
        | some l => Outcome.ok ⟨0, errno, l⟩
        | none => Outcome.undefined
      | SplitStep.err errno => Outcome.ok ⟨-1, errno, []⟩
      | SplitStep.undefined => Outcome.undefined

/-- Instance `_string_split_range_define(i, int, INT_MAX)`. -/
def string_split_rangei := string_split_range INT_MAX

/-- The call `string_split_range(optarg, ",", MAX_REGIONS, &regions, &num_regions)` of the
option `--regions` in `main` (`main.c`, line 253; `MAX_REGIONS` is 6 there too); `regions`
is an `int *`, which selects `string_split_rangei`.  On the status `-1` `main` calls
`exit`. -/
def main_option_regions (strtoul : List Char → Nat × Nat) (optarg : List Char) (errno : Nat) :
    Outcome split_result :=
  string_split_rangei strtoul (some optarg) [','] MAX_REGIONS errno

/-- Value of the decimal digits at the head of a string. -/
def digits_value : List Char → Nat → Nat
  | [], acc => acc
  | c :: cs, acc =>
    if '0' ≤ c ∧ c ≤ '9' then digits_value cs (10 * acc + (c.toNat - 48)) else acc

/-- Example `strtoul`: what `strtoul(s, NULL, 0)` returns for a string of decimal digits
that does not begin with `0`; `errno` is left at 0. -/
def strtoul_decimal (s : List Char) : Nat × Nat := (digits_value s 0, 0)

/-! ## Configuration registers touched by the sizing loop -/

/-- The configuration offsets (low byte of the address word written to `0xcf8`) at which a
history holds a 32-bit write of all-ones to the data port `0xcfc`, most recent first. -/
def probed_offsets : List Event → List Nat
  | [] => []
  | e :: t =>
    match e, t with
    | Event.io_write size port value, Event.io_write _ address_port a :: _ =>
      if size = 32 ∧ port = 0xcfc ∧ value = 0xffffffff ∧ address_port = 0xcf8 then
        a % 256 :: probed_offsets t
      else probed_offsets t
    | _, _ => probed_offsets t

/-! ## The sizing discipline on the register file -/

/-- The dword that the address word `a` selects, as the register file holds it after a
history: its four bytes, least significant first. -/
def config_dword (a : Nat) (init : Nat → Nat) (t : List Event) : Nat :=
  le_value [(cfg_replay a init t).2 0, (cfg_replay a init t).2 1, (cfg_replay a init t).2 2,
    (cfg_replay a init t).2 3]

/-- Every 32-bit write to the data port `0xcfc` among the accesses `new`, which follow the
history `old`, is made while bits 0 and 1 of the command register (I/O and memory decoding)
are clear.  Both lists have the most recent access first. -/
def bar_writes_decoding_off (a0 : Nat) (init : Nat → Nat) (old : List Event) : List Event → Bool
  | [] => true
  | e :: new =>
    (match e with
      | Event.io_write size port _ =>
        if size = 32 ∧ port = 0xcfc then
          decide (command_register a0 init (new ++ old) &&& 0x03 = 0)
        else true
      | _ => true) && bar_writes_decoding_off a0 init old new

/-- The history `t` extends the history `t0` by accesses among which every 32-bit write to
the data port is made with decoding disabled. -/
def decoding_off_since (a0 : Nat) (init : Nat → Nat) (t0 t : List Event) : Prop :=
  ∃ new, t = new ++ t0 ∧ bar_writes_decoding_off a0 init t0 new = true

/-! ## Further devices and hosts for worked examples -/

/-- Example device: one I/O region of 8 ports at `0x1f0`. -/
def io8_dev : pci_device := { num_regions := 1, regions := fun _ => ⟨0x1f0, 8, 0, true, false⟩ }

/-- Example device: one memory region of 4096 bytes whose mapping failed. -/
def unmapped_dev : pci_device :=
  { num_regions := 1, regions := fun _ => ⟨0xfe000000, 4096, MAP_FAILED, false, false⟩ }

/-- Example host: every port reads `0xFFFFFFFF`; otherwise as `zero_env`. -/
def ones_env : Env := { zero_env with io_read := fun _ _ _ => 0xFFFFFFFF }

/-- Example device: one I/O region of 8 ports whose base address is `0xFFFC`, so that the
region reaches past the last port, `0xFFFF`. -/
def wide_io_dev : pci_device :=
  { num_regions := 1, regions := fun _ => ⟨0xFFFC, 8, 0, true, false⟩ }

/-- Example device: two memory regions of 4096 bytes, both mapped. -/
def two_mem_dev : pci_device :=
  { num_regions := 2,
    regions := fun i =>
      if i = 0 then ⟨0xfe000000, 4096, 0x7f0000000000, false, false⟩
      else ⟨0xfd000000, 4096, 0x7f0000001000, false, false⟩ }

/-- Example host: as `zero_env`, but the first call of `munmap` fails with `EINVAL`; every
later call would succeed. -/
def munmap_fails_once_env : Env :=
  { zero_env with munmap := fun t _ _ => if t = [] then (-1, EINVAL) else (0, 0) }

/-- Example host: BAR0 holds a memory BAR with the reserved type field `0b11`, saved
`0xFE000006`, reading `0xFFFFF006` after the all-ones write; the next slot reads zero and
all-ones after the all-ones write. -/
def mem_type3_env : Env :=
  example_env (table [(16, 0xFE000006)]) (table [(16, 0xFFFFF006), (20, 0xFFFFFFFF)])
    (0x7f0000000000, 0)

/-- Example host: a PCI-to-PCI bridge (header type 1, two BAR slots) whose BAR0 and BAR1
hold a 64-bit memory BAR, saved `0xFE00000C` and `0x00000001`. -/
def bridge_mem64_env : Env :=
  example_env (table [(12, 0x01 <<< 16), (16, 0xFE00000C), (20, 0x00000001)])
    (table [(16, 0xFFFFF000), (20, 0xFFFFFFFF)]) (0x7f0000000000, 0)

/-! ## Hosts and devices for the unmapping examples -/

/-- Error number `ENOMEM` of `<errno.h>` (Linux). -/
def ENOMEM : Nat := 12

/-- Example host: BAR0 holds the 32-bit memory BAR `0xFE000000` (reading `0xFF000000` after
the all-ones write), and `mmap` fails with `ENOMEM`. -/
def mmap_fails_env : Env :=
  example_env (table [(16, 0xFE000000)]) (table [(16, 0xFF000000)]) (MAP_FAILED, ENOMEM)

/-- Example host: as `mmap_fails_env`, and `munmap` rejects a zero length with `EINVAL`, as
Linux does. -/
def mmap_fails_strict_env : Env :=
  { mmap_fails_env with munmap := fun _ _ length => if length = 0 then (-1, EINVAL) else (0, 0) }

/-- The event is a call of `munmap`. -/
def Event.is_munmap : Event → Bool
  | Event.munmap _ _ _ => true
  | _ => false

/-! ## Arithmetic of the masks -/

theorem and_shiftLeft_mask (x k n : Nat) : x &&& (k <<< n) = ((x >>> n) &&& k) <<< n := by
  apply Nat.eq_of_testBit_eq
  intro i
  simp only [Nat.testBit_and, Nat.testBit_shiftLeft, Nat.testBit_shiftRight]
  by_cases h : n ≤ i
  · simp [h, Nat.add_sub_cancel' h]
  · simp [h]

theorem and_bnot64_0f (x : Nat) (hx : x < 2 ^ 64) : x &&& bnot 64 0x0f = x / 16 * 16 := by
  have h : bnot 64 0x0f = (2 ^ 60 - 1) <<< 4 := by decide
  rw [h, and_shiftLeft_mask, Nat.and_pow_two_sub_one_eq_mod, Nat.shiftRight_eq_div_pow,
    Nat.shiftLeft_eq]
  have : x / 2 ^ 4 < 2 ^ 60 := by omega
  rw [Nat.mod_eq_of_lt this]
  norm_num

theorem and_bnot64_01 (x : Nat) (hx : x < 2 ^ 64) : x &&& bnot 64 0x01 = x / 2 * 2 := by
  have h : bnot 64 0x01 = (2 ^ 63 - 1) <<< 1 := by decide
  rw [h, and_shiftLeft_mask, Nat.and_pow_two_sub_one_eq_mod, Nat.shiftRight_eq_div_pow,
    Nat.shiftLeft_eq]
  have : x / 2 ^ 1 < 2 ^ 63 := by omega
  rw [Nat.mod_eq_of_lt this]
  norm_num

theorem or_shiftLeft_32 (lo hi : Nat) (hlo : lo < 2 ^ 32) :
    lo ||| (hi <<< 32) = 2 ^ 32 * hi + lo := by
  have := Nat.mul_add_lt_is_or hlo hi
  rw [Nat.or_comm, Nat.shiftLeft_eq, Nat.mul_comm, ← this]

/-! ## Structure of the sizing loop -/

theorem size_bar32_size (env : Env) (d : pci_device) (j : Nat) (w : World) :
    (size_bar32 env d j w).size = (size_bar32 env d j w).probe ||| (0xffffffff <<< 32) := rfl

theorem size_bar32_probe_lt (env : Env) (d : pci_device) (j : Nat) (w : World) :
    (size_bar32 env d j w).probe < 2 ^ 32 := by
  simp only [size_bar32, pci_config_read32, pci_config_read, io_read]
  exact Nat.mod_lt _ (by norm_num)

theorem size_bar32_base_lt (env : Env) (d : pci_device) (j : Nat) (w : World) :
    (size_bar32 env d j w).base_address < 2 ^ 32 := by
  simp only [size_bar32, pci_config_read32, pci_config_read, io_read]
  exact Nat.mod_lt _ (by norm_num)

/-- The sizing of a BAR uses only the address triple of the device. -/
theorem size_bar32_congr (env : Env) (d d' : pci_device) (j : Nat) (w : World)
    (hb : d'.bus = d.bus) (hd : d'.device = d.device) (hf : d'.function = d.function) :
    size_bar32 env d' j w = size_bar32 env d j w := by
  simp only [size_bar32, hb, hd, hf]

theorem size_bar64_congr (env : Env) (d d' : pci_device) (j c b s : Nat) (w : World)
    (hb : d'.bus = d.bus) (hd : d'.device = d.device) (hf : d'.function = d.function) :
    size_bar64 env d' j c b s w = size_bar64 env d j c b s w := by
  simp only [size_bar64, hb, hd, hf]

theorem size_bar64_j (env : Env) (d : pci_device) (j c b s : Nat) (w : World) :
    (size_bar64 env d j c b s w).j = j + 4 := rfl

theorem size_bar64_base (env : Env) (d : pci_device) (j c b s : Nat) (w : World) :
    (size_bar64 env d j c b s w).base_address
      = b ||| ((size_bar64 env d j c b s w).high_saved <<< 32) := rfl

theorem size_bar64_size (env : Env) (d : pci_device) (j c b s : Nat) (w : World) :
    (size_bar64 env d j c b s w).size
      = s ||| ((size_bar64 env d j c b s w).high_probe <<< 32) := rfl

theorem size_bar64_high_probe_lt (env : Env) (d : pci_device) (j c b s : Nat) (w : World) :
    (size_bar64 env d j c b s w).high_probe < 2 ^ 32 := by
  simp only [size_bar64, pci_config_read32, pci_config_read, io_read]
  exact Nat.mod_lt _ (by norm_num)

theorem size_bar64_high_saved_lt (env : Env) (d : pci_device) (j c b s : Nat) (w : World) :
    (size_bar64 env d j c b s w).high_saved < 2 ^ 32 := by
  simp only [size_bar64, pci_config_read32, pci_config_read, io_read]
  exact Nat.mod_lt _ (by norm_num)

/-- Mapping a region changes only the `map` field of that region. -/
theorem map_region_regions (env : Env) (d : pci_device) (i k : Nat) (w : World) :
    ((map_region env d i w).2.1.regions k).base_address = (d.regions k).base_address ∧
    ((map_region env d i w).2.1.regions k).size = (d.regions k).size ∧
    ((map_region env d i w).2.1.regions k).is_io = (d.regions k).is_io ∧
    ((map_region env d i w).2.1.regions k).is_64 = (d.regions k).is_64 ∧
    (k ≠ i → (map_region env d i w).2.1.regions k = d.regions k) := by
  unfold map_region
  by_cases hk : k = i
  · subst hk
    simp only [pci_device.set_region]
    split_ifs <;> simp
  · simp only [pci_device.set_region]
    split_ifs <;> simp [Function.update_noteq hk]

theorem map_region_header (env : Env) (d : pci_device) (i : Nat) (w : World) :
    (map_region env d i w).2.1.bus = d.bus ∧ (map_region env d i w).2.1.device = d.device ∧
    (map_region env d i w).2.1.function = d.function ∧
    (map_region env d i w).2.1.class_code = d.class_code ∧
    (map_region env d i w).2.1.num_regions = d.num_regions := by
  unfold map_region
  simp only [pci_device.set_region]
  split_ifs <;> simp
theorem set_region_same (d : pci_device) (i : Nat) (r : region) :
    (d.set_region i r).regions i = r := by
  simp [pci_device.set_region]

theorem set_region_ne (d : pci_device) (i k : Nat) (r : region) (h : k ≠ i) :
    (d.set_region i r).regions k = d.regions k := by
  simp [pci_device.set_region, Function.update_noteq h]

/-- The body of the loop writes only the descriptor of its own region. -/
theorem regions_map_body_regions_ne (env : Env) (d : pci_device) (i j k : Nat) (w : World)
    (h : k ≠ i) : (regions_map_body env d i j w).2.1.regions k = d.regions k := by
  unfold regions_map_body
  simp only []
  split_ifs <;>
    simp [(map_region_regions env _ i k _).2.2.2.2 h, set_region_ne _ _ _ _ h]

theorem regions_map_body_header (env : Env) (d : pci_device) (i j : Nat) (w : World) :
    (regions_map_body env d i j w).2.1.bus = d.bus ∧
    (regions_map_body env d i j w).2.1.device = d.device ∧
    (regions_map_body env d i j w).2.1.function = d.function ∧
    (regions_map_body env d i j w).2.1.class_code = d.class_code ∧
    (regions_map_body env d i j w).2.1.num_regions = d.num_regions := by
  unfold regions_map_body
  simp only []
  split_ifs <;> simp [map_region_header, pci_device.set_region]
/-- The body of the loop on an I/O BAR (bit 0 of the saved value, after the ATA
substitution, is set). -/
theorem regions_map_body_io (env : Env) (d : pci_device) (i j : Nat) (w : World)
    (h : (ata_compat_override d j (size_bar32 env d j w).base_address
            (size_bar32 env d j w).size).1 &&& 0x01 ≠ 0) :
    (regions_map_body env d i j w).1 = true ∧
    (regions_map_body env d i j w).2.2.1 = j ∧
    (regions_map_body env d i j w).2.2.2 = (size_bar32 env d j w).world ∧
    (regions_map_body env d i j w).2.1.regions i =
      { d.regions i with
        is_io := true
        base_address := (ata_compat_override d j (size_bar32 env d j w).base_address
            (size_bar32 env d j w).size).1 &&& bnot 64 0x01
        size := (bnot 64 ((ata_compat_override d j (size_bar32 env d j w).base_address
            (size_bar32 env d j w).size).2 &&& bnot 64 0x01) + 1) % 2 ^ 64 } := by
  unfold regions_map_body
  simp only [h, ne_eq, not_false_eq_true, if_true, set_region_same]
  simp

/-- The body of the loop on a 32-bit memory BAR (bits 0 and 2 clear). -/
theorem regions_map_body_mem32 (env : Env) (d : pci_device) (i j : Nat) (w : World)
    (h0 : (ata_compat_override d j (size_bar32 env d j w).base_address
            (size_bar32 env d j w).size).1 &&& 0x01 = 0)
    (h2 : (ata_compat_override d j (size_bar32 env d j w).base_address
            (size_bar32 env d j w).size).1 &&& 0x04 = 0) :
    (regions_map_body env d i j w).2.2.1 = j ∧
    ((regions_map_body env d i j w).2.1.regions i).is_io = (d.regions i).is_io ∧
    ((regions_map_body env d i j w).2.1.regions i).is_64 = (d.regions i).is_64 ∧
    ((regions_map_body env d i j w).2.1.regions i).base_address =
      (ata_compat_override d j (size_bar32 env d j w).base_address
            (size_bar32 env d j w).size).1 &&& bnot 64 0x0f ∧
    ((regions_map_body env d i j w).2.1.regions i).size =
      (bnot 64 ((ata_compat_override d j (size_bar32 env d j w).base_address
            (size_bar32 env d j w).size).2 &&& bnot 64 0x0f) + 1) % 2 ^ 64 := by
  unfold regions_map_body
  simp only [h0, h2, ne_eq, not_true_eq_false, if_false, set_region_same]
  split_ifs <;> simp [map_region_regions, set_region_same]

/-- The body of the loop on a 64-bit memory BAR (bit 0 clear, bit 2 set). -/
theorem regions_map_body_mem64 (env : Env) (d : pci_device) (i j : Nat) (w : World)
    (h0 : (ata_compat_override d j (size_bar32 env d j w).base_address
            (size_bar32 env d j w).size).1 &&& 0x01 = 0)
    (h2 : (ata_compat_override d j (size_bar32 env d j w).base_address
            (size_bar32 env d j w).size).1 &&& 0x04 ≠ 0) :
    (regions_map_body env d i j w).2.2.1 = j + 4 ∧
    ((regions_map_body env d i j w).2.1.regions i).is_io = (d.regions i).is_io ∧
    ((regions_map_body env d i j w).2.1.regions i).is_64 = true ∧
    ((regions_map_body env d i j w).2.1.regions i).base_address =
      (size_bar64 env d j (size_bar32 env d j w).command
        (ata_compat_override d j (size_bar32 env d j w).base_address
            (size_bar32 env d j w).size).1
        (ata_compat_override d j (size_bar32 env d j w).base_address
            (size_bar32 env d j w).size).2
        (size_bar32 env d j w).world).base_address &&& bnot 64 0x0f ∧
    ((regions_map_body env d i j w).2.1.regions i).size =
      (bnot 64 ((size_bar64 env d j (size_bar32 env d j w).command
        (ata_compat_override d j (size_bar32 env d j w).base_address
            (size_bar32 env d j w).size).1
        (ata_compat_override d j (size_bar32 env d j w).base_address
            (size_bar32 env d j w).size).2
        (size_bar32 env d j w).world).size &&& bnot 64 0x0f) + 1) % 2 ^ 64 := by
  have hc : ∀ r c b s w', size_bar64 env (d.set_region i r) j c b s w' = size_bar64 env d j c b s w' :=
    fun r c b s w' => size_bar64_congr env d _ j c b s w' rfl rfl rfl
  unfold regions_map_body
  simp only [h0, h2, ne_eq, not_true_eq_false, not_false_eq_true, if_false, if_true,
    set_region_same, hc, size_bar64_j]
  split_ifs <;> simp [map_region_regions, set_region_same]
/-- Later iterations leave the descriptors of earlier regions alone. -/
theorem regions_map_from_regions_lt (env : Env) (n : Nat) :
    ∀ (d : pci_device) (i j : Nat) (w : World) (k : Nat), k < i →
      (regions_map_from env n d i j w).2.1.regions k = d.regions k := by
  induction n with
  | zero => intro d i j w k _; rfl
  | succ n ih =>
    intro d i j w k hk
    unfold regions_map_from
    simp only []
    split_ifs
    · rw [ih _ _ _ _ k (by omega)]
      exact regions_map_body_regions_ne env d i j k w (by omega)
    · exact regions_map_body_regions_ne env d i j k w (by omega)

theorem regions_map_from_header (env : Env) (n : Nat) :
    ∀ (d : pci_device) (i j : Nat) (w : World),
      (regions_map_from env n d i j w).2.1.bus = d.bus ∧
      (regions_map_from env n d i j w).2.1.device = d.device ∧
      (regions_map_from env n d i j w).2.1.function = d.function ∧
      (regions_map_from env n d i j w).2.1.class_code = d.class_code ∧
      (regions_map_from env n d i j w).2.1.num_regions = d.num_regions := by
  induction n with
  | zero => intro d i j w; exact ⟨rfl, rfl, rfl, rfl, rfl⟩
  | succ n ih =>
    intro d i j w
    have hb := regions_map_body_header env d i j w
    unfold regions_map_from
    simp only []
    split_ifs
    · have := ih (regions_map_body env d i j w).2.1 (i + 1)
        ((regions_map_body env d i j w).2.2.1 + 4) (regions_map_body env d i j w).2.2.2
      simp only [this, hb, and_self]
    · exact hb

/-- The descriptor of region `i` is the one the iteration for `i` stores. -/
theorem regions_map_from_region (env : Env) (n : Nat) (d : pci_device) (i j : Nat) (w : World) :
    (regions_map_from env (n + 1) d i j w).2.1.regions i
      = (regions_map_body env d i j w).2.1.regions i := by
  rw [regions_map_from]
  split_ifs
  · exact regions_map_from_regions_lt env n _ _ _ _ i (by omega)
  · rfl

/-- From the entry of iteration `k` on, the function runs the remaining iterations. -/
theorem regions_map_from_entry (env : Env) (d : pci_device) (w : World) (k : Nat) :
    ∀ (n : Nat) (s : pci_device × Nat × World), regions_map_entry env d w k = some s →
      regions_map_from env (k + n) d 0 16 w = regions_map_from env n s.1 k s.2.1 s.2.2 := by
  induction k with
  | zero =>
    intro n s hs
    simp only [regions_map_entry, Option.some.injEq] at hs
    subst hs
    simp
  | succ k ih =>
    intro n s hs
    rw [regions_map_entry] at hs
    cases hk : regions_map_entry env d w k with
    | none => simp [hk] at hs
    | some s' =>
      simp only [hk] at hs
      split_ifs at hs with hb
      simp only [Option.some.injEq] at hs
      subst hs
      have := ih (n + 1) s' hk
      rw [show k + 1 + n = k + (n + 1) by omega, this, regions_map_from]
      simp [hb]

/-- On entry to iteration `k` the descriptors from `k` on and the header fields are as
the function received them. -/
theorem regions_map_entry_frame (env : Env) (d : pci_device) (w : World) (k : Nat) :
    ∀ (s : pci_device × Nat × World), regions_map_entry env d w k = some s →
      (∀ m, k ≤ m → s.1.regions m = d.regions m) ∧
      s.1.bus = d.bus ∧ s.1.device = d.device ∧ s.1.function = d.function ∧
      s.1.class_code = d.class_code ∧ s.1.num_regions = d.num_regions := by
  induction k with
  | zero =>
    intro s hs
    simp only [regions_map_entry, Option.some.injEq] at hs
    subst hs
    simp
  | succ k ih =>
    intro s hs
    rw [regions_map_entry] at hs
    cases hk : regions_map_entry env d w k with
    | none => simp [hk] at hs
    | some s' =>
      simp only [hk] at hs
      split_ifs at hs with hb
      simp only [Option.some.injEq] at hs
      subst hs
      obtain ⟨h1, h2⟩ := ih s' hk
      have hh := regions_map_body_header env s'.1 k s'.2.1 s'.2.2
      refine ⟨fun m hm => ?_, ?_⟩
      · rw [regions_map_body_regions_ne env s'.1 k s'.2.1 m s'.2.2 (by omega)]
        exact h1 m (by omega)
      · simp only [hh, h2, and_self]

/-- The descriptor of region `k` in the device `pci_device_regions_map` leaves behind is
the one stored by the body run from the entry state of iteration `k`. -/
theorem regions_map_region (env : Env) (d : pci_device) (w : World) (k : Nat)
    (s : pci_device × Nat × World) (hk : k < d.num_regions)
    (hs : regions_map_entry env d w k = some s) :
    (pci_device_regions_map env d w).2.1.regions k
      = (regions_map_body env s.1 k s.2.1 s.2.2).2.1.regions k := by
  unfold pci_device_regions_map
  obtain ⟨n, hn⟩ : ∃ n, d.num_regions = k + (n + 1) := ⟨d.num_regions - k - 1, by omega⟩
  rw [hn, regions_map_from_entry env d w k (n + 1) s hs, regions_map_from_region]

/-! ## The region access surface -/

/-- C1: for every device, region index `i`, offset `off` and element size (in particular
8, 16 and 32): when `i >= num_regions` or `off >= size(i)`, the read reports `EINVAL`
(sets `errno` and calls the error handler with it), returns the all-bits-one value of the
element type and performs no port or memory access; the write reports `EINVAL` and
performs no port or memory access. -/
theorem region_access_out_of_range (env : Env) (d : pci_device) (size i off v : Nat) (w : World)
    (h : i ≥ d.num_regions ∨ off ≥ (d.regions i).size) :
    (pci_device_region_read size env d i off w).1 = 2 ^ size - 1 ∧
    (pci_device_region_read size env d i off w).2.errno = EINVAL ∧
    (pci_device_region_read size env d i off w).2.reports
      = ⟨EINVAL, "pci_device_region_read" ++ toString size⟩ :: w.reports ∧
    (pci_device_region_read size env d i off w).2.trace = w.trace ∧
    (pci_device_region_write size d i off v w).errno = EINVAL ∧
    (pci_device_region_write size d i off v w).reports
      = ⟨EINVAL, "pci_device_region_write" ++ toString size⟩ :: w.reports ∧
    (pci_device_region_write size d i off v w).trace = w.trace := by
  simp [pci_device_region_read, pci_device_region_write, h, set_errno, pci_device_error]

/-- Witness of C1: a device with one I/O region of 8 ports at `0x1f0`, accessed with
16-bit elements at offset 8. -/
theorem region_access_out_of_range_witness :
    (0 ≥ ({ num_regions := 1, regions := fun _ => ⟨0x1f0, 8, 0, true, false⟩ } : pci_device).num_regions
      ∨ 8 ≥ (({ num_regions := 1, regions := fun _ => ⟨0x1f0, 8, 0, true, false⟩ } : pci_device).regions 0).size) ∧
    (pci_device_region_read 16 (example_env (fun _ => 0) (fun _ => 0) (0, 0))
      { num_regions := 1, regions := fun _ => ⟨0x1f0, 8, 0, true, false⟩ } 0 8 {}).1 = 2 ^ 16 - 1 :=
  ⟨Or.inr (by decide),
   (region_access_out_of_range (example_env (fun _ => 0) (fun _ => 0) (0, 0))
      { num_regions := 1, regions := fun _ => ⟨0x1f0, 8, 0, true, false⟩ } 16 0 8 0 {}
      (Or.inr (by decide))).1⟩

/-! ## Sizing of a single BAR -/

theorem ata_compat_override_of_not (d : pci_device) (j b s : Nat)
    (h : ¬(pci_device_is_ata_controller d = true ∧ d.class_code &&& 0x05 = 0 ∧ b = 0 ∧
      (j = 16 ∨ j = 20 ∨ j = 24 ∨ j = 28))) :
    ata_compat_override d j b s = (b, s) := by
  unfold ata_compat_override
  split_ifs <;> simp_all

theorem ata_compat_override_of_ne_zero (d : pci_device) (j b s : Nat) (h : b ≠ 0) :
    ata_compat_override d j b s = (b, s) :=
  ata_compat_override_of_not d j b s (fun hh => h hh.2.2.1)

theorem mem32_size_eq (m : Nat) (hm : m < 2 ^ 32) :
    (bnot 64 ((m ||| (0xffffffff <<< 32)) &&& bnot 64 0x0f) + 1) % 2 ^ 64 = 2 ^ 32 - m / 16 * 16 := by
  rw [or_shiftLeft_32 m _ hm, and_bnot64_0f _ (by omega)]
  unfold bnot
  omega

theorem and_fffffff0 (m : Nat) (hm : m < 2 ^ 32) : m &&& 0xFFFFFFF0 = m / 16 * 16 := by
  have h : (0xFFFFFFF0 : Nat) = (2 ^ 28 - 1) <<< 4 := by decide
  rw [h, and_shiftLeft_mask, Nat.and_pow_two_sub_one_eq_mod, Nat.shiftRight_eq_div_pow,
    Nat.shiftLeft_eq]
  have : m / 2 ^ 4 < 2 ^ 28 := by omega
  rw [Nat.mod_eq_of_lt this]
  norm_num

/-- The descriptor stored for a 32-bit memory BAR that the ATA substitution leaves alone. -/
theorem regions_map_mem32 (env : Env) (d : pci_device) (w : World) (k : Nat)
    (s : pci_device × Nat × World) (orig m : Nat)
    (hk : k < d.num_regions)
    (hs : regions_map_entry env d w k = some s)
    (horig : (size_bar32 env s.1 s.2.1 s.2.2).base_address = orig)
    (hprobe : (size_bar32 env s.1 s.2.1 s.2.2).probe = m)
    (h0 : orig &&& 0x01 = 0) (h2 : orig &&& 0x04 = 0)
    (hata : ¬(pci_device_is_ata_controller d = true ∧ d.class_code &&& 0x05 = 0 ∧ orig = 0 ∧
      (s.2.1 = 16 ∨ s.2.1 = 20 ∨ s.2.1 = 24 ∨ s.2.1 = 28))) :
    ((pci_device_regions_map env d w).2.1.regions k).is_io = (d.regions k).is_io ∧
    ((pci_device_regions_map env d w).2.1.regions k).is_64 = (d.regions k).is_64 ∧
    ((pci_device_regions_map env d w).2.1.regions k).base_address = orig &&& bnot 64 0x0f ∧
    ((pci_device_regions_map env d w).2.1.regions k).size = 2 ^ 32 - m / 16 * 16 := by
  obtain ⟨hreg, -, -, -, hcc, -⟩ := regions_map_entry_frame env d w k s hs
  have hata' : ¬(pci_device_is_ata_controller s.1 = true ∧ s.1.class_code &&& 0x05 = 0 ∧
      orig = 0 ∧ (s.2.1 = 16 ∨ s.2.1 = 20 ∨ s.2.1 = 24 ∨ s.2.1 = 28)) := by
    simpa only [pci_device_is_ata_controller, hcc] using hata
  have ho := ata_compat_override_of_not s.1 s.2.1 orig (size_bar32 env s.1 s.2.1 s.2.2).size hata'
  have hm : m < 2 ^ 32 := hprobe ▸ size_bar32_probe_lt env s.1 s.2.1 s.2.2
  have hb := regions_map_body_mem32 env s.1 k s.2.1 s.2.2
    (by rw [horig, ho]; exact h0) (by rw [horig, ho]; exact h2)
  rw [horig, ho, size_bar32_size, hprobe, hreg k (le_refl k), mem32_size_eq m hm] at hb
  rw [regions_map_region env d w k s hk hs]
  exact hb.2

/-- C2 (amended): for a BAR slot whose saved value reads 0 and whose all-ones probe reads
back 0, on a device that is not an ATA controller, the region `pci_device_regions_map`
leaves is a 32-bit memory region at base 0 of size `2^32` (not 0).  An access to it fails
with `EINVAL`, without touching memory, when the offset is at least `2^32` or the mapping
failed; otherwise it is a load or a store through the mapping and nothing is reported. -/
theorem zero_bar_region (env : Env) (d : pci_device) (w : World) (k : Nat)
    (s : pci_device × Nat × World)
    (hk : k < d.num_regions)
    (hs : regions_map_entry env d w k = some s)
    (hfresh : d.regions k = {})
    (hata : pci_device_is_ata_controller d = false)
    (horig : (size_bar32 env s.1 s.2.1 s.2.2).base_address = 0)
    (hprobe : (size_bar32 env s.1 s.2.1 s.2.2).probe = 0) :
    ((pci_device_regions_map env d w).2.1.regions k).size = 2 ^ 32 ∧
    ((pci_device_regions_map env d w).2.1.regions k).base_address = 0 ∧
    ((pci_device_regions_map env d w).2.1.regions k).is_io = false ∧
    ((pci_device_regions_map env d w).2.1.regions k).is_64 = false ∧
    ∀ (size off v : Nat) (w' : World),
      (off ≥ 2 ^ 32 ∨ ((pci_device_regions_map env d w).2.1.regions k).map = MAP_FAILED →
        (pci_device_region_read size env (pci_device_regions_map env d w).2.1 k off w').1
          = 2 ^ size - 1 ∧
        (pci_device_region_read size env (pci_device_regions_map env d w).2.1 k off w').2.errno
          = EINVAL ∧
        (pci_device_region_read size env (pci_device_regions_map env d w).2.1 k off w').2.trace
          = w'.trace ∧
        (pci_device_region_write size (pci_device_regions_map env d w).2.1 k off v w').errno
          = EINVAL ∧
        (pci_device_region_write size (pci_device_regions_map env d w).2.1 k off v w').trace
          = w'.trace) ∧
      (off < 2 ^ 32 → ((pci_device_regions_map env d w).2.1.regions k).map ≠ MAP_FAILED →
        (pci_device_region_read size env (pci_device_regions_map env d w).2.1 k off w').2
          = { w' with trace := (Event.load size
                ((pci_device_regions_map env d w).2.1.regions k).map off
                (pci_device_region_read size env (pci_device_regions_map env d w).2.1 k off w').1
                :: w'.trace) } ∧
        pci_device_region_write size (pci_device_regions_map env d w).2.1 k off v w'
          = { w' with trace := (Event.store size
                ((pci_device_regions_map env d w).2.1.regions k).map off (v % 2 ^ size)
                :: w'.trace) }) := by
  have h := regions_map_mem32 env d w k s 0 0 hk hs horig hprobe (by decide) (by decide)
    (by simp [hata])
  rw [hfresh] at h
  have hn : (pci_device_regions_map env d w).2.1.num_regions = d.num_regions :=
    (regions_map_from_header env d.num_regions d 0 16 w).2.2.2.2
  have hsz : ((pci_device_regions_map env d w).2.1.regions k).size = 2 ^ 32 := by
    rw [h.2.2.2]; norm_num
  have hio : ((pci_device_regions_map env d w).2.1.regions k).is_io = false := h.1
  refine ⟨hsz, by rw [h.2.2.1]; rfl, hio, h.2.1, ?_⟩
  intro size off v w'
  constructor
  · intro hfail
    have hc : ¬(k ≥ (pci_device_regions_map env d w).2.1.num_regions) := by omega
    rcases hfail with hoff | hmap
    · have : off ≥ ((pci_device_regions_map env d w).2.1.regions k).size := by omega
      simp [pci_device_region_read, pci_device_region_write, this, set_errno, pci_device_error]
    · by_cases hoff : off ≥ ((pci_device_regions_map env d w).2.1.regions k).size
      · simp [pci_device_region_read, pci_device_region_write, hoff, set_errno, pci_device_error]
      · simp [pci_device_region_read, pci_device_region_write, hoff, hc, hio, hmap, set_errno,
          pci_device_error]
  · intro hoff hmap
    have hc : ¬(k ≥ (pci_device_regions_map env d w).2.1.num_regions ∨
        off ≥ ((pci_device_regions_map env d w).2.1.regions k).size) := by omega
    simp [pci_device_region_read, pci_device_region_write, hc, hio, hmap]

/-- Witness of C2 (amended): BAR0 of a device whose configuration space reads all zero. -/
theorem zero_bar_region_witness :
    (size_bar32 zero_env (example_dev 0) 16 {}).base_address = 0 ∧
    (size_bar32 zero_env (example_dev 0) 16 {}).probe = 0 ∧
    ((pci_device_regions_map zero_env (example_dev 0) {}).2.1.regions 0).size = 2 ^ 32 :=
  ⟨by decide, by decide,
   (zero_bar_region zero_env (example_dev 0) {} 0 (example_dev 0, 16, {}) (by decide) rfl rfl
      (by decide) (by decide) (by decide)).1⟩

/-- Counterexample to C2: a device whose configuration space reads all zero (so it is
not an ATA controller, and BAR0 saves 0 and probes 0).  Region 0 gets size `0x100000000`,
not 0, and an 8-bit read at offset 0 is a load through the mapping that reports nothing. -/
theorem zero_bar_counterexample :
    ((pci_device_create zero_env 0 0 0 {}).1.map fun d =>
        (pci_device_is_ata_controller d, (d.regions 0).size,
          (pci_device_region_read 8 zero_env d 0 0 {}).2))
      = some (false, 0x100000000,
          { trace := [Event.load 8 0x7f0000000000 0 0], errno := 0, reports := [] }) ∧
    (size_bar32 zero_env (example_dev 0) 16 {}).base_address = 0 ∧
    (size_bar32 zero_env (example_dev 0) 16 {}).probe = 0 ∧
    ((pci_device_regions_map zero_env (example_dev 0) {}).2.1.regions 0).size ≠ 0 ∧
    (pci_device_region_read 8 zero_env (pci_device_regions_map zero_env (example_dev 0) {}).2.1
      0 0 {}).2.errno ≠ EINVAL := by
  refine ⟨?_, by decide, by decide, by decide, by decide⟩
  decide

/-- C3 (amended): for every 32-bit memory BAR (saved value `orig` with bits 0 and 2 clear)
whose all-ones probe reads back `m` and to which the ATA legacy-port substitution does not
apply, `pci_device_regions_map` leaves a region with `is_io = false`, `is_64 = false`,
`base_address = orig & ~0xF` and `size = (~(0xFFFFFFFF00000000 | (m & ~0xF)) + 1) mod 2^64`,
which is `2^32 - (m & 0xFFFFFFF0)`.  The region index is `k`, the BAR is the one under the
cursor on entry to iteration `k`, and the descriptor is as `calloc` left it. -/
theorem mem32_bar_region (env : Env) (d : pci_device) (w : World) (k : Nat)
    (s : pci_device × Nat × World) (orig m : Nat)
    (hk : k < d.num_regions)
    (hs : regions_map_entry env d w k = some s)
    (hfresh : d.regions k = {})
    (horig : (size_bar32 env s.1 s.2.1 s.2.2).base_address = orig)
    (hprobe : (size_bar32 env s.1 s.2.1 s.2.2).probe = m)
    (h0 : orig &&& 0x01 = 0) (h2 : orig &&& 0x04 = 0)
    (hata : ¬(pci_device_is_ata_controller d = true ∧ d.class_code &&& 0x05 = 0 ∧ orig = 0 ∧
      (s.2.1 = 16 ∨ s.2.1 = 20 ∨ s.2.1 = 24 ∨ s.2.1 = 28))) :
    ((pci_device_regions_map env d w).2.1.regions k).is_io = false ∧
    ((pci_device_regions_map env d w).2.1.regions k).is_64 = false ∧
    ((pci_device_regions_map env d w).2.1.regions k).base_address = orig &&& bnot 64 0x0f ∧
    ((pci_device_regions_map env d w).2.1.regions k).size
      = (bnot 64 (0xFFFFFFFF00000000 ||| (m &&& bnot 64 0x0f)) + 1) % 2 ^ 64 ∧
    ((pci_device_regions_map env d w).2.1.regions k).size = 2 ^ 32 - (m &&& 0xFFFFFFF0) := by
  have h := regions_map_mem32 env d w k s orig m hk hs horig hprobe h0 h2 hata
  have hm : m < 2 ^ 32 := hprobe ▸ size_bar32_probe_lt env s.1 s.2.1 s.2.2
  rw [hfresh] at h
  refine ⟨h.1, h.2.1, h.2.2.1, ?_, ?_⟩
  · rw [h.2.2.2, and_bnot64_0f m (by omega)]
    have : 0xFFFFFFFF00000000 ||| (m / 16 * 16) = 2 ^ 32 * 0xFFFFFFFF + m / 16 * 16 := by
      rw [Nat.or_comm]
      exact or_shiftLeft_32 (m / 16 * 16) 0xFFFFFFFF (by omega)
    rw [this]
    unfold bnot
    omega
  · rw [h.2.2.2, and_fffffff0 m hm]

/-- Witness of C3 (amended): BAR0 saves `0xFE000000` and probes `0xFF000000`; region 0 has
base `0xFE000000` and size `0x01000000`. -/
theorem mem32_bar_region_witness :
    (size_bar32 mem32_env (example_dev 0) 16 {}).base_address = 0xFE000000 ∧
    (size_bar32 mem32_env (example_dev 0) 16 {}).probe = 0xFF000000 ∧
    ((pci_device_regions_map mem32_env (example_dev 0) {}).2.1.regions 0).is_io = false ∧
    ((pci_device_regions_map mem32_env (example_dev 0) {}).2.1.regions 0).is_64 = false ∧
    ((pci_device_regions_map mem32_env (example_dev 0) {}).2.1.regions 0).base_address
      = 0xFE000000 ∧
    ((pci_device_regions_map mem32_env (example_dev 0) {}).2.1.regions 0).size = 0x01000000 :=
  have h := mem32_bar_region mem32_env (example_dev 0) {} 0 (example_dev 0, 16, {})
    0xFE000000 0xFF000000 (by decide) rfl rfl (by decide) (by decide) (by decide) (by decide)
    (by decide)
  ⟨by decide, by decide, h.1, h.2.1, h.2.2.1.trans (by decide), h.2.2.2.2.trans (by decide)⟩

/-- Counterexample to C3: on an ATA/IDE controller in compatibility mode (class code
`0x010100`) the saved value 0 of BAR0 has bits 0 and 2 clear, yet region 0 is an I/O region
at `0x1f0`. -/
theorem mem32_bar_counterexample :
    ((pci_device_create ata_env 0 0 0 {}).1.map fun d => (d.class_code, d.regions 0))
      = some (0x010100, ⟨0x1f0, 8, 0, true, false⟩) ∧
    (size_bar32 ata_env (example_dev 0x010100) 16 {}).base_address = 0 ∧
    0 &&& 0x01 = 0 ∧ 0 &&& 0x04 = 0 ∧
    ((pci_device_regions_map ata_env (example_dev 0x010100) {}).2.1.regions 0).is_io ≠ false ∧
    ((pci_device_regions_map ata_env (example_dev 0x010100) {}).2.1.regions 0).base_address
      ≠ 0 &&& bnot 64 0x0f := by
  refine ⟨by decide, by decide, by decide, by decide, by decide, by decide⟩

/-- The descriptor stored for a 64-bit memory BAR. -/
theorem regions_map_mem64 (env : Env) (d : pci_device) (w : World) (k : Nat)
    (s : pci_device × Nat × World) (lo : Nat)
    (hk : k < d.num_regions)
    (hs : regions_map_entry env d w k = some s)
    (hlo : (size_bar32 env s.1 s.2.1 s.2.2).base_address = lo)
    (h0 : lo &&& 0x01 = 0) (h2 : lo &&& 0x04 ≠ 0) :
    ((pci_device_regions_map env d w).2.1.regions k).is_io = (d.regions k).is_io ∧
    ((pci_device_regions_map env d w).2.1.regions k).is_64 = true ∧
    ((pci_device_regions_map env d w).2.1.regions k).base_address =
      (lo ||| ((size_bar64 env s.1 s.2.1 (size_bar32 env s.1 s.2.1 s.2.2).command lo
        (size_bar32 env s.1 s.2.1 s.2.2).size
        (size_bar32 env s.1 s.2.1 s.2.2).world).high_saved <<< 32)) &&& bnot 64 0x0f ∧
    ((pci_device_regions_map env d w).2.1.regions k).size =
      (bnot 64 ((((size_bar32 env s.1 s.2.1 s.2.2).probe ||| (0xffffffff <<< 32)) |||
        ((size_bar64 env s.1 s.2.1 (size_bar32 env s.1 s.2.1 s.2.2).command lo
          (size_bar32 env s.1 s.2.1 s.2.2).size
          (size_bar32 env s.1 s.2.1 s.2.2).world).high_probe <<< 32)) &&& bnot 64 0x0f) + 1)
        % 2 ^ 64 := by
  obtain ⟨hreg, -, -, -, -, -⟩ := regions_map_entry_frame env d w k s hs
  have hne : lo ≠ 0 := by
    rintro rfl
    simp at h2
  have ho := ata_compat_override_of_ne_zero s.1 s.2.1 lo (size_bar32 env s.1 s.2.1 s.2.2).size hne
  have hb := regions_map_body_mem64 env s.1 k s.2.1 s.2.2
    (by rw [hlo, ho]; exact h0) (by rw [hlo, ho]; exact h2)
  rw [hlo, ho, hreg k (le_refl k)] at hb
  rw [regions_map_region env d w k s hk hs]
  exact hb.2

/-- C4: for every 64-bit memory BAR (saved low word `lo` with bit 0 clear and bit 2 set,
under the cursor on entry to iteration `k`) with saved high word `hi`, read from the next
slot, `pci_device_regions_map` leaves in region `k` a descriptor with `is_64 = true`,
`is_io = false` and `base_address = ((hi << 32) | lo) & ~0xF`; its size is computed from
the low probe `pl` and the high probe `ph` as the code writes it.  The descriptor of region
`k` is as `calloc` left it when the function is entered. -/
theorem mem64_bar_region (env : Env) (d : pci_device) (w : World) (k : Nat)
    (s : pci_device × Nat × World) (lo hi pl ph : Nat)
    (hk : k < d.num_regions)
    (hs : regions_map_entry env d w k = some s)
    (hfresh : d.regions k = {})
    (hlo : (size_bar32 env s.1 s.2.1 s.2.2).base_address = lo)
    (h0 : lo &&& 0x01 = 0) (h2 : lo &&& 0x04 ≠ 0)
    (hhi : (size_bar64 env s.1 s.2.1 (size_bar32 env s.1 s.2.1 s.2.2).command lo
        (size_bar32 env s.1 s.2.1 s.2.2).size
        (size_bar32 env s.1 s.2.1 s.2.2).world).high_saved = hi)
    (hpl : (size_bar32 env s.1 s.2.1 s.2.2).probe = pl)
    (hph : (size_bar64 env s.1 s.2.1 (size_bar32 env s.1 s.2.1 s.2.2).command lo
        (size_bar32 env s.1 s.2.1 s.2.2).size
        (size_bar32 env s.1 s.2.1 s.2.2).world).high_probe = ph) :
    ((pci_device_regions_map env d w).2.1.regions k).is_64 = true ∧
    ((pci_device_regions_map env d w).2.1.regions k).is_io = false ∧
    ((pci_device_regions_map env d w).2.1.regions k).base_address
      = ((hi <<< 32) ||| lo) &&& bnot 64 0x0f ∧
    ((pci_device_regions_map env d w).2.1.regions k).size
      = (bnot 64 (((pl ||| (0xffffffff <<< 32)) ||| (ph <<< 32)) &&& bnot 64 0x0f) + 1) % 2 ^ 64 ∧
    (size_bar64 env s.1 s.2.1 (size_bar32 env s.1 s.2.1 s.2.2).command lo
        (size_bar32 env s.1 s.2.1 s.2.2).size
        (size_bar32 env s.1 s.2.1 s.2.2).world).high_saved
      = (pci_config_read32 env s.1.bus s.1.device s.1.function (s.2.1 + 4)
          (pci_config_write16 s.1.bus s.1.device s.1.function 2
            ((size_bar32 env s.1 s.2.1 s.2.2).command &&& bnot 32 0x03)
            (size_bar32 env s.1 s.2.1 s.2.2).world)).1 := by
  have h := regions_map_mem64 env d w k s lo hk hs hlo h0 h2
  rw [hhi, hpl, hph, hfresh] at h
  exact ⟨h.2.1, h.1, by rw [h.2.2.1, Nat.or_comm], h.2.2.2, rfl⟩

/-- Witness of C4: `lo = 0xFE00000C`, `hi = 0x00000001` give base `0x1FE000000`, and the
probes `0xFFFFF000` and `0xFFFFFFFF` give size `0x1000`. -/
theorem mem64_bar_region_witness :
    (size_bar32 mem64_env (example_dev 0) 16 {}).base_address = 0xFE00000C ∧
    (size_bar32 mem64_env (example_dev 0) 16 {}).probe = 0xFFFFF000 ∧
    ((pci_device_regions_map mem64_env (example_dev 0) {}).2.1.regions 0).is_64 = true ∧
    ((pci_device_regions_map mem64_env (example_dev 0) {}).2.1.regions 0).is_io = false ∧
    ((pci_device_regions_map mem64_env (example_dev 0) {}).2.1.regions 0).base_address
      = 0x1FE000000 ∧
    ((pci_device_regions_map mem64_env (example_dev 0) {}).2.1.regions 0).size = 0x1000 :=
  have h := mem64_bar_region mem64_env (example_dev 0) {} 0 (example_dev 0, 16, {})
    0xFE00000C 0x00000001 0xFFFFF000 0xFFFFFFFF (by decide) rfl rfl (by decide) (by decide)
    (by decide) (by decide) (by decide) (by decide)
  ⟨by decide, by decide, h.1, h.2.1, h.2.2.1.trans (by decide), h.2.2.2.1.trans (by decide)⟩

/-- The size stored for a 64-bit memory BAR does not depend on the value probed from the
high slot: the high half of the mask is all-ones before that value is or-ed in. -/
theorem mem64_size_ignores_high_probe (pl ph : Nat) (hpl : pl < 2 ^ 32) (hph : ph < 2 ^ 32) :
    (bnot 64 (((pl ||| (0xffffffff <<< 32)) ||| (ph <<< 32)) &&& bnot 64 0x0f) + 1) % 2 ^ 64
      = 2 ^ 32 - pl / 16 * 16 := by
  have h : (pl ||| (0xffffffff <<< 32)) ||| (ph <<< 32) = pl ||| (0xffffffff <<< 32) := by
    apply Nat.eq_of_testBit_eq
    intro i
    simp only [Nat.testBit_or, Nat.testBit_shiftLeft]
    by_cases hi : 32 ≤ i
    · by_cases hi' : i - 32 < 32
      · have : (0xffffffff : Nat).testBit (i - 32) = true := by
          have := Nat.testBit_two_pow_sub_one 32 (i - 32)
          simpa [hi'] using this
        simp [hi, this]
      · have : ph.testBit (i - 32) = false :=
          Nat.testBit_lt_two_pow (lt_of_lt_of_le hph (Nat.pow_le_pow_right (by norm_num) (by omega)))
        simp [hi, this]
    · simp [hi]
  rw [h, mem32_size_eq pl hpl]

/-- The size stored for a 64-bit memory BAR is the 32-bit size of its low half, whatever
the high slot reads back. -/
theorem regions_map_mem64_size (env : Env) (d : pci_device) (w : World) (k : Nat)
    (s : pci_device × Nat × World) (lo pl : Nat)
    (hk : k < d.num_regions)
    (hs : regions_map_entry env d w k = some s)
    (hlo : (size_bar32 env s.1 s.2.1 s.2.2).base_address = lo)
    (h0 : lo &&& 0x01 = 0) (h2 : lo &&& 0x04 ≠ 0)
    (hpl : (size_bar32 env s.1 s.2.1 s.2.2).probe = pl) :
    ((pci_device_regions_map env d w).2.1.regions k).size = 2 ^ 32 - pl / 16 * 16 := by
  have h := regions_map_mem64 env d w k s lo hk hs hlo h0 h2
  have hlt : pl < 2 ^ 32 := hpl ▸ size_bar32_probe_lt env s.1 s.2.1 s.2.2
  rw [h.2.2.2, hpl, mem64_size_ignores_high_probe pl _ hlt (size_bar64_high_probe_lt _ _ _ _ _ _ _)]

/-- Evaluation for C5: an 8 GiB 64-bit memory BAR (low probe `0x0000000C`, high probe
`0xFFFFFFFE`).  The claimed size is `0x200000000`; the code stores `0x100000000`. -/
theorem mem64_large_bar_size :
    (size_bar32 mem64_large_env (example_dev 0) 16 {}).base_address = 0x0000000C ∧
    (size_bar32 mem64_large_env (example_dev 0) 16 {}).probe = 0x0000000C ∧
    (size_bar64 mem64_large_env (example_dev 0) 16
      (size_bar32 mem64_large_env (example_dev 0) 16 {}).command
      (size_bar32 mem64_large_env (example_dev 0) 16 {}).base_address
      (size_bar32 mem64_large_env (example_dev 0) 16 {}).size
      (size_bar32 mem64_large_env (example_dev 0) 16 {}).world).high_probe = 0xFFFFFFFE ∧
    (bnot 64 (((0xFFFFFFFE <<< 32) ||| 0x0000000C) &&& bnot 64 0x0f) + 1) % 2 ^ 64 = 0x200000000 ∧
    ((pci_device_regions_map mem64_large_env (example_dev 0) {}).2.1.regions 0).is_64 = true ∧
    ((pci_device_regions_map mem64_large_env (example_dev 0) {}).2.1.regions 0).size
      = 0x100000000 ∧
    ((pci_device_create mem64_large_env 0 0 0 {}).1.map fun d => (d.regions 0).size)
      = some 0x100000000 := by
  refine ⟨by decide, by decide, by decide, by decide, by decide, by decide, by decide⟩

/-! ## The BAR cursor -/

/-- The body leaves the cursor where it was or, for a 64-bit BAR, one slot further. -/
theorem regions_map_body_cursor (env : Env) (d : pci_device) (i j : Nat) (w : World) :
    (regions_map_body env d i j w).2.2.1 = j ∨ (regions_map_body env d i j w).2.2.1 = j + 4 := by
  by_cases h0 : (ata_compat_override d j (size_bar32 env d j w).base_address
      (size_bar32 env d j w).size).1 &&& 0x01 = 0
  · by_cases h2 : (ata_compat_override d j (size_bar32 env d j w).base_address
        (size_bar32 env d j w).size).1 &&& 0x04 = 0
    · exact Or.inl (regions_map_body_mem32 env d i j w h0 h2).1
    · exact Or.inr (regions_map_body_mem64 env d i j w h0 h2).1
  · exact Or.inl (regions_map_body_io env d i j w h0).2.1

theorem regions_map_entry_succ (env : Env) (d : pci_device) (w : World) (k : Nat)
    (s' : pci_device × Nat × World) (h : regions_map_entry env d w (k + 1) = some s') :
    ∃ s, regions_map_entry env d w k = some s ∧
      (regions_map_body env s.1 k s.2.1 s.2.2).1 = true ∧
      s' = ((regions_map_body env s.1 k s.2.1 s.2.2).2.1,
            (regions_map_body env s.1 k s.2.1 s.2.2).2.2.1 + 4,
            (regions_map_body env s.1 k s.2.1 s.2.2).2.2.2) := by
  rw [regions_map_entry] at h
  cases hk : regions_map_entry env d w k with
  | none => simp [hk] at h
  | some s =>
    simp only [hk] at h
    split_ifs at h with hb
    simp only [Option.some.injEq] at h
    exact ⟨s, rfl, hb, h.symm⟩

/-- Once an iteration has left by `goto err`, there is no later iteration. -/
theorem regions_map_entry_none (env : Env) (d : pci_device) (w : World) (k : Nat)
    (h : regions_map_entry env d w k = none) (n : Nat) :
    regions_map_entry env d w (k + n) = none := by
  induction n with
  | zero => exact h
  | succ n ih =>
    rw [← Nat.add_assoc, regions_map_entry, ih]

/-- The cursor advances by at least one slot per iteration. -/
theorem regions_map_entry_cursor_le (env : Env) (d : pci_device) (w : World) (k : Nat)
    (s : pci_device × Nat × World) (hs : regions_map_entry env d w k = some s) (n : Nat) :
    ∀ s', regions_map_entry env d w (k + n) = some s' → s.2.1 + 4 * n ≤ s'.2.1 := by
  induction n with
  | zero =>
    intro s' hs'
    rw [Nat.add_zero, hs] at hs'
    simp only [Option.some.injEq] at hs'
    subst hs'
    omega
  | succ n ih =>
    intro s' hs'
    obtain ⟨t, ht, -, rfl⟩ := regions_map_entry_succ env d w (k + n) s' hs'
    have := ih t ht
    rcases regions_map_body_cursor env t.1 (k + n) t.2.1 t.2.2 with h | h <;>
      simp only [h] <;> omega

/-- C6: when the BAR under the cursor on entry to iteration `k` is a 64-bit memory BAR at
slot offset `j`, no iteration starts with its cursor on the high-half slot `j + 4`; the
next iteration, if the function gets there, starts at `j + 8`, and the descriptor of
region `k + 1` is the one the body derives from that slot. -/
theorem mem64_bar_consumes_next_slot (env : Env) (d : pci_device) (w : World) (k : Nat)
    (s : pci_device × Nat × World) (lo : Nat)
    (hs : regions_map_entry env d w k = some s)
    (hlo : (size_bar32 env s.1 s.2.1 s.2.2).base_address = lo)
    (h0 : lo &&& 0x01 = 0) (h2 : lo &&& 0x04 ≠ 0) :
    (∀ k' s', regions_map_entry env d w k' = some s' → s'.2.1 ≠ s.2.1 + 4) ∧
    ((regions_map_body env s.1 k s.2.1 s.2.2).1 = true →
      ∃ s', regions_map_entry env d w (k + 1) = some s') ∧
    (∀ s', regions_map_entry env d w (k + 1) = some s' → s'.2.1 = s.2.1 + 8) ∧
    (∀ s', k + 1 < d.num_regions → regions_map_entry env d w (k + 1) = some s' →
      (pci_device_regions_map env d w).2.1.regions (k + 1)
        = (regions_map_body env s'.1 (k + 1) (s.2.1 + 8) s'.2.2).2.1.regions (k + 1)) := by
  have hne : lo ≠ 0 := by
    rintro rfl
    simp at h2
  have ho := ata_compat_override_of_ne_zero s.1 s.2.1 lo (size_bar32 env s.1 s.2.1 s.2.2).size hne
  have hj : (regions_map_body env s.1 k s.2.1 s.2.2).2.2.1 = s.2.1 + 4 :=
    (regions_map_body_mem64 env s.1 k s.2.1 s.2.2
      (by rw [hlo, ho]; exact h0) (by rw [hlo, ho]; exact h2)).1
  have hnext : ∀ s', regions_map_entry env d w (k + 1) = some s' → s'.2.1 = s.2.1 + 8 := by
    intro s' hs'
    obtain ⟨t, ht, -, rfl⟩ := regions_map_entry_succ env d w k s' hs'
    rw [hs] at ht
    simp only [Option.some.injEq] at ht
    subst ht
    simp only [hj]
  refine ⟨?_, ?_, hnext, ?_⟩
  · intro k' s' hs'
    rcases Nat.lt_trichotomy k' k with hlt | heq | hgt
    · obtain ⟨n, rfl⟩ : ∃ n, k = k' + n := ⟨k - k', by omega⟩
      have := regions_map_entry_cursor_le env d w k' s' hs' n s hs
      omega
    · subst heq
      rw [hs] at hs'
      simp only [Option.some.injEq] at hs'
      subst hs'
      omega
    · obtain ⟨n, rfl⟩ : ∃ n, k' = k + 1 + n := ⟨k' - (k + 1), by omega⟩
      cases h1 : regions_map_entry env d w (k + 1) with
      | none =>
        rw [regions_map_entry_none env d w (k + 1) h1 n] at hs'
        exact Option.noConfusion hs'
      | some s1 =>
        have := regions_map_entry_cursor_le env d w (k + 1) s1 h1 n s' hs'
        have := hnext s1 h1
        omega
  · intro hb
    refine ⟨((regions_map_body env s.1 k s.2.1 s.2.2).2.1,
      (regions_map_body env s.1 k s.2.1 s.2.2).2.2.1 + 4,
      (regions_map_body env s.1 k s.2.1 s.2.2).2.2.2), ?_⟩
    rw [regions_map_entry, hs]
    simp only [hb, if_true]
  · intro s' hk1 hs'
    have := regions_map_region env d w (k + 1) s' hk1 hs'
    rw [hnext s' hs'] at this
    exact this

/-- Witness of C6: a 64-bit BAR at slot 0 (offset `0x10`); iteration 1 starts at offset
`0x18`, and no iteration starts at `0x14`. -/
theorem mem64_bar_consumes_next_slot_witness :
    (size_bar32 mem64_env (example_dev 0) 16 {}).base_address = 0xFE00000C ∧
    ((regions_map_entry mem64_env (example_dev 0) {} 1).map fun s => s.2.1) = some 0x18 ∧
    ((List.range 6).map fun k =>
        (regions_map_entry mem64_env (example_dev 0) {} k).map fun s => s.2.1)
      = [some 0x10, some 0x18, some 0x1c, some 0x20, some 0x24, some 0x28] ∧
    (∀ k' s', regions_map_entry mem64_env (example_dev 0) {} k' = some s' → s'.2.1 ≠ 0x14) :=
  have h := mem64_bar_consumes_next_slot mem64_env (example_dev 0) {} 0 (example_dev 0, 16, {})
    0xFE00000C rfl (by decide) (by decide) (by decide)
  ⟨by decide, by decide, by decide, h.1⟩

/-! ## I/O BARs and the ATA substitution -/

theorem io_size_eq (m : Nat) (hm : m < 2 ^ 32) :
    (bnot 64 ((m ||| (0xffffffff <<< 32)) &&& bnot 64 0x01) + 1) % 2 ^ 64 = 2 ^ 32 - m / 2 * 2 := by
  rw [or_shiftLeft_32 m _ hm, and_bnot64_01 _ (by omega)]
  unfold bnot
  omega

theorem and_fffffffe (m : Nat) (hm : m < 2 ^ 32) : m &&& 0xFFFFFFFE = m / 2 * 2 := by
  have h : (0xFFFFFFFE : Nat) = (2 ^ 31 - 1) <<< 1 := by decide
  rw [h, and_shiftLeft_mask, Nat.and_pow_two_sub_one_eq_mod, Nat.shiftRight_eq_div_pow,
    Nat.shiftLeft_eq]
  have : m / 2 ^ 1 < 2 ^ 31 := by omega
  rw [Nat.mod_eq_of_lt this]
  norm_num

/-- The descriptor stored for a BAR whose saved value has bit 0 set. -/
theorem regions_map_io (env : Env) (d : pci_device) (w : World) (k : Nat)
    (s : pci_device × Nat × World) (orig m : Nat)
    (hk : k < d.num_regions)
    (hs : regions_map_entry env d w k = some s)
    (horig : (size_bar32 env s.1 s.2.1 s.2.2).base_address = orig)
    (hprobe : (size_bar32 env s.1 s.2.1 s.2.2).probe = m)
    (h0 : orig &&& 0x01 ≠ 0) :
    ((pci_device_regions_map env d w).2.1.regions k).is_io = true ∧
    ((pci_device_regions_map env d w).2.1.regions k).base_address = orig &&& bnot 64 0x01 ∧
    ((pci_device_regions_map env d w).2.1.regions k).size = 2 ^ 32 - m / 2 * 2 := by
  have hne : orig ≠ 0 := by
    rintro rfl
    simp at h0
  have ho := ata_compat_override_of_ne_zero s.1 s.2.1 orig (size_bar32 env s.1 s.2.1 s.2.2).size hne
  have hm : m < 2 ^ 32 := hprobe ▸ size_bar32_probe_lt env s.1 s.2.1 s.2.2
  have hb := regions_map_body_io env s.1 k s.2.1 s.2.2 (by rw [horig, ho]; exact h0)
  rw [horig, ho, size_bar32_size, hprobe, io_size_eq m hm] at hb
  rw [regions_map_region env d w k s hk hs, hb.2.2.2]
  exact ⟨rfl, rfl, rfl⟩

/-- C7 (amended): for every BAR whose saved value `orig` has bit 0 set and whose all-ones
probe reads back `m`, `pci_device_regions_map` leaves a region with `is_io = true`,
`base_address = orig & ~1` and `size = (~((0xFFFFFFFF00000000 | m) & ~1) + 1) mod 2^64`,
which is `2^32 - (m & 0xFFFFFFFE)`: the size is not restricted to 16 bits. -/
theorem io_bar_region (env : Env) (d : pci_device) (w : World) (k : Nat)
    (s : pci_device × Nat × World) (orig m : Nat)
    (hk : k < d.num_regions)
    (hs : regions_map_entry env d w k = some s)
    (horig : (size_bar32 env s.1 s.2.1 s.2.2).base_address = orig)
    (hprobe : (size_bar32 env s.1 s.2.1 s.2.2).probe = m)
    (h0 : orig &&& 0x01 ≠ 0) :
    ((pci_device_regions_map env d w).2.1.regions k).is_io = true ∧
    ((pci_device_regions_map env d w).2.1.regions k).base_address = orig &&& bnot 64 0x01 ∧
    ((pci_device_regions_map env d w).2.1.regions k).size
      = (bnot 64 ((0xFFFFFFFF00000000 ||| m) &&& bnot 64 0x01) + 1) % 2 ^ 64 ∧
    ((pci_device_regions_map env d w).2.1.regions k).size = 2 ^ 32 - (m &&& 0xFFFFFFFE) := by
  have h := regions_map_io env d w k s orig m hk hs horig hprobe h0
  have hm : m < 2 ^ 32 := hprobe ▸ size_bar32_probe_lt env s.1 s.2.1 s.2.2
  refine ⟨h.1, h.2.1, ?_, ?_⟩
  · rw [h.2.2, Nat.or_comm, ← io_size_eq m hm]
    rfl
  · rw [h.2.2, and_fffffffe m hm]

/-- Witness of C7 (amended): saved `0x0000E001`, probe `0x0000FFF1`: an I/O region at
`0xE000` of size `0xFFFF0010`. -/
theorem io_bar_region_witness :
    (size_bar32 io_env (example_dev 0) 16 {}).base_address = 0x0000E001 ∧
    (size_bar32 io_env (example_dev 0) 16 {}).probe = 0x0000FFF1 ∧
    ((pci_device_regions_map io_env (example_dev 0) {}).2.1.regions 0).is_io = true ∧
    ((pci_device_regions_map io_env (example_dev 0) {}).2.1.regions 0).base_address = 0xE000 ∧
    ((pci_device_regions_map io_env (example_dev 0) {}).2.1.regions 0).size = 0xFFFF0010 :=
  have h := io_bar_region io_env (example_dev 0) {} 0 (example_dev 0, 16, {})
    0x0000E001 0x0000FFF1 (by decide) rfl (by decide) (by decide) (by decide)
  ⟨by decide, by decide, h.1, h.2.1.trans (by decide), h.2.2.2.trans (by decide)⟩

/-- Counterexample to C7: an I/O BAR whose all-ones probe reads back `0x0000FFF1`.  The
claimed size, `~(m & ~1) + 1` restricted to 16 bits, is `0x10`; the code stores
`0xFFFF0010`. -/
theorem io_bar_counterexample :
    ((pci_device_create io_env 0 0 0 {}).1.map fun d => d.regions 0)
      = some ⟨0xE000, 0xFFFF0010, 0, true, false⟩ ∧
    (size_bar32 io_env (example_dev 0) 16 {}).base_address &&& 0x01 ≠ 0 ∧
    (size_bar32 io_env (example_dev 0) 16 {}).probe = 0x0000FFF1 ∧
    (bnot 64 (0x0000FFF1 &&& bnot 64 0x01) + 1) % 2 ^ 16 = 0x10 ∧
    ((pci_device_regions_map io_env (example_dev 0) {}).2.1.regions 0).size ≠ 0x10 := by
  refine ⟨by decide, by decide, by decide, by decide, by decide⟩

/-- The values the ATA substitution gives a zero BAR in each of the first four slots. -/
theorem ata_compat_override_legacy (d : pci_device) (j size : Nat)
    (hata : pci_device_is_ata_controller d = true) (hcompat : d.class_code &&& 0x05 = 0) :
    (j = 16 → ata_compat_override d j 0 size = (0x1f0 ||| 0x01, bnot 64 0x07)) ∧
    (j = 20 → ata_compat_override d j 0 size = (0x3f0 ||| 0x01, bnot 64 0x03)) ∧
    (j = 24 → ata_compat_override d j 0 size = (0x170 ||| 0x01, bnot 64 0x07)) ∧
    (j = 28 → ata_compat_override d j 0 size = (0x370 ||| 0x01, bnot 64 0x03)) := by
  refine ⟨?_, ?_, ?_, ?_⟩ <;> intro hj <;> subst hj <;>
    simp [ata_compat_override, hata, hcompat]

/-- C8 (amended): on an ATA/IDE controller in compatibility mode (class byte `0x01`,
subclass byte `0x01`, `(class_code & 0x05) == 0`), for every `slot` in 0..3: when the
cursor on entry to iteration `k` is on BAR slot `slot` and the saved value of that slot
reads 0, region `k` is marked I/O with `(base_address, size)` equal to `(0x1F0, 8)`,
`(0x3F0, 4)`, `(0x170, 8)`, `(0x370, 4)` for `slot` = 0, 1, 2, 3.  Iteration 0 always has
its cursor on slot 0. -/
theorem ata_compat_region (env : Env) (d : pci_device) (w : World) (k : Nat)
    (s : pci_device × Nat × World) (slot : Nat)
    (hk : k < d.num_regions)
    (hs : regions_map_entry env d w k = some s)
    (hata : pci_device_is_ata_controller d = true)
    (hcompat : d.class_code &&& 0x05 = 0)
    (hslot : slot < 4)
    (hj : s.2.1 = 0x10 + 4 * slot)
    (horig : (size_bar32 env s.1 s.2.1 s.2.2).base_address = 0) :
    ((pci_device_regions_map env d w).2.1.regions k).is_io = true ∧
    (slot = 0 → ((pci_device_regions_map env d w).2.1.regions k).base_address = 0x1F0 ∧
      ((pci_device_regions_map env d w).2.1.regions k).size = 8) ∧
    (slot = 1 → ((pci_device_regions_map env d w).2.1.regions k).base_address = 0x3F0 ∧
      ((pci_device_regions_map env d w).2.1.regions k).size = 4) ∧
    (slot = 2 → ((pci_device_regions_map env d w).2.1.regions k).base_address = 0x170 ∧
      ((pci_device_regions_map env d w).2.1.regions k).size = 8) ∧
    (slot = 3 → ((pci_device_regions_map env d w).2.1.regions k).base_address = 0x370 ∧
      ((pci_device_regions_map env d w).2.1.regions k).size = 4) ∧
    regions_map_entry env d w 0 = some (d, 0x10, w) := by
  obtain ⟨-, -, -, -, hcc, -⟩ := regions_map_entry_frame env d w k s hs
  have hata' : pci_device_is_ata_controller s.1 = true := by
    simpa only [pci_device_is_ata_controller, hcc] using hata
  have hcompat' : s.1.class_code &&& 0x05 = 0 := by rw [hcc]; exact hcompat
  rw [regions_map_region env d w k s hk hs]
  have hio : ∀ b sz, ata_compat_override s.1 s.2.1 0 (size_bar32 env s.1 s.2.1 s.2.2).size = (b, sz) →
      b &&& 0x01 ≠ 0 →
      (regions_map_body env s.1 k s.2.1 s.2.2).2.1.regions k =
        { s.1.regions k with
          is_io := true
          base_address := b &&& bnot 64 0x01
          size := (bnot 64 (sz &&& bnot 64 0x01) + 1) % 2 ^ 64 } := by
    intro b sz ho hb
    have h := regions_map_body_io env s.1 k s.2.1 s.2.2 (by rw [horig, ho]; exact hb)
    rw [horig, ho] at h
    exact h.2.2.2
  have hov := ata_compat_override_legacy s.1 s.2.1 (size_bar32 env s.1 s.2.1 s.2.2).size
    hata' hcompat'
  have hsz7 : (bnot 64 (bnot 64 0x07 &&& bnot 64 0x01) + 1) % 2 ^ 64 = 8 := by decide
  have hsz3 : (bnot 64 (bnot 64 0x03 &&& bnot 64 0x01) + 1) % 2 ^ 64 = 4 := by decide
  have hcases : slot = 0 ∨ slot = 1 ∨ slot = 2 ∨ slot = 3 := by omega
  rcases hcases with h | h | h | h <;> subst h <;> norm_num at hj
  · rw [hio _ _ (hov.1 hj) (by decide)]
    exact ⟨rfl, fun _ => ⟨(by decide : (0x1f0 ||| 0x01) &&& bnot 64 0x01 = 0x1F0), hsz7⟩,
      fun h => absurd h (by decide), fun h => absurd h (by decide),
      fun h => absurd h (by decide), rfl⟩
  · rw [hio _ _ (hov.2.1 hj) (by decide)]
    exact ⟨rfl, fun h => absurd h (by decide),
      fun _ => ⟨(by decide : (0x3f0 ||| 0x01) &&& bnot 64 0x01 = 0x3F0), hsz3⟩,
      fun h => absurd h (by decide), fun h => absurd h (by decide), rfl⟩
  · rw [hio _ _ (hov.2.2.1 hj) (by decide)]
    exact ⟨rfl, fun h => absurd h (by decide), fun h => absurd h (by decide),
      fun _ => ⟨(by decide : (0x170 ||| 0x01) &&& bnot 64 0x01 = 0x170), hsz7⟩,
      fun h => absurd h (by decide), rfl⟩
  · rw [hio _ _ (hov.2.2.2 hj) (by decide)]
    exact ⟨rfl, fun h => absurd h (by decide), fun h => absurd h (by decide),
      fun h => absurd h (by decide),
      fun _ => ⟨(by decide : (0x370 ||| 0x01) &&& bnot 64 0x01 = 0x370), hsz3⟩, rfl⟩

/-- Witness of C8 (amended): an ATA/IDE controller with class code `0x010100` whose BARs
all read zero; regions 0 to 3 are the four legacy port windows. -/
theorem ata_compat_region_witness :
    (size_bar32 ata_env (example_dev 0x010100) 16 {}).base_address = 0 ∧
    ((pci_device_regions_map ata_env (example_dev 0x010100) {}).2.1.regions 0).is_io = true ∧
    ((pci_device_regions_map ata_env (example_dev 0x010100) {}).2.1.regions 0).base_address
      = 0x1F0 ∧
    ((pci_device_regions_map ata_env (example_dev 0x010100) {}).2.1.regions 0).size = 8 ∧
    ((pci_device_create ata_env 0 0 0 {}).1.map fun d =>
        [d.regions 0, d.regions 1, d.regions 2, d.regions 3])
      = some [⟨0x1F0, 8, 0, true, false⟩, ⟨0x3F0, 4, 0, true, false⟩,
              ⟨0x170, 8, 0, true, false⟩, ⟨0x370, 4, 0, true, false⟩] :=
  have h := ata_compat_region ata_env (example_dev 0x010100) {} 0 (example_dev 0x010100, 16, {}) 0
    (by decide) rfl (by decide) (by decide) (by decide) (by decide) (by decide)
  ⟨by decide, h.1, (h.2.1 rfl).1, (h.2.1 rfl).2, by decide⟩

/-- Counterexample to C8: an ATA/IDE controller in compatibility mode (class code
`0x010100`, header type 0) with a 64-bit memory BAR in slots 0 and 1.  The saved value of
BAR slot 1 reads 0, yet region 1 is not `(0x3F0, 4)`: it is sized from slot 2 and gets
`(0x170, 8)`. -/
theorem ata_compat_counterexample :
    ((pci_device_create ata_mem64_env 0 0 0 {}).1.map fun d =>
        (pci_device_is_ata_controller d, d.class_code &&& 0x05, d.header_type &&& 0x7f,
          d.regions 0, d.regions 1))
      = some (true, 0, 0, ⟨0xFE000000, 0x1000, 0x7f0000000000, false, true⟩,
          ⟨0x170, 8, 0, true, false⟩) ∧
    (size_bar64 ata_mem64_env (example_dev 0x010100) 16
      (size_bar32 ata_mem64_env (example_dev 0x010100) 16 {}).command
      (size_bar32 ata_mem64_env (example_dev 0x010100) 16 {}).base_address
      (size_bar32 ata_mem64_env (example_dev 0x010100) 16 {}).size
      (size_bar32 ata_mem64_env (example_dev 0x010100) 16 {}).world).high_saved = 0 ∧
    ((pci_device_regions_map ata_mem64_env (example_dev 0x010100) {}).2.1.regions 1).base_address
      ≠ 0x3F0 ∧
    ((pci_device_regions_map ata_mem64_env (example_dev 0x010100) {}).2.1.regions 1).size ≠ 4 := by
  refine ⟨by decide, by decide, by decide, by decide⟩

/-! ## Construction -/

theorem pci_device_destroy_fresh (env : Env) (d : pci_device) (w : World)
    (h : d.num_regions = 0) : pci_device_destroy env (some d) w = w := by
  simp [pci_device_destroy, pci_device_regions_unmap, h, regions_unmap_from]

/-- When `calloc` fails, `pci_device_create` returns `NULL` with the `errno` of `calloc`,
before it looks at its arguments, and performs no access. -/
theorem create_alloc_failure (env : Env) (bus device function : Int) (w : World)
    (halloc : env.calloc_errno w.trace ≠ 0) :
    (pci_device_create env bus device function w).1 = none ∧
    (pci_device_create env bus device function w).2.errno = env.calloc_errno w.trace ∧
    (pci_device_create env bus device function w).2.trace = w.trace := by
  unfold pci_device_create
  simp [halloc, set_errno, pci_device_error]

/-- C9: for every `(bus, device, function)` with `bus` outside `[0,255]`, `device` outside
`[0,31]` or `function` outside `[0,7]`, `pci_device_create` (once its descriptor is
allocated) returns `NULL` with `errno = EINVAL`, reports `EINVAL` to the error handler and
performs no configuration-space or port access (nor any other access to the host). -/
theorem create_out_of_range (env : Env) (bus device function : Int) (w : World)
    (halloc : env.calloc_errno w.trace = 0)
    (h : bus < 0 ∨ bus > 255 ∨ device < 0 ∨ device > 31 ∨ function < 0 ∨ function > 7) :
    (pci_device_create env bus device function w).1 = none ∧
    (pci_device_create env bus device function w).2.errno = EINVAL ∧
    (pci_device_create env bus device function w).2.reports
      = ⟨EINVAL, "pci_device_create"⟩ :: w.reports ∧
    (pci_device_create env bus device function w).2.trace = w.trace := by
  unfold pci_device_create
  simp only [halloc, ne_eq, not_true_eq_false, if_false]
  by_cases hb : bus < 0 ∨ bus > 255
  · simp [hb, pci_device_destroy_fresh, set_errno, pci_device_error]
  · by_cases hd : device < 0 ∨ device > 31
    · simp [hb, hd, pci_device_destroy_fresh, set_errno, pci_device_error]
    · have hf : function < 0 ∨ function > 7 := by tauto
      simp [hb, hd, hf, pci_device_destroy_fresh, set_errno, pci_device_error]

/-- Witness of C9: `create(256, 0, 0)`. -/
theorem create_out_of_range_witness :
    ((256 : Int) < 0 ∨ (256 : Int) > 255 ∨ (0 : Int) < 0 ∨ (0 : Int) > 31 ∨ (0 : Int) < 0 ∨
      (0 : Int) > 7) ∧
    (pci_device_create zero_env 256 0 0 {}).1 = none ∧
    (pci_device_create zero_env 256 0 0 {}).2.errno = EINVAL ∧
    (pci_device_create zero_env 256 0 0 {}).2.trace = [] :=
  have h := create_out_of_range zero_env 256 0 0 {} rfl (by decide)
  ⟨by decide, h.1, h.2.1, h.2.2.2⟩

/-- C10: for every valid triple whose configuration word at offset 0 reads `0xFFFF`,
`pci_device_create` returns `NULL`; what it does on the host contains no write to the
configuration data port and no `mmap`.  When the descriptor was allocated it is exactly
the address write to `0xcf8` and the 16-bit read at `0xcfc`, and the handler is called
with error 0 and the message "Invalid device". -/
theorem create_absent_device (env : Env) (bus device function : Int) (w : World)
    (hbus : 0 ≤ bus ∧ bus ≤ 255) (hdev : 0 ≤ device ∧ device ≤ 31)
    (hfn : 0 ≤ function ∧ function ≤ 7)
    (hvendor : (pci_config_read16 env bus device function 0 w).1 = 0xffff) :
    (pci_device_create env bus device function w).1 = none ∧
    (∃ evs, (pci_device_create env bus device function w).2.trace = evs ++ w.trace ∧
      ∀ e ∈ evs, e.is_config_write = false ∧ e.is_mmap = false) ∧
    (env.calloc_errno w.trace = 0 →
      (pci_device_create env bus device function w).2.trace
        = Event.io_read 16 0xcfc 0xffff ::
          Event.io_write 32 0xcf8
            (pci_config_address (to_u8 bus) (to_u8 device) (to_u8 function) 0) :: w.trace ∧
      (pci_device_create env bus device function w).2.reports
        = ⟨0, "%s: Invalid device.\n"⟩ :: w.reports ∧
      (pci_device_create env bus device function w).2.errno = w.errno) := by
  have hb : ¬(bus < 0 ∨ bus > 255) := by omega
  have hd : ¬(device < 0 ∨ device > 31) := by omega
  have hf : ¬(function < 0 ∨ function > 7) := by omega
  have hv : (pci_config_read16 env bus device function 0 w).2.trace
      = Event.io_read 16 0xcfc 0xffff ::
          Event.io_write 32 0xcf8
            (pci_config_address (to_u8 bus) (to_u8 device) (to_u8 function) 0) :: w.trace := by
    have := hvendor
    simp only [pci_config_read16, pci_config_read, io_read, io_write] at this ⊢
    simp only [Nat.zero_mod, Nat.zero_and, Nat.add_zero] at this ⊢
    rw [this]
    have hp : pci_config_address (to_u8 bus) (to_u8 device) (to_u8 function) 0 % 2 ^ 32
        = pci_config_address (to_u8 bus) (to_u8 device) (to_u8 function) 0 := by
      unfold pci_config_address
      exact Nat.mod_mod _ _
    rw [hp]
    rfl
  have hrest : (pci_config_read16 env bus device function 0 w).2.errno = w.errno ∧
      (pci_config_read16 env bus device function 0 w).2.reports = w.reports := by
    simp [pci_config_read16, pci_config_read, io_read, io_write]
  by_cases hc : env.calloc_errno w.trace = 0
  · have hval : pci_device_create env bus device function w
        = (none, pci_device_error 0 "%s: Invalid device.\n"
            (pci_config_read16 env bus device function 0 w).2) := by
      unfold pci_device_create
      simp only [hc, ne_eq, not_true_eq_false, if_false, hb, hd, hf, hvendor, if_true]
      rw [pci_device_destroy_fresh _ _ _ rfl]
    rw [hval]
    refine ⟨rfl, ⟨[Event.io_read 16 0xcfc 0xffff, Event.io_write 32 0xcf8
      (pci_config_address (to_u8 bus) (to_u8 device) (to_u8 function) 0)], ?_, ?_⟩, fun _ => ?_⟩
    · simp [pci_device_error, hv]
    · intro e he
      simp only [List.mem_cons, List.mem_singleton, List.not_mem_nil, or_false] at he
      rcases he with rfl | rfl
      · exact ⟨rfl, rfl⟩
      · exact ⟨rfl, rfl⟩
    · simp [pci_device_error, hv, hrest]
  · have hval : pci_device_create env bus device function w
        = (none, pci_device_error (env.calloc_errno w.trace) "pci_device_create"
            (set_errno (env.calloc_errno w.trace) w)) := by
      unfold pci_device_create
      simp [hc, set_errno]
    rw [hval]
    exact ⟨rfl, ⟨[], by simp [pci_device_error, set_errno], by simp⟩, fun h => absurd h hc⟩

/-- Witness of C10: `create(0, 0, 0)` on a host where no device answers. -/
theorem create_absent_device_witness :
    (pci_config_read16 absent_env 0 0 0 0 {}).1 = 0xffff ∧
    (pci_device_create absent_env 0 0 0 {}).1 = none ∧
    (pci_device_create absent_env 0 0 0 {}).2.trace
      = [Event.io_read 16 0xcfc 0xffff, Event.io_write 32 0xcf8 0x80000000] :=
  have h := create_absent_device absent_env 0 0 0 {} (by decide) (by decide) (by decide)
    (by decide)
  ⟨by decide, h.1, (h.2.2 rfl).1⟩

/-! ## The configuration address word -/

theorem to_u8_cast (b : Nat) (hb : b < 256) : to_u8 (b : Int) = b := by
  unfold to_u8
  omega

theorem pci_config_address_lt (b d f o : Nat) (hb : b < 256) (hd : d < 256) (hf : f < 256)
    (ho : o < 256) :
    0x80000000 ||| (b <<< 16) ||| (d <<< 11) ||| (f <<< 8) ||| o < 2 ^ 32 := by
  have h1 : b <<< 16 < 2 ^ 32 := by rw [Nat.shiftLeft_eq]; omega
  have h2 : d <<< 11 < 2 ^ 32 := by rw [Nat.shiftLeft_eq]; omega
  have h3 : f <<< 8 < 2 ^ 32 := by rw [Nat.shiftLeft_eq]; omega
  have h4 : o < 2 ^ 32 := by omega
  exact Nat.or_lt_two_pow (Nat.or_lt_two_pow (Nat.or_lt_two_pow (Nat.or_lt_two_pow
    (by norm_num) h1) h2) h3) h4

theorem pci_config_address_base_mod (b d f : Nat) :
    (0x80000000 ||| (b <<< 16) ||| (d <<< 11) ||| (f <<< 8)) % 2 ^ 8 = 0 := by
  apply Nat.eq_of_testBit_eq
  intro i
  rw [Nat.testBit_mod_two_pow]
  by_cases hi : i < 8
  · have h1 : ¬ 16 ≤ i := by omega
    have h2 : ¬ 11 ≤ i := by omega
    have h3 : ¬ 8 ≤ i := by omega
    have h5 : Nat.testBit 0x80000000 i = false := by
      rw [show (0x80000000 : Nat) = 2 ^ 31 by norm_num, Nat.testBit_two_pow]
      simp only [decide_eq_false_iff_not]
      omega
    simp [Nat.testBit_or, Nat.testBit_shiftLeft, h1, h2, h3, h5]
  · simp [hi]

/-- The address word is the word for offset 0 plus the offset. -/
theorem pci_config_address_add (b d f o : Nat) (hb : b < 256) (hd : d < 256) (hf : f < 256)
    (ho : o < 256) :
    pci_config_address b d f o = pci_config_address b d f 0 + o ∧
    pci_config_address b d f 0 % 256 = 0 := by
  have hm := pci_config_address_base_mod b d f
  have hlt := pci_config_address_lt b d f o hb hd hf ho
  have hlt0 := pci_config_address_lt b d f 0 hb hd hf (by norm_num)
  unfold pci_config_address
  rw [Nat.mod_eq_of_lt hlt, Nat.mod_eq_of_lt hlt0, Nat.or_zero]
  have hX : 0x80000000 ||| (b <<< 16) ||| (d <<< 11) ||| (f <<< 8)
      = 2 ^ 8 * ((0x80000000 ||| (b <<< 16) ||| (d <<< 11) ||| (f <<< 8)) / 2 ^ 8) := by
    have := Nat.div_add_mod (0x80000000 ||| (b <<< 16) ||| (d <<< 11) ||| (f <<< 8)) (2 ^ 8)
    omega
  constructor
  · have := Nat.mul_add_lt_is_or (show o < 2 ^ 8 by omega)
      ((0x80000000 ||| (b <<< 16) ||| (d <<< 11) ||| (f <<< 8)) / 2 ^ 8)
    rw [← hX] at this
    exact this.symm
  · simpa using hm

/-- C13 (amended): for every bus, device, function and configuration offset `o` (all
`uint8_t`), every `pci_config_read<size>` and `pci_config_write<size>` first writes to port
`0xcf8` the 32-bit value `0x80000000 | (bus << 16) | (device << 11) | (function << 8) | o`,
with the offset as it is: its low two bits are not masked out.  The data port is
`0xcfc + (o & mask)`. -/
theorem config_address_word (size mask : Nat) (env : Env) (b d f o v : Nat) (w : World)
    (hb : b < 256) (hd : d < 256) (hf : f < 256) (ho : o < 256) :
    (pci_config_read size mask env b d f o w).2.trace
      = Event.io_read size ((0xcfc + (o &&& mask)) % 2 ^ 16)
          (pci_config_read size mask env b d f o w).1 ::
        Event.io_write 32 0xcf8 (0x80000000 ||| (b <<< 16) ||| (d <<< 11) ||| (f <<< 8) ||| o) ::
        w.trace ∧
    (pci_config_write size mask b d f o v w).trace
      = Event.io_write size ((0xcfc + (o &&& mask)) % 2 ^ 16) (v % 2 ^ size) ::
        Event.io_write 32 0xcf8 (0x80000000 ||| (b <<< 16) ||| (d <<< 11) ||| (f <<< 8) ||| o) ::
        w.trace := by
  have h := pci_config_address_lt b d f o hb hd hf ho
  simp only [pci_config_read, pci_config_write, io_read, io_write, pci_config_address,
    to_u8_cast b hb, to_u8_cast d hd, to_u8_cast f hf, Nat.mod_eq_of_lt ho, Nat.mod_eq_of_lt h]
  exact ⟨rfl, rfl⟩

/-- Witness of C13 (amended): the header-type read of device 31, function 7 on bus 255,
at offset `0x0E`, writes the address word `0x80FFFF0E`. -/
theorem config_address_word_witness :
    (pci_config_read8 zero_env 255 31 7 0x0E {}).2.trace
      = [Event.io_read 8 0xcfe 0, Event.io_write 32 0xcf8 0x80FFFF0E] :=
  (config_address_word 8 3 zero_env 255 31 7 0x0E 0 {} (by decide) (by decide) (by decide)
    (by decide)).1.trans (by decide)

/-- Counterexample to C13: the header-type read at offset `0x0E` of device 0:0.0 writes
`0x8000000E` to port `0xcf8`, not the word with the masked offset, `0x8000000C`. -/
theorem config_address_counterexample :
    (pci_config_read8 zero_env 0 0 0 0x0E {}).2.trace
      = [Event.io_read 8 0xcfe 0, Event.io_write 32 0xcf8 0x8000000E] ∧
    0x80000000 ||| (0 <<< 16) ||| (0 <<< 11) ||| (0 <<< 8) ||| (0x0E &&& 0xFC) = 0x8000000C ∧
    (pci_config_read8 zero_env 0 0 0 0x0E {}).2.trace
      ≠ [Event.io_read 8 0xcfe 0, Event.io_write 32 0xcf8
          (0x80000000 ||| (0 <<< 16) ||| (0 <<< 11) ||| (0 <<< 8) ||| (0x0E &&& 0xFC))] := by
  refine ⟨by decide, by decide, by decide⟩

/-! ## The command register -/

theorem cfg_replay_read (a0 : Nat) (init : Nat → Nat) (size mask : Nat) (env : Env)
    (bus device function : Int) (o : Nat) (w : World) :
    cfg_replay a0 init (pci_config_read size mask env bus device function o w).2.trace
      = (pci_config_address (to_u8 bus) (to_u8 device) (to_u8 function) (o % 256),
          (cfg_replay a0 init w.trace).2) := by
  have hp : pci_config_address (to_u8 bus) (to_u8 device) (to_u8 function) (o % 256) % 2 ^ 32
      = pci_config_address (to_u8 bus) (to_u8 device) (to_u8 function) (o % 256) := by
    unfold pci_config_address
    exact Nat.mod_mod _ _
  simp only [pci_config_read, io_read, io_write, cfg_replay, cfg_step, hp]
  simp

theorem to_u8_lt (x : Int) : to_u8 x < 256 := by
  unfold to_u8
  omega

theorem data_port_ne (o mask : Nat) :
    (0xcfc + (o % 256 &&& mask)) % 2 ^ 16 ≠ 0xcf8 ∧
    0xcfc ≤ (0xcfc + (o % 256 &&& mask)) % 2 ^ 16 := by
  have h : o % 256 &&& mask ≤ o % 256 := Nat.and_le_left
  omega

theorem cfg_replay_write_other (a0 : Nat) (init : Nat → Nat) (size mask : Nat)
    (bus device function : Int) (o v : Nat) (w : World)
    (ha : a0 = pci_config_address (to_u8 bus) (to_u8 device) (to_u8 function) 0)
    (ho : 4 ≤ o % 256) :
    cfg_replay a0 init (pci_config_write size mask bus device function o v w).trace
      = (pci_config_address (to_u8 bus) (to_u8 device) (to_u8 function) (o % 256),
          (cfg_replay a0 init w.trace).2) := by
  have hp : pci_config_address (to_u8 bus) (to_u8 device) (to_u8 function) (o % 256) % 2 ^ 32
      = pci_config_address (to_u8 bus) (to_u8 device) (to_u8 function) (o % 256) := by
    unfold pci_config_address
    exact Nat.mod_mod _ _
  obtain ⟨hadd, hmod⟩ := pci_config_address_add (to_u8 bus) (to_u8 device) (to_u8 function)
    (o % 256) (to_u8_lt _) (to_u8_lt _) (to_u8_lt _) (Nat.mod_lt _ (by norm_num))
  have hsel : ¬ (pci_config_address (to_u8 bus) (to_u8 device) (to_u8 function) (o % 256) / 4
      = a0 / 4) := by
    rw [hadd, ha]
    omega
  have hne : (0xcfc + (o % 256 &&& mask)) % 65536 ≠ 0xcf8 := (data_port_ne o mask).1
  simp only [pci_config_write, io_write, cfg_replay, cfg_step, hp]
  simp [hne, hsel]

theorem cfg_replay_write_command (a0 : Nat) (init : Nat → Nat)
    (bus device function : Int) (v : Nat) (w : World)
    (ha : a0 = pci_config_address (to_u8 bus) (to_u8 device) (to_u8 function) 0) :
    (cfg_replay a0 init (pci_config_write16 bus device function 2 v w).trace).1
      = pci_config_address (to_u8 bus) (to_u8 device) (to_u8 function) 2 ∧
    command_register a0 init (pci_config_write16 bus device function 2 v w).trace
      = v % 2 ^ 16 := by
  have hp : pci_config_address (to_u8 bus) (to_u8 device) (to_u8 function) 2 % 2 ^ 32
      = pci_config_address (to_u8 bus) (to_u8 device) (to_u8 function) 2 := by
    unfold pci_config_address
    exact Nat.mod_mod _ _
  obtain ⟨hadd, hmod⟩ := pci_config_address_add (to_u8 bus) (to_u8 device) (to_u8 function)
    2 (to_u8_lt _) (to_u8_lt _) (to_u8_lt _) (by norm_num)
  have hsel : pci_config_address (to_u8 bus) (to_u8 device) (to_u8 function) 2 / 4 = a0 / 4 := by
    rw [hadd, ha]
    omega
  simp only [command_register, pci_config_write16, pci_config_write, io_write, cfg_replay,
    cfg_step, hp]
  norm_num [hsel, Nat.shiftRight_eq_div_pow]
  omega

theorem command_register_lt (a0 : Nat) (init : Nat → Nat) (t : List Event) :
    command_register a0 init t < 2 ^ 16 := by
  unfold command_register
  omega

theorem command_register_read (a0 : Nat) (init : Nat → Nat) (size mask : Nat) (env : Env)
    (bus device function : Int) (o : Nat) (w : World) :
    command_register a0 init (pci_config_read size mask env bus device function o w).2.trace
      = command_register a0 init w.trace := by
  unfold command_register
  rw [cfg_replay_read]

/-- A 16-bit read at offset 2 returns what the register file holds. -/
theorem pci_config_read16_command (env : Env) (a0 : Nat) (init : Nat → Nat)
    (bus device function : Int) (w : World)
    (ha : a0 = pci_config_address (to_u8 bus) (to_u8 device) (to_u8 function) 0)
    (hreg : command_register_stores env a0 init) :
    (pci_config_read16 env bus device function 2 w).1 = command_register a0 init w.trace := by
  obtain ⟨hadd, hmod⟩ := pci_config_address_add (to_u8 bus) (to_u8 device) (to_u8 function)
    2 (to_u8_lt _) (to_u8_lt _) (to_u8_lt _) (by norm_num)
  have hp : pci_config_address (to_u8 bus) (to_u8 device) (to_u8 function) 2 % 2 ^ 32
      = pci_config_address (to_u8 bus) (to_u8 device) (to_u8 function) 2 := by
    unfold pci_config_address
    exact Nat.mod_mod _ _
  have hsel : pci_config_address (to_u8 bus) (to_u8 device) (to_u8 function) 2 / 4 = a0 / 4 := by
    rw [hadd, ha]
    omega
  have h := hreg (Event.io_write 32 0xcf8
    (pci_config_address (to_u8 bus) (to_u8 device) (to_u8 function) 2) :: w.trace)
    (by simp [cfg_replay, cfg_step, hsel])
  have hc : command_register a0 init (Event.io_write 32 0xcf8
      (pci_config_address (to_u8 bus) (to_u8 device) (to_u8 function) 2) :: w.trace)
      = command_register a0 init w.trace := by
    simp [command_register, cfg_replay, cfg_step]
  rw [← hc, ← h]
  simp only [pci_config_read16, pci_config_read, io_read, io_write, hp]
  norm_num

theorem size_bar32_command (env : Env) (a0 : Nat) (init : Nat → Nat) (d : pci_device)
    (j : Nat) (w : World)
    (ha : a0 = pci_config_address (to_u8 d.bus) (to_u8 d.device) (to_u8 d.function) 0)
    (hreg : command_register_stores env a0 init) :
    (size_bar32 env d j w).command = command_register a0 init w.trace ∧
    command_register a0 init (size_bar32 env d j w).world.trace
      = command_register a0 init w.trace := by
  have hc := pci_config_read16_command env a0 init d.bus d.device d.function w ha hreg
  have hlt := command_register_lt a0 init w.trace
  unfold size_bar32
  simp only []
  rw [(cfg_replay_write_command a0 init d.bus d.device d.function _ _ ha).2, hc]
  exact ⟨rfl, Nat.mod_eq_of_lt hlt⟩

theorem size_bar64_command (a0 : Nat) (init : Nat → Nat) (env : Env) (d : pci_device)
    (j c b s : Nat) (w : World)
    (ha : a0 = pci_config_address (to_u8 d.bus) (to_u8 d.device) (to_u8 d.function) 0) :
    command_register a0 init (size_bar64 env d j c b s w).world.trace = c % 2 ^ 16 := by
  unfold size_bar64
  simp only []
  rw [(cfg_replay_write_command a0 init d.bus d.device d.function _ _ ha).2]

theorem map_region_command (a0 : Nat) (init : Nat → Nat) (env : Env) (d : pci_device)
    (i : Nat) (w : World) :
    command_register a0 init (map_region env d i w).2.2.trace
      = command_register a0 init w.trace := by
  unfold map_region
  simp only []
  split_ifs <;> simp [command_register, cfg_replay, cfg_step, pci_device_error]

theorem regions_map_body_command (env : Env) (a0 : Nat) (init : Nat → Nat) (d : pci_device)
    (i j : Nat) (w : World)
    (ha : a0 = pci_config_address (to_u8 d.bus) (to_u8 d.device) (to_u8 d.function) 0)
    (hreg : command_register_stores env a0 init) :
    command_register a0 init (regions_map_body env d i j w).2.2.2.trace
      = command_register a0 init w.trace := by
  obtain ⟨h1, h2⟩ := size_bar32_command env a0 init d j w ha hreg
  have hlt := command_register_lt a0 init w.trace
  have h64 : ∀ r b s, command_register a0 init
      (size_bar64 env (d.set_region i r) j (size_bar32 env d j w).command b s
        (size_bar32 env d j w).world).world.trace = command_register a0 init w.trace := by
    intro r b s
    rw [size_bar64_command a0 init env (d.set_region i r) j _ b s _ ha, h1,
      Nat.mod_eq_of_lt hlt]
  unfold regions_map_body
  simp only []
  split_ifs <;> simp only [map_region_command, h2, h64]

theorem regions_map_from_command (env : Env) (a0 : Nat) (init : Nat → Nat)
    (hreg : command_register_stores env a0 init) (n : Nat) :
    ∀ (d : pci_device) (i j : Nat) (w : World),
      a0 = pci_config_address (to_u8 d.bus) (to_u8 d.device) (to_u8 d.function) 0 →
      command_register a0 init (regions_map_from env n d i j w).2.2.trace
        = command_register a0 init w.trace := by
  induction n with
  | zero => intro d i j w _; rfl
  | succ n ih =>
    intro d i j w ha
    have hb := regions_map_body_command env a0 init d i j w ha hreg
    obtain ⟨hbus, hdev, hfn, -, -⟩ := regions_map_body_header env d i j w
    unfold regions_map_from
    simp only []
    split_ifs
    · rw [ih _ _ _ _ (by rw [hbus, hdev, hfn]; exact ha), hb]
    · exact hb

/-! ## Successful construction -/

theorem map_region_ids (env : Env) (d : pci_device) (i : Nat) (w : World) :
    (map_region env d i w).2.1.vendor_id = d.vendor_id ∧
    (map_region env d i w).2.1.device_id = d.device_id ∧
    (map_region env d i w).2.1.header_type = d.header_type := by
  unfold map_region
  simp only [pci_device.set_region]
  split_ifs <;> simp

theorem regions_map_body_ids (env : Env) (d : pci_device) (i j : Nat) (w : World) :
    (regions_map_body env d i j w).2.1.vendor_id = d.vendor_id ∧
    (regions_map_body env d i j w).2.1.device_id = d.device_id ∧
    (regions_map_body env d i j w).2.1.header_type = d.header_type := by
  unfold regions_map_body
  simp only []
  split_ifs <;> simp [map_region_ids, pci_device.set_region]

theorem regions_map_from_ids (env : Env) (n : Nat) :
    ∀ (d : pci_device) (i j : Nat) (w : World),
      (regions_map_from env n d i j w).2.1.vendor_id = d.vendor_id ∧
      (regions_map_from env n d i j w).2.1.device_id = d.device_id ∧
      (regions_map_from env n d i j w).2.1.header_type = d.header_type := by
  induction n with
  | zero => intro d i j w; exact ⟨rfl, rfl, rfl⟩
  | succ n ih =>
    intro d i j w
    have hb := regions_map_body_ids env d i j w
    unfold regions_map_from
    simp only []
    split_ifs
    · have := ih (regions_map_body env d i j w).2.1 (i + 1)
        ((regions_map_body env d i j w).2.2.1 + 4) (regions_map_body env d i j w).2.2.2
      simp only [this, hb, and_self]
    · exact hb

theorem pci_device_create_some (env : Env) (bus device function : Int) (w : World)
    (d' : pci_device) (h : (pci_device_create env bus device function w).1 = some d') :
    env.calloc_errno w.trace = 0 ∧
    (0 ≤ bus ∧ bus ≤ 255) ∧ (0 ≤ device ∧ device ≤ 31) ∧ (0 ≤ function ∧ function ≤ 7) ∧
    (pci_config_read16 env bus device function 0 w).1 ≠ 0xffff ∧
    ∃ (d0 : pci_device),
      d0.regions = (fun _ => {}) ∧ d0.bus = bus ∧ d0.device = device ∧ d0.function = function ∧
      d0.header_type = (pci_config_read8 env bus device function 14
        (create_header_world env bus device function w)).1 ∧
      ((d0.header_type &&& 0x7f = 0 ∧ d0.num_regions = 6) ∨
       (d0.header_type &&& 0x7f = 1 ∧ d0.num_regions = 2) ∨
       (d0.header_type &&& 0x7f = 2 ∧ d0.num_regions = 1)) ∧
      (pci_device_regions_map env d0 (pci_config_read8 env bus device function 14
        (create_header_world env bus device function w)).2).1 ≠ -1 ∧
      d' = (pci_device_regions_map env d0 (pci_config_read8 env bus device function 14
        (create_header_world env bus device function w)).2).2.1 ∧
      (pci_device_create env bus device function w).2
        = (pci_device_regions_map env d0 (pci_config_read8 env bus device function 14
            (create_header_world env bus device function w)).2).2.2 := by
  by_cases hc : env.calloc_errno w.trace = 0
  swap
  · simp [pci_device_create, hc] at h
  by_cases hb : bus < 0 ∨ bus > 255
  · simp [pci_device_create, hc, hb] at h
  by_cases hd : device < 0 ∨ device > 31
  · simp [pci_device_create, hc, hb, hd] at h
  by_cases hf : function < 0 ∨ function > 7
  · simp [pci_device_create, hc, hb, hd, hf] at h
  by_cases hv : (pci_config_read16 env bus device function 0 w).1 = 0xffff
  · simp [pci_device_create, hc, hb, hd, hf, hv] at h
  refine ⟨hc, by omega, by omega, by omega, hv, ?_⟩
  generalize hH : (pci_config_read8 env bus device function 14
        (create_header_world env bus device function w)) = H
  have hH' : pci_config_read8 env bus device function 14
      (pci_config_read32 env bus device function 8
        (pci_config_read16 env bus device function 2
          (pci_config_read16 env bus device function 0 w).2).2).2 = H := hH
  unfold pci_device_create at h ⊢
  simp only [hc, hb, hd, hf, hv, ne_eq, not_true_eq_false, if_false, hH'] at h ⊢
  by_cases h0 : H.1 &&& 0x7f = 0
  · rw [if_pos h0] at h ⊢
    simp only [] at h ⊢
    by_cases h6 : (pci_device_regions_map env
        { bus := bus, device := device, function := function,
          vendor_id := (pci_config_read16 env bus device function 0 w).1,
          device_id := (pci_config_read16 env bus device function 2
            (pci_config_read16 env bus device function 0 w).2).1,
          class_code := (pci_config_read32 env bus device function 8
            (pci_config_read16 env bus device function 2
              (pci_config_read16 env bus device function 0 w).2).2).1 >>> 8,
          header_type := H.1, num_regions := 6 } H.2).1 = -1
    · rw [if_pos h6] at h
      exact absurd h (by simp)
    · rw [if_neg h6] at h ⊢
      simp only [Option.some.injEq] at h
      exact ⟨_, rfl, rfl, rfl, rfl, rfl, Or.inl ⟨h0, rfl⟩, h6, h.symm, rfl⟩
  by_cases h1 : H.1 &&& 0x7f = 1
  · rw [if_neg h0, if_pos h1] at h ⊢
    simp only [] at h ⊢
    by_cases h6 : (pci_device_regions_map env
        { bus := bus, device := device, function := function,
          vendor_id := (pci_config_read16 env bus device function 0 w).1,
          device_id := (pci_config_read16 env bus device function 2
            (pci_config_read16 env bus device function 0 w).2).1,
          class_code := (pci_config_read32 env bus device function 8
            (pci_config_read16 env bus device function 2
              (pci_config_read16 env bus device function 0 w).2).2).1 >>> 8,
          header_type := H.1, num_regions := 2 } H.2).1 = -1
    · rw [if_pos h6] at h
      exact absurd h (by simp)
    · rw [if_neg h6] at h ⊢
      simp only [Option.some.injEq] at h
      exact ⟨_, rfl, rfl, rfl, rfl, rfl, Or.inr (Or.inl ⟨h1, rfl⟩), h6, h.symm, rfl⟩
  by_cases h2 : H.1 &&& 0x7f = 2
  · rw [if_neg h0, if_neg h1, if_pos h2] at h ⊢
    simp only [] at h ⊢
    by_cases h6 : (pci_device_regions_map env
        { bus := bus, device := device, function := function,
          vendor_id := (pci_config_read16 env bus device function 0 w).1,
          device_id := (pci_config_read16 env bus device function 2
            (pci_config_read16 env bus device function 0 w).2).1,
          class_code := (pci_config_read32 env bus device function 8
            (pci_config_read16 env bus device function 2
              (pci_config_read16 env bus device function 0 w).2).2).1 >>> 8,
          header_type := H.1, num_regions := 1 } H.2).1 = -1
    · rw [if_pos h6] at h
      exact absurd h (by simp)
    · rw [if_neg h6] at h ⊢
      simp only [Option.some.injEq] at h
      exact ⟨_, rfl, rfl, rfl, rfl, rfl, Or.inr (Or.inr ⟨h2, rfl⟩), h6, h.symm, rfl⟩
  · rw [if_neg h0, if_neg h1, if_neg h2] at h
    exact absurd h (by simp)

/-- C11: the header-type byte `h` is the byte `pci_device_create` reads at offset `0x0E`.
A device that is returned has `h` in its `header_type`, and `num_regions` is 6, 2 or 1 as
`h & 0x7F` is 0, 1 or 2 (bit 7 plays no part); for every other value of `h & 0x7F` the
function returns `NULL`.  Hence every device returned has `num_regions` in {1, 2, 6}. -/
theorem create_num_regions (env : Env) (bus device function : Int) (w : World) :
    (∀ d, (pci_device_create env bus device function w).1 = some d →
      d.header_type = (pci_config_read8 env bus device function 14
        (create_header_world env bus device function w)).1 ∧
      ((d.header_type &&& 0x7f = 0 ∧ d.num_regions = 6) ∨
       (d.header_type &&& 0x7f = 1 ∧ d.num_regions = 2) ∨
       (d.header_type &&& 0x7f = 2 ∧ d.num_regions = 1)) ∧
      (d.num_regions = 1 ∨ d.num_regions = 2 ∨ d.num_regions = 6)) ∧
    ((pci_config_read8 env bus device function 14
        (create_header_world env bus device function w)).1 &&& 0x7f ≠ 0 →
      (pci_config_read8 env bus device function 14
        (create_header_world env bus device function w)).1 &&& 0x7f ≠ 1 →
      (pci_config_read8 env bus device function 14
        (create_header_world env bus device function w)).1 &&& 0x7f ≠ 2 →
      (pci_device_create env bus device function w).1 = none) := by
  have key : ∀ d, (pci_device_create env bus device function w).1 = some d →
      d.header_type = (pci_config_read8 env bus device function 14
        (create_header_world env bus device function w)).1 ∧
      ((d.header_type &&& 0x7f = 0 ∧ d.num_regions = 6) ∨
       (d.header_type &&& 0x7f = 1 ∧ d.num_regions = 2) ∨
       (d.header_type &&& 0x7f = 2 ∧ d.num_regions = 1)) := by
    intro d hd
    obtain ⟨-, -, -, -, -, d0, -, -, -, -, hh, hcls, -, rfl, -⟩ :=
      pci_device_create_some env bus device function w d hd
    have hn : (pci_device_regions_map env d0 (pci_config_read8 env bus device function 14
        (create_header_world env bus device function w)).2).2.1.num_regions = d0.num_regions :=
      (regions_map_from_header env d0.num_regions d0 0 16 _).2.2.2.2
    have ht : (pci_device_regions_map env d0 (pci_config_read8 env bus device function 14
        (create_header_world env bus device function w)).2).2.1.header_type = d0.header_type :=
      (regions_map_from_ids env d0.num_regions d0 0 16 _).2.2
    rw [hn, ht]
    exact ⟨hh, hcls⟩
  refine ⟨fun d hd => ?_, fun h0 h1 h2 => ?_⟩
  · obtain ⟨h1, h2⟩ := key d hd
    refine ⟨h1, h2, ?_⟩
    rcases h2 with h | h | h
    · exact Or.inr (Or.inr h.2)
    · exact Or.inr (Or.inl h.2)
    · exact Or.inl h.2
  · cases hc : (pci_device_create env bus device function w).1 with
    | none => rfl
    | some d =>
      obtain ⟨hh, hcls⟩ := key d hc
      rw [hh] at hcls
      rcases hcls with h | h | h
      · exact absurd h.1 h0
      · exact absurd h.1 h1
      · exact absurd h.1 h2

/-- Witness of C11: header types `0x80` (bit 7 set), `0x01`, `0x02` and `0x03`. -/
theorem create_num_regions_witness :
    ((pci_device_create (header_env 0x80) 0 0 0 {}).1.map fun d => (d.header_type, d.num_regions))
      = some (0x80, 6) ∧
    ((pci_device_create (header_env 0x01) 0 0 0 {}).1.map fun d => (d.header_type, d.num_regions))
      = some (0x01, 2) ∧
    ((pci_device_create (header_env 0x02) 0 0 0 {}).1.map fun d => (d.header_type, d.num_regions))
      = some (0x02, 1) ∧
    (pci_config_read8 (header_env 0x03) 0 0 0 14
      (create_header_world (header_env 0x03) 0 0 0 {})).1 = 0x03 ∧
    (pci_device_create (header_env 0x03) 0 0 0 {}).1 = none :=
  ⟨by decide, by decide, by decide, by decide,
   (create_num_regions (header_env 0x03) 0 0 0 {}).2 (by decide) (by decide) (by decide)⟩

theorem regfile_env_stores (init orig probe : Nat → Nat) (map_result : Nat × Nat) :
    command_register_stores (regfile_env init orig probe map_result) 0x80000000 init := by
  intro t ht
  have hlt := command_register_lt 0x80000000 init t
  simp only [regfile_env, ht, and_self, if_true]
  exact Nat.mod_eq_of_lt hlt

/-- C12: with configuration space a register file in which the command register (the
16-bit register at offset `0x02`) stores what is written to it, after every successful
`pci_device_create` the command register holds the value it held when construction
started, whatever the BARs read (I/O, 32-bit memory or 64-bit memory). -/
theorem create_preserves_command (env : Env) (init : Nat → Nat) (bus device function : Int)
    (w : World)
    (hreg : command_register_stores env
      (pci_config_address (to_u8 bus) (to_u8 device) (to_u8 function) 0) init)
    (h : (pci_device_create env bus device function w).1.isSome = true) :
    command_register (pci_config_address (to_u8 bus) (to_u8 device) (to_u8 function) 0) init
        (pci_device_create env bus device function w).2.trace
      = command_register (pci_config_address (to_u8 bus) (to_u8 device) (to_u8 function) 0) init
        w.trace := by
  cases hd : (pci_device_create env bus device function w).1 with
  | none => rw [hd] at h; exact absurd h (by decide)
  | some d' =>
    obtain ⟨-, -, -, -, -, d0, -, hb, hdv, hf, -, -, -, -, hw⟩ :=
      pci_device_create_some env bus device function w d' hd
    rw [hw]
    unfold pci_device_regions_map
    rw [regions_map_from_command env _ init hreg d0.num_regions d0 0 16 _
      (by rw [hb, hdv, hf])]
    unfold create_header_world pci_config_read8 pci_config_read32 pci_config_read16
    simp only [command_register_read]

/-- Witness of C12: a function with an I/O BAR, a 32-bit memory BAR and a 64-bit memory
BAR whose command register holds `0x0107`. -/
theorem create_preserves_command_witness :
    command_register 0x80000000 (table [(2, 0x07), (3, 0x01)]) [] = 0x0107 ∧
    ((pci_device_create mixed_regfile_env 0 0 0 {}).1.map fun d =>
        [((d.regions 0).is_io, (d.regions 0).is_64), ((d.regions 1).is_io, (d.regions 1).is_64),
         ((d.regions 2).is_io, (d.regions 2).is_64)])
      = some [(true, false), (false, false), (false, true)] ∧
    command_register 0x80000000 (table [(2, 0x07), (3, 0x01)])
      (pci_device_create mixed_regfile_env 0 0 0 {}).2.trace = 0x0107 :=
  ⟨by decide, by decide,
   (create_preserves_command mixed_regfile_env (table [(2, 0x07), (3, 0x01)]) 0 0 0 {}
      (regfile_env_stores _ _ _ _) (by decide)).trans (by decide)⟩

/-! ## The range draw of `input.c` -/

/-- The conversion `(double)UINT64_MAX` rounds up to `2 ^ 64`. -/
theorem double_of_UINT64_MAX : double.of_u64 UINT64_MAX = ⟨2 ^ 64, 0⟩ := by decide

/-- Evaluation for C14: `input_derive_range` with bounds `[1, 2]` on the eight input bytes
`00 00 00 00 00 00 00 C0` returns 3, and with bounds `[0, 5]` on eight bytes `FF` it
returns 6; both values are greater than `end`. -/
theorem derive_range_exceeds_end :
    input_derive_range [0, 0, 0, 0, 0, 0, 0, 0xC0] 1 2 = (Outcome.ok 3, []) ∧
    input_derive_range [0xFF, 0xFF, 0xFF, 0xFF, 0xFF, 0xFF, 0xFF, 0xFF] 0 5
      = (Outcome.ok 6, []) := by
  decide

/-- Evaluation for C15: `input_derive_range` with both bounds equal to 1 on the eight input
bytes `00 00 00 00 00 00 00 80` returns 2, and with both bounds equal to 0 on eight bytes
`FF` it returns 1. -/
theorem derive_range_same_bounds :
    input_derive_range [0, 0, 0, 0, 0, 0, 0, 0x80] 1 1 = (Outcome.ok 2, []) ∧
    input_derive_range [0xFF, 0xFF, 0xFF, 0xFF, 0xFF, 0xFF, 0xFF, 0xFF] 0 0
      = (Outcome.ok 1, []) := by
  decide

/-! ## The fuzz driver -/

/-- What `input_read<size>` takes from the stream: `size / 8` bytes when it returns. -/
theorem input_read_consumes (size : Nat) (stream : List Nat) :
    ∃ k, k ≤ size / 8 ∧ k ≤ stream.length ∧ (input_read size stream).2 = stream.drop k ∧
      ((input_read size stream).1 ≠ Outcome.abort → k = size / 8) := by
  unfold input_read
  by_cases h : size / 8 ≤ stream.length
  · rw [if_pos h]; exact ⟨size / 8, le_refl _, h, rfl, fun _ => rfl⟩
  · rw [if_neg h]
    exact ⟨stream.length, by omega, le_refl _, by simp, fun hv => absurd rfl hv⟩

/-- The outcome of `input_read<size>` is a value or an abort. -/
theorem input_read_cases (size : Nat) (stream : List Nat) :
    input_read size stream
        = (Outcome.ok (le_value (stream.take (size / 8))), stream.drop (size / 8)) ∧
      size / 8 ≤ stream.length ∨
    input_read size stream = (Outcome.abort, []) ∧ stream.length < size / 8 := by
  unfold input_read
  by_cases h : size / 8 ≤ stream.length
  · rw [if_pos h]; exact Or.inl ⟨rfl, h⟩
  · rw [if_neg h]; exact Or.inr ⟨rfl, by omega⟩

/-- What `input_derive_range` takes from the stream: 8 bytes unless the read aborts. -/
theorem input_derive_range_consumes (stream : List Nat) (b e : Nat) :
    ∃ k, k ≤ 8 ∧ k ≤ stream.length ∧ (input_derive_range stream b e).2 = stream.drop k ∧
      ((input_derive_range stream b e).1 ≠ Outcome.abort → k = 8) := by
  unfold input_derive_range input_derive_double
  rcases input_read_cases 64 stream with ⟨h, hl⟩ | ⟨h, hl⟩
  · rw [h]
    exact ⟨8, le_refl _, hl, rfl, fun _ => rfl⟩
  · rw [h]
    exact ⟨stream.length, by omega, le_refl _, by simp, fun hv => absurd rfl hv⟩

/-- What the region draw takes from the stream. -/
theorem iterate_region_consumes (f : pci_fuzzer) (stream : List Nat) :
    ∃ k, k ≤ 8 ∧ k ≤ stream.length ∧ (iterate_region f stream).2 = stream.drop k ∧
      ((iterate_region f stream).1 ≠ Outcome.abort → k = 8) := by
  unfold iterate_region
  split
  · exact input_derive_range_consumes _ _ _
  · obtain ⟨k, h1, h2, h3, h4⟩ :=
      input_derive_range_consumes stream 0 ((f.num_regions + (2 ^ 64 - 1)) % 2 ^ 64)
    rcases hd : input_derive_range stream 0 ((f.num_regions + (2 ^ 64 - 1)) % 2 ^ 64)
      with ⟨o, rest⟩
    rw [hd] at h3 h4
    cases o with
    | ok v =>
      refine ⟨k, h1, h2, ?_, fun _ => h4 (by simp)⟩
      simp only []
      split <;> exact h3
    | abort => exact ⟨k, h1, h2, h3, fun hv => absurd rfl hv⟩
    | undefined => exact ⟨k, h1, h2, h3, fun _ => h4 (by simp)⟩

/-- The value of the usability test in terms of the region descriptor. -/
theorem iterate_unusable_fst (d : pci_device) (region : Nat) (w : World) :
    (iterate_unusable d region w).1
      = (decide (region < d.num_regions) && !(d.regions region).is_io
          && (d.regions region).map == MAP_FAILED) := by
  unfold iterate_unusable pci_device_region_is_io pci_device_region_is_mapped
  by_cases h : region ≥ d.num_regions
  · have h2 : ¬ region < d.num_regions := by omega
    simp [h, h2]
  · have h2 : region < d.num_regions := by omega
    cases hio : (d.regions region).is_io
    · simp [h, h2, hio]
      rfl
    · simp [h, h2, hio]

/-- The usability test leaves the world alone when the index is in range. -/
theorem iterate_unusable_snd (d : pci_device) (region : Nat) (w : World)
    (h : region < d.num_regions) : (iterate_unusable d region w).2 = w := by
  unfold iterate_unusable pci_device_region_is_io pci_device_region_is_mapped
  have h2 : ¬ region ≥ d.num_regions := by omega
  simp only [if_neg h2]
  split <;> rfl

/-- The size returned by `pci_device_region_get_size` in terms of the region descriptor. -/
theorem pci_device_region_get_size_fst (d : pci_device) (region : Nat) (w : World) :
    (pci_device_region_get_size d region w).1
      = if region ≥ d.num_regions then 2 ^ 64 - 1 else (d.regions region).size := by
  unfold pci_device_region_get_size
  split <;> rfl

/-- The body of `pci_fuzzer_iterate` after three successful draws on a usable region. -/
theorem pci_fuzzer_iterate_usable (env : Env) (f : pci_fuzzer) (st : FuzzState)
    (region offset op size : Nat) (s1 s2 s3 : List Nat) (w0 w : World)
    (hregion : iterate_region f st.stream = (Outcome.ok region, s1))
    (husable : iterate_unusable f.pci_device region st.world = (false, w0))
    (hsize : pci_device_region_get_size f.pci_device region w0 = (size, w))
    (hoffset : input_derive_range s1 0 ((size + (2 ^ 64 - 1)) % 2 ^ 64) = (Outcome.ok offset, s2))
    (hop : input_derive_range s2 0 5 = (Outcome.ok op, s3)) :
    pci_fuzzer_iterate env f st = iterate_switch env f region offset op ⟨s3, w, st.log⟩ := by
  unfold pci_fuzzer_iterate
  rw [hregion]
  simp only [husable, hsize, hoffset, hop]
  simp

/-- The read arms of the switch. -/
theorem iterate_switch_read (env : Env) (f : pci_fuzzer) (region offset op : Nat)
    (st : FuzzState) (h : op < 3) :
    iterate_switch env f region offset op st
      = (Outcome.ok (),
          ⟨st.stream,
           (pci_device_region_read (if op = 0 then 16 else if op = 1 then 32 else 8) env
              f.pci_device region offset st.world).2,
           ⟨"suu", if op = 0 then "pci_device_region_read16"
              else if op = 1 then "pci_device_region_read32" else "pci_device_region_read8",
             region, offset, none⟩ :: st.log⟩) := by
  unfold iterate_switch pci_fuzzer_log
  have h3 : op = 0 ∨ op = 1 ∨ op = 2 := by omega
  rcases h3 with h3 | h3 | h3 <;> subst h3 <;> simp

/-- The write arms of the switch when the value can be read. -/
theorem iterate_switch_write (env : Env) (f : pci_fuzzer) (region offset op : Nat)
    (st : FuzzState) (h1 : 3 ≤ op) (h2 : op ≤ 5)
    (hlen : (if op = 3 then 2 else if op = 4 then 4 else 1) ≤ st.stream.length) :
    iterate_switch env f region offset op st
      = (Outcome.ok (),
          ⟨st.stream.drop (if op = 3 then 2 else if op = 4 then 4 else 1),
           pci_device_region_write (if op = 3 then 16 else if op = 4 then 32 else 8)
              f.pci_device region offset
              (le_value (st.stream.take (if op = 3 then 2 else if op = 4 then 4 else 1)))
              st.world,
           ⟨"suuu", if op = 3 then "pci_device_region_write16"
              else if op = 4 then "pci_device_region_write32" else "pci_device_region_write8",
             region, offset,
             some (le_value (st.stream.take (if op = 3 then 2 else if op = 4 then 4 else 1)))⟩
             :: st.log⟩) := by
  unfold iterate_switch pci_fuzzer_log input_read
  have h3 : op = 3 ∨ op = 4 ∨ op = 5 := by omega
  rcases h3 with h3 | h3 | h3 <;> subst h3 <;> simp at hlen ⊢ <;> simp [hlen]

/-- The write arms of the switch when the stream is too short for the value. -/
theorem iterate_switch_write_short (env : Env) (f : pci_fuzzer) (region offset op : Nat)
    (st : FuzzState) (h1 : 3 ≤ op) (h2 : op ≤ 5)
    (hlen : st.stream.length < (if op = 3 then 2 else if op = 4 then 4 else 1)) :
    iterate_switch env f region offset op st = (Outcome.abort, { st with stream := [] }) := by
  unfold iterate_switch pci_fuzzer_log input_read
  have h3 : op = 3 ∨ op = 4 ∨ op = 5 := by omega
  rcases h3 with h3 | h3 | h3 <;> subst h3
  · have hn : ¬ 2 ≤ st.stream.length := by simpa using hlen
    simp [hn]
  · have hn : ¬ 4 ≤ st.stream.length := by simpa using hlen
    simp [hn]
  · have hn : ¬ 1 ≤ st.stream.length := by simpa using hlen
    simp [hn]

/-- The default arm of the switch. -/
theorem iterate_switch_default (env : Env) (f : pci_fuzzer) (region offset op : Nat)
    (st : FuzzState) (h : 5 < op) :
    iterate_switch env f region offset op st = (Outcome.abort, st) := by
  unfold iterate_switch
  have h0 : op ≠ 0 := by omega
  have h1 : op ≠ 1 := by omega
  have h2 : op ≠ 2 := by omega
  have h3 : op ≠ 3 := by omega
  have h4 : op ≠ 4 := by omega
  have h5 : op ≠ 5 := by omega
  simp [h0, h1, h2, h3, h4, h5]

/-- C16: in `pci_fuzzer_iterate` on a usable region, once the region, the offset and the
selector `op` have been drawn, selector 0, 1, 2 logs and calls `pci_device_region_read16`,
`read32`, `read8` and leaves the stream where the selector draw left it; selector 3, 4, 5
reads the next 2, 4, 1 bytes as a little-endian value, logs and calls
`pci_device_region_write16`, `write32`, `write8` with that value; any other selector
aborts. -/
theorem iterate_operation (env : Env) (f : pci_fuzzer) (st : FuzzState)
    (region offset op size : Nat) (s1 s2 s3 : List Nat) (w0 w : World)
    (hregion : iterate_region f st.stream = (Outcome.ok region, s1))
    (husable : iterate_unusable f.pci_device region st.world = (false, w0))
    (hsize : pci_device_region_get_size f.pci_device region w0 = (size, w))
    (hoffset : input_derive_range s1 0 ((size + (2 ^ 64 - 1)) % 2 ^ 64) = (Outcome.ok offset, s2))
    (hop : input_derive_range s2 0 5 = (Outcome.ok op, s3)) :
    (op = 0 → pci_fuzzer_iterate env f st
      = (Outcome.ok (),
          ⟨s3, (pci_device_region_read 16 env f.pci_device region offset w).2,
           ⟨"suu", "pci_device_region_read16", region, offset, none⟩ :: st.log⟩)) ∧
    (op = 1 → pci_fuzzer_iterate env f st
      = (Outcome.ok (),
          ⟨s3, (pci_device_region_read 32 env f.pci_device region offset w).2,
           ⟨"suu", "pci_device_region_read32", region, offset, none⟩ :: st.log⟩)) ∧
    (op = 2 → pci_fuzzer_iterate env f st
      = (Outcome.ok (),
          ⟨s3, (pci_device_region_read 8 env f.pci_device region offset w).2,
           ⟨"suu", "pci_device_region_read8", region, offset, none⟩ :: st.log⟩)) ∧
    (op = 3 → 2 ≤ s3.length → pci_fuzzer_iterate env f st
      = (Outcome.ok (),
          ⟨s3.drop 2,
           pci_device_region_write 16 f.pci_device region offset (le_value (s3.take 2)) w,
           ⟨"suuu", "pci_device_region_write16", region, offset, some (le_value (s3.take 2))⟩
             :: st.log⟩)) ∧
    (op = 4 → 4 ≤ s3.length → pci_fuzzer_iterate env f st
      = (Outcome.ok (),
          ⟨s3.drop 4,
           pci_device_region_write 32 f.pci_device region offset (le_value (s3.take 4)) w,
           ⟨"suuu", "pci_device_region_write32", region, offset, some (le_value (s3.take 4))⟩
             :: st.log⟩)) ∧
    (op = 5 → 1 ≤ s3.length → pci_fuzzer_iterate env f st
      = (Outcome.ok (),
          ⟨s3.drop 1,
           pci_device_region_write 8 f.pci_device region offset (le_value (s3.take 1)) w,
           ⟨"suuu", "pci_device_region_write8", region, offset, some (le_value (s3.take 1))⟩
             :: st.log⟩)) ∧
    (5 < op → pci_fuzzer_iterate env f st = (Outcome.abort, ⟨s3, w, st.log⟩)) := by
  rw [pci_fuzzer_iterate_usable env f st region offset op size s1 s2 s3 w0 w hregion husable
    hsize hoffset hop]
  refine ⟨?_, ?_, ?_, ?_, ?_, ?_, ?_⟩
  · intro h; subst h; exact iterate_switch_read env f region offset 0 _ (by decide)
  · intro h; subst h; exact iterate_switch_read env f region offset 1 _ (by decide)
  · intro h; subst h; exact iterate_switch_read env f region offset 2 _ (by decide)
  · intro h hl; subst h
    exact iterate_switch_write env f region offset 3 ⟨s3, w, st.log⟩ (by decide) (by decide) hl
  · intro h hl; subst h
    exact iterate_switch_write env f region offset 4 ⟨s3, w, st.log⟩ (by decide) (by decide) hl
  · intro h hl; subst h
    exact iterate_switch_write env f region offset 5 ⟨s3, w, st.log⟩ (by decide) (by decide) hl
  · intro h; exact iterate_switch_default env f region offset op _ h

/-- Witness of C16: on a device with one I/O region of 8 ports at `0x1f0`, the stream with
region word 0, offset word `0x4000000000000000`, selector word `0x8000000000000000` and the
bytes `EF BE` performs the logged 16-bit write of `0xBEEF` at port `0x1f2`. -/
theorem iterate_operation_witness :
    pci_fuzzer_iterate zero_env ⟨io8_dev, none, 0⟩
        { stream := [0, 0, 0, 0, 0, 0, 0, 0, 0, 0, 0, 0, 0, 0, 0, 0x40,
                     0, 0, 0, 0, 0, 0, 0, 0x80, 0xEF, 0xBE, 7] }
      = (Outcome.ok (),
          ⟨[7], ⟨[Event.io_write 16 0x1f2 0xBEEF], 0, []⟩,
           [⟨"suuu", "pci_device_region_write16", 0, 2, some 0xBEEF⟩]⟩) :=
  ((iterate_operation zero_env ⟨io8_dev, none, 0⟩
      { stream := [0, 0, 0, 0, 0, 0, 0, 0, 0, 0, 0, 0, 0, 0, 0, 0x40,
                   0, 0, 0, 0, 0, 0, 0, 0x80, 0xEF, 0xBE, 7] }
      0 2 3 8
      [0, 0, 0, 0, 0, 0, 0, 0x40, 0, 0, 0, 0, 0, 0, 0, 0x80, 0xEF, 0xBE, 7]
      [0, 0, 0, 0, 0, 0, 0, 0x80, 0xEF, 0xBE, 7] [0xEF, 0xBE, 7] {} {}
      (by decide) (by decide) (by decide) (by decide) (by decide)).2.2.2.1 rfl
    (by decide)).trans (by decide)

/-- C17: when the region drawn by `pci_fuzzer_iterate` has `pci_device_region_is_io` false
and `pci_device_region_is_mapped` false, the call returns with the world and the log
unchanged, having taken the 8 bytes of the region draw from the stream. -/
theorem iterate_skips_unmapped (env : Env) (f : pci_fuzzer) (st : FuzzState) (region : Nat)
    (s1 : List Nat)
    (hregion : iterate_region f st.stream = (Outcome.ok region, s1))
    (hio : (pci_device_region_is_io f.pci_device region st.world).1 = false)
    (hmapped : (pci_device_region_is_mapped f.pci_device region st.world).1 = false) :
    pci_fuzzer_iterate env f st = (Outcome.ok (), { st with stream := st.stream.drop 8 }) ∧
      8 ≤ st.stream.length := by
  have hlt : region < f.pci_device.num_regions := by
    by_contra hge
    have hge2 : region ≥ f.pci_device.num_regions := by omega
    unfold pci_device_region_is_io at hio
    rw [if_pos hge2] at hio
    simp at hio
  have hge : ¬ region ≥ f.pci_device.num_regions := by omega
  unfold pci_device_region_is_io at hio
  rw [if_neg hge] at hio
  have hio : (f.pci_device.regions region).is_io = false := hio
  unfold pci_device_region_is_mapped at hmapped
  rw [if_neg hge] at hmapped
  have hmapped : (!(f.pci_device.regions region).is_io
      && (f.pci_device.regions region).map != MAP_FAILED) = false := hmapped
  rw [hio] at hmapped
  have hmap : ((f.pci_device.regions region).map == MAP_FAILED) = true := by
    cases hm : ((f.pci_device.regions region).map == MAP_FAILED)
    · have : ((f.pci_device.regions region).map != MAP_FAILED) = true := by
        unfold bne; rw [hm]; rfl
      rw [this] at hmapped
      simp at hmapped
    · rfl
  have hu : iterate_unusable f.pci_device region st.world = (true, st.world) := by
    apply Prod.ext
    · rw [iterate_unusable_fst]
      simp only [hio, hmap]
      simp [hlt]
    · exact iterate_unusable_snd _ _ _ hlt
  obtain ⟨k, _, hk2, hk3, hk4⟩ := iterate_region_consumes f st.stream
  rw [hregion] at hk3 hk4
  have hk : k = 8 := hk4 (by simp)
  subst hk
  refine ⟨?_, hk2⟩
  unfold pci_fuzzer_iterate
  rw [hregion]
  simp only [hu]
  simp only [if_true]
  rw [← hk3]

/-- Witness of C17: a device whose only region is a memory region with a failed mapping;
the call takes 8 of the 9 bytes and does nothing else. -/
theorem iterate_skips_unmapped_witness :
    (pci_device_region_is_io unmapped_dev 0 {}).1 = false ∧
    (pci_device_region_is_mapped unmapped_dev 0 {}).1 = false ∧
    pci_fuzzer_iterate zero_env ⟨unmapped_dev, none, 0⟩
        { stream := [1, 2, 3, 4, 5, 6, 7, 8, 9] }
      = (Outcome.ok (), { stream := [9] }) :=
  ⟨by decide, by decide,
   (iterate_skips_unmapped zero_env ⟨unmapped_dev, none, 0⟩
      { stream := [1, 2, 3, 4, 5, 6, 7, 8, 9] } 0 [9] (by decide) (by decide) (by decide)).1⟩

/-- Two successive drops. -/
theorem drop_drop_add (l : List Nat) (a b : Nat) : (l.drop a).drop b = l.drop (a + b) := by
  rw [List.drop_drop, Nat.add_comm]

/-- What the switch takes from the stream, and the record it logs when it returns. -/
theorem iterate_switch_consumes (env : Env) (f : pci_fuzzer) (region offset op : Nat)
    (st : FuzzState) :
    ∃ k, k ≤ 4 ∧ k ≤ st.stream.length ∧
      (iterate_switch env f region offset op st).2.stream = st.stream.drop k ∧
      ((iterate_switch env f region offset op st).1 = Outcome.ok () →
        (∃ kind, kind ∈ ["pci_device_region_read16", "pci_device_region_read32",
              "pci_device_region_read8"] ∧
            (iterate_switch env f region offset op st).2.log
              = ⟨"suu", kind, region, offset, none⟩ :: st.log ∧ k = 0) ∨
        (∃ value, (iterate_switch env f region offset op st).2.log
            = ⟨"suuu", "pci_device_region_write16", region, offset, some value⟩ :: st.log ∧
            k = 2) ∨
        (∃ value, (iterate_switch env f region offset op st).2.log
            = ⟨"suuu", "pci_device_region_write32", region, offset, some value⟩ :: st.log ∧
            k = 4) ∨
        (∃ value, (iterate_switch env f region offset op st).2.log
            = ⟨"suuu", "pci_device_region_write8", region, offset, some value⟩ :: st.log ∧
            k = 1)) := by
  by_cases h3 : op < 3
  · rw [iterate_switch_read env f region offset op st h3]
    refine ⟨0, by omega, by omega, rfl, fun _ => Or.inl ⟨_, ?_, rfl, rfl⟩⟩
    have h : op = 0 ∨ op = 1 ∨ op = 2 := by omega
    rcases h with h | h | h <;> subst h <;> simp
  · by_cases h5 : op ≤ 5
    · by_cases hl : (if op = 3 then 2 else if op = 4 then 4 else 1) ≤ st.stream.length
      · rw [iterate_switch_write env f region offset op st (by omega) h5 hl]
        have h : op = 3 ∨ op = 4 ∨ op = 5 := by omega
        rcases h with h | h | h <;> subst h
        · exact ⟨2, by omega, hl, rfl, fun _ => Or.inr (Or.inl ⟨_, rfl, rfl⟩)⟩
        · exact ⟨4, by omega, hl, rfl, fun _ => Or.inr (Or.inr (Or.inl ⟨_, rfl, rfl⟩))⟩
        · exact ⟨1, by omega, hl, rfl, fun _ => Or.inr (Or.inr (Or.inr ⟨_, rfl, rfl⟩))⟩
      · rw [iterate_switch_write_short env f region offset op st (by omega) h5 (by omega)]
        have hb : (if op = 3 then 2 else if op = 4 then 4 else 1) ≤ 4 := by
          split_ifs <;> omega
        exact ⟨st.stream.length, by omega, le_refl _, by simp, fun h => by simp at h⟩
    · rw [iterate_switch_default env f region offset op st (by omega)]
      exact ⟨0, by omega, by omega, rfl, fun h => by simp at h⟩

/-- C18: a call of `pci_fuzzer_iterate` takes at most `PCI_FUZZER_MAX_INPUT = 28` bytes from
the stream; when it returns it has taken 8 bytes and logged nothing (region skipped), or
24 bytes and logged a read, or 26, 28, 25 bytes and logged a 16-, 32-, 8-bit write. -/
theorem iterate_consumption (env : Env) (f : pci_fuzzer) (st : FuzzState) :
    ∃ consumed, consumed ≤ PCI_FUZZER_MAX_INPUT ∧ consumed ≤ st.stream.length ∧
      (pci_fuzzer_iterate env f st).2.stream = st.stream.drop consumed ∧
      ((pci_fuzzer_iterate env f st).1 = Outcome.ok () →
        ((pci_fuzzer_iterate env f st).2.log = st.log ∧ consumed = 8) ∨
        (∃ kind region offset,
            kind ∈ ["pci_device_region_read16", "pci_device_region_read32",
              "pci_device_region_read8"] ∧
            (pci_fuzzer_iterate env f st).2.log
              = ⟨"suu", kind, region, offset, none⟩ :: st.log ∧ consumed = 24) ∨
        (∃ region offset value, (pci_fuzzer_iterate env f st).2.log
            = ⟨"suuu", "pci_device_region_write16", region, offset, some value⟩ :: st.log ∧
            consumed = 26) ∨
        (∃ region offset value, (pci_fuzzer_iterate env f st).2.log
            = ⟨"suuu", "pci_device_region_write32", region, offset, some value⟩ :: st.log ∧
            consumed = 28) ∨
        (∃ region offset value, (pci_fuzzer_iterate env f st).2.log
            = ⟨"suuu", "pci_device_region_write8", region, offset, some value⟩ :: st.log ∧
            consumed = 25)) := by
  unfold pci_fuzzer_iterate PCI_FUZZER_MAX_INPUT
  obtain ⟨k1, a1, b1, c1, d1⟩ := iterate_region_consumes f st.stream
  rcases hr : iterate_region f st.stream with ⟨o1, s1⟩
  rw [hr] at c1 d1
  cases o1 with
  | abort => exact ⟨k1, by omega, b1, c1, fun h => by simp at h⟩
  | undefined => exact ⟨k1, by omega, b1, c1, fun h => by simp at h⟩
  | ok region =>
    have hk1 : k1 = 8 := d1 (by simp)
    subst hk1
    have c1 : s1 = st.stream.drop 8 := c1
    simp only []
    by_cases hu : (iterate_unusable f.pci_device region st.world).1 = true
    · rw [if_pos hu]
      exact ⟨8, by omega, b1, c1, fun _ => Or.inl ⟨rfl, rfl⟩⟩
    · rw [if_neg hu]
      generalize (pci_device_region_get_size f.pci_device region
        (iterate_unusable f.pci_device region st.world).2) = sz
      obtain ⟨k2, a2, b2, c2, d2⟩ :=
        input_derive_range_consumes s1 0 ((sz.1 + (2 ^ 64 - 1)) % 2 ^ 64)
      rcases hd2 : input_derive_range s1 0 ((sz.1 + (2 ^ 64 - 1)) % 2 ^ 64) with ⟨o2, s2⟩
      rw [hd2] at c2 d2
      have e2 : s2 = st.stream.drop (8 + k2) := by
        rw [← drop_drop_add, ← c1]; exact c2
      have l2 : 8 + k2 ≤ st.stream.length := by
        rw [c1, List.length_drop] at b2; omega
      cases o2 with
      | abort => exact ⟨8 + k2, by omega, l2, e2, fun h => by simp at h⟩
      | undefined => exact ⟨8 + k2, by omega, l2, e2, fun h => by simp at h⟩
      | ok offset =>
        have hk2 : k2 = 8 := d2 (by simp)
        subst hk2
        have e2 : s2 = st.stream.drop 16 := e2
        simp only []
        obtain ⟨k3, a3, b3, c3, d3⟩ := input_derive_range_consumes s2 0 5
        rcases hd3 : input_derive_range s2 0 5 with ⟨o3, s3⟩
        rw [hd3] at c3 d3
        have e3 : s3 = st.stream.drop (16 + k3) := by
          rw [← drop_drop_add, ← e2]; exact c3
        have l3 : 16 + k3 ≤ st.stream.length := by
          rw [e2, List.length_drop] at b3; omega
        cases o3 with
        | abort => exact ⟨16 + k3, by omega, l3, e3, fun h => by simp at h⟩
        | undefined => exact ⟨16 + k3, by omega, l3, e3, fun h => by simp at h⟩
        | ok op =>
          have hk3 : k3 = 8 := d3 (by simp)
          subst hk3
          have e3 : s3 = st.stream.drop 24 := e3
          simp only []
          obtain ⟨k4, a4, b4, c4, d4⟩ :=
            iterate_switch_consumes env f region offset op ⟨s3, sz.2, st.log⟩
          have c4 : (iterate_switch env f region offset op ⟨s3, sz.2, st.log⟩).2.stream
              = st.stream.drop (24 + k4) := by
            rw [← drop_drop_add, ← e3]; exact c4
          have b4 : 24 + k4 ≤ st.stream.length := by
            have b4 : k4 ≤ s3.length := b4
            rw [e3, List.length_drop] at b4; omega
          refine ⟨24 + k4, by omega, b4, c4, fun h => Or.inr ?_⟩
          rcases d4 h with ⟨kind, hk, hl, h0⟩ | ⟨v, hl, h0⟩ | ⟨v, hl, h0⟩ | ⟨v, hl, h0⟩
          · exact Or.inl ⟨kind, region, offset, hk, hl, by omega⟩
          · exact Or.inr (Or.inl ⟨region, offset, v, hl, by omega⟩)
          · exact Or.inr (Or.inr (Or.inl ⟨region, offset, v, hl, by omega⟩))
          · exact Or.inr (Or.inr (Or.inr ⟨region, offset, v, hl, by omega⟩))

/-- The switch: outcome, stream and log do not depend on the host, the device or the
world. -/
theorem iterate_switch_replay (env1 env2 : Env) (f1 f2 : pci_fuzzer) (region offset op : Nat)
    (s : List Nat) (w1 w2 : World) (l : List LogRecord) :
    (iterate_switch env1 f1 region offset op ⟨s, w1, l⟩).1
        = (iterate_switch env2 f2 region offset op ⟨s, w2, l⟩).1 ∧
    (iterate_switch env1 f1 region offset op ⟨s, w1, l⟩).2.stream
        = (iterate_switch env2 f2 region offset op ⟨s, w2, l⟩).2.stream ∧
    (iterate_switch env1 f1 region offset op ⟨s, w1, l⟩).2.log
        = (iterate_switch env2 f2 region offset op ⟨s, w2, l⟩).2.log := by
  by_cases h3 : op < 3
  · rw [iterate_switch_read env1 f1 region offset op _ h3,
      iterate_switch_read env2 f2 region offset op _ h3]
    exact ⟨rfl, rfl, rfl⟩
  · by_cases h5 : op ≤ 5
    · by_cases hl : (if op = 3 then 2 else if op = 4 then 4 else 1) ≤ s.length
      · rw [iterate_switch_write env1 f1 region offset op ⟨s, w1, l⟩ (by omega) h5 hl,
          iterate_switch_write env2 f2 region offset op ⟨s, w2, l⟩ (by omega) h5 hl]
        exact ⟨rfl, rfl, rfl⟩
      · rw [iterate_switch_write_short env1 f1 region offset op ⟨s, w1, l⟩ (by omega) h5
            (by simpa using hl),
          iterate_switch_write_short env2 f2 region offset op ⟨s, w2, l⟩ (by omega) h5
            (by simpa using hl)]
        exact ⟨rfl, rfl, rfl⟩
    · rw [iterate_switch_default env1 f1 region offset op _ (by omega),
        iterate_switch_default env2 f2 region offset op _ (by omega)]
      exact ⟨rfl, rfl, rfl⟩

/-- One call of `pci_fuzzer_iterate`: outcome, stream and log depend only on the region
descriptors, the restricted region list, the stream and the log so far. -/
theorem pci_fuzzer_iterate_replay (env1 env2 : Env) (f1 f2 : pci_fuzzer) (st1 st2 : FuzzState)
    (hnum : f1.pci_device.num_regions = f2.pci_device.num_regions)
    (hdesc : ∀ i, i < f1.pci_device.num_regions →
      f1.pci_device.regions i = f2.pci_device.regions i)
    (hlist : f1.regions = f2.regions) (hlen : f1.num_regions = f2.num_regions)
    (hstream : st1.stream = st2.stream) (hlog : st1.log = st2.log) :
    (pci_fuzzer_iterate env1 f1 st1).1 = (pci_fuzzer_iterate env2 f2 st2).1 ∧
    (pci_fuzzer_iterate env1 f1 st1).2.stream = (pci_fuzzer_iterate env2 f2 st2).2.stream ∧
    (pci_fuzzer_iterate env1 f1 st1).2.log = (pci_fuzzer_iterate env2 f2 st2).2.log := by
  unfold pci_fuzzer_iterate
  have hr : iterate_region f1 st1.stream = iterate_region f2 st2.stream := by
    unfold iterate_region pci_device_get_num_regions
    rw [hlist, hlen, hnum, hstream]
  rw [hr]
  rcases iterate_region f2 st2.stream with ⟨o1, s1⟩
  cases o1 with
  | abort => simp only []; exact ⟨trivial, trivial, hlog⟩
  | undefined => simp only []; exact ⟨trivial, trivial, hlog⟩
  | ok region =>
    simp only []
    have hu : (iterate_unusable f1.pci_device region st1.world).1
        = (iterate_unusable f2.pci_device region st2.world).1 := by
      rw [iterate_unusable_fst, iterate_unusable_fst, ← hnum]
      by_cases hlt : region < f1.pci_device.num_regions
      · rw [hdesc region hlt]
      · simp [hlt]
    rw [hu]
    cases (iterate_unusable f2.pci_device region st2.world).1 with
    | true => simp only [if_true]; exact ⟨trivial, trivial, hlog⟩
    | false =>
      simp only [Bool.false_eq_true, if_false]
      have hs : (pci_device_region_get_size f1.pci_device region
            (iterate_unusable f1.pci_device region st1.world).2).1
          = (pci_device_region_get_size f2.pci_device region
            (iterate_unusable f2.pci_device region st2.world).2).1 := by
        rw [pci_device_region_get_size_fst, pci_device_region_get_size_fst, ← hnum]
        by_cases hge : region ≥ f1.pci_device.num_regions
        · rw [if_pos hge, if_pos hge]
        · rw [if_neg hge, if_neg hge, hdesc region (by omega)]
      rw [hs, hlog]
      generalize (pci_device_region_get_size f1.pci_device region
        (iterate_unusable f1.pci_device region st1.world).2).2 = w1
      generalize (pci_device_region_get_size f2.pci_device region
        (iterate_unusable f2.pci_device region st2.world).2) = sz2
      rcases input_derive_range s1 0 ((sz2.1 + (2 ^ 64 - 1)) % 2 ^ 64) with ⟨o2, s2⟩
      cases o2 with
      | abort => simp only []; exact ⟨trivial, trivial, trivial⟩
      | undefined => simp only []; exact ⟨trivial, trivial, trivial⟩
      | ok offset =>
        simp only []
        rcases input_derive_range s2 0 5 with ⟨o3, s3⟩
        cases o3 with
        | abort => simp only []; exact ⟨trivial, trivial, trivial⟩
        | undefined => simp only []; exact ⟨trivial, trivial, trivial⟩
        | ok op =>
          simp only []
          exact iterate_switch_replay env1 env2 f1 f2 region offset op s3 w1 sz2.2 st2.log

/-- C19: replay determinism.  Two runs of `n` successive calls of `pci_fuzzer_iterate`, on
any two hosts and worlds, with devices that have the same region descriptors, the same
restricted region list and the same input stream, end with the same outcome, leave the
same bytes in the stream and log the same sequence of operation records. -/
theorem iterate_replay_determinism (env1 env2 : Env) (f1 f2 : pci_fuzzer) (n : Nat)
    (st1 st2 : FuzzState)
    (hnum : f1.pci_device.num_regions = f2.pci_device.num_regions)
    (hdesc : ∀ i, i < f1.pci_device.num_regions →
      f1.pci_device.regions i = f2.pci_device.regions i)
    (hlist : f1.regions = f2.regions) (hlen : f1.num_regions = f2.num_regions)
    (hstream : st1.stream = st2.stream) (hlog : st1.log = st2.log) :
    (pci_fuzzer_iterate_n env1 f1 n st1).1 = (pci_fuzzer_iterate_n env2 f2 n st2).1 ∧
    (pci_fuzzer_iterate_n env1 f1 n st1).2.stream
      = (pci_fuzzer_iterate_n env2 f2 n st2).2.stream ∧
    (pci_fuzzer_iterate_n env1 f1 n st1).2.log = (pci_fuzzer_iterate_n env2 f2 n st2).2.log := by
  induction n generalizing st1 st2 with
  | zero => exact ⟨rfl, hstream, hlog⟩
  | succ n ih =>
    unfold pci_fuzzer_iterate_n
    obtain ⟨h1, h2, h3⟩ :=
      pci_fuzzer_iterate_replay env1 env2 f1 f2 st1 st2 hnum hdesc hlist hlen hstream hlog
    rcases ha : pci_fuzzer_iterate env1 f1 st1 with ⟨o1, t1⟩
    rcases hb : pci_fuzzer_iterate env2 f2 st2 with ⟨o2, t2⟩
    rw [ha, hb] at h1 h2 h3
    have h1 : o1 = o2 := h1
    subst h1
    cases o1 with
    | ok u => exact ih t1 t2 h2 h3
    | abort => exact ⟨rfl, h2, h3⟩
    | undefined => exact ⟨rfl, h2, h3⟩

/-- Witness of C19: two calls on the I/O device, once on a host whose ports read zero and
once on a host whose ports read all ones, starting from different worlds: a 16-bit read at
offset 0 and a 16-bit write of `0xBEEF` at offset 2 are logged in both runs, and one byte
is left. -/
theorem iterate_replay_determinism_witness :
    (pci_fuzzer_iterate_n zero_env ⟨io8_dev, none, 0⟩ 2
        { stream := [0, 0, 0, 0, 0, 0, 0, 0, 0, 0, 0, 0, 0, 0, 0, 0, 0, 0, 0, 0, 0, 0, 0, 0,
                     0, 0, 0, 0, 0, 0, 0, 0, 0, 0, 0, 0, 0, 0, 0, 0x40,
                     0, 0, 0, 0, 0, 0, 0, 0x80, 0xEF, 0xBE, 7] }).2.log
      = [⟨"suuu", "pci_device_region_write16", 0, 2, some 0xBEEF⟩,
         ⟨"suu", "pci_device_region_read16", 0, 0, none⟩] ∧
    (pci_fuzzer_iterate_n zero_env ⟨io8_dev, none, 0⟩ 2
        { stream := [0, 0, 0, 0, 0, 0, 0, 0, 0, 0, 0, 0, 0, 0, 0, 0, 0, 0, 0, 0, 0, 0, 0, 0,
                     0, 0, 0, 0, 0, 0, 0, 0, 0, 0, 0, 0, 0, 0, 0, 0x40,
                     0, 0, 0, 0, 0, 0, 0, 0x80, 0xEF, 0xBE, 7] }).2.world
      ≠ (pci_fuzzer_iterate_n ones_env ⟨io8_dev, none, 0⟩ 2
        { stream := [0, 0, 0, 0, 0, 0, 0, 0, 0, 0, 0, 0, 0, 0, 0, 0, 0, 0, 0, 0, 0, 0, 0, 0,
                     0, 0, 0, 0, 0, 0, 0, 0, 0, 0, 0, 0, 0, 0, 0, 0x40,
                     0, 0, 0, 0, 0, 0, 0, 0x80, 0xEF, 0xBE, 7],
          world := { errno := 5 } }).2.world ∧
    (pci_fuzzer_iterate_n zero_env ⟨io8_dev, none, 0⟩ 2
        { stream := [0, 0, 0, 0, 0, 0, 0, 0, 0, 0, 0, 0, 0, 0, 0, 0, 0, 0, 0, 0, 0, 0, 0, 0,
                     0, 0, 0, 0, 0, 0, 0, 0, 0, 0, 0, 0, 0, 0, 0, 0x40,
                     0, 0, 0, 0, 0, 0, 0, 0x80, 0xEF, 0xBE, 7] }).2.log
      = (pci_fuzzer_iterate_n ones_env ⟨io8_dev, none, 0⟩ 2
        { stream := [0, 0, 0, 0, 0, 0, 0, 0, 0, 0, 0, 0, 0, 0, 0, 0, 0, 0, 0, 0, 0, 0, 0, 0,
                     0, 0, 0, 0, 0, 0, 0, 0, 0, 0, 0, 0, 0, 0, 0, 0x40,
                     0, 0, 0, 0, 0, 0, 0, 0x80, 0xEF, 0xBE, 7],
          world := { errno := 5 } }).2.log :=
  ⟨by decide, by decide,
   (iterate_replay_determinism zero_env ones_env ⟨io8_dev, none, 0⟩ ⟨io8_dev, none, 0⟩ 2
      { stream := [0, 0, 0, 0, 0, 0, 0, 0, 0, 0, 0, 0, 0, 0, 0, 0, 0, 0, 0, 0, 0, 0, 0, 0,
                   0, 0, 0, 0, 0, 0, 0, 0, 0, 0, 0, 0, 0, 0, 0, 0x40,
                   0, 0, 0, 0, 0, 0, 0, 0x80, 0xEF, 0xBE, 7] }
      { stream := [0, 0, 0, 0, 0, 0, 0, 0, 0, 0, 0, 0, 0, 0, 0, 0, 0, 0, 0, 0, 0, 0, 0, 0,
                   0, 0, 0, 0, 0, 0, 0, 0, 0, 0, 0, 0, 0, 0, 0, 0x40,
                   0, 0, 0, 0, 0, 0, 0, 0x80, 0xEF, 0xBE, 7],
        world := { errno := 5 } }
      rfl (fun _ _ => rfl) rfl rfl rfl rfl).2.2⟩

/-! ## Regions backed by plain memory -/

/-- The bytes just stored read back as the stored value. -/
theorem ram_value_store_same (init : Nat → Nat) (t : List Event) (size map index value : Nat)
    (n k : Nat) (h : k + n ≤ size / 8) :
    ram_value init (Event.store size map index value :: t) (map + index * (size / 8) + k) n
      = value / 256 ^ k % 256 ^ n := by
  induction n generalizing k with
  | zero => simp [ram_value, Nat.mod_one]
  | succ n ih =>
    have hb : ram_byte init (Event.store size map index value :: t)
        (map + index * (size / 8) + k) = value / 256 ^ k % 256 := by
      unfold ram_byte
      rw [if_pos ⟨by omega, by omega⟩]
      congr 3
      omega
    unfold ram_value
    rw [hb, Nat.add_assoc, ih (k + 1) (by omega), pow_succ 256 k, ← Nat.div_div_eq_div_mul,
      pow_succ 256 n, Nat.mul_comm (256 ^ n) 256, Nat.mod_mul]

/-- Bytes outside the range of a store are not changed by it. -/
theorem ram_value_store_other (init : Nat → Nat) (t : List Event) (size map index value : Nat)
    (n addr : Nat)
    (h : addr + n ≤ map + index * (size / 8) ∨ map + index * (size / 8) + size / 8 ≤ addr) :
    ram_value init (Event.store size map index value :: t) addr n = ram_value init t addr n := by
  induction n generalizing addr with
  | zero => simp [ram_value]
  | succ n ih =>
    have hb : ram_byte init (Event.store size map index value :: t) addr
        = ram_byte init t addr := by
      conv_lhs => unfold ram_byte
      rw [if_neg (by omega)]
    unfold ram_value
    rw [hb, ih (addr + 1) (by omega)]

/-- C20: on a host whose mappings are plain memory, for a mapped memory region `i`, a width
of 8, 16 or 32 bits and an offset `o` below the region size, the read after
`pci_device_region_write<w>(i, o, v)` at the same offset returns `v` (as a `w`-bit value),
and the read at any other offset returns what it returned before the write. -/
theorem ram_write_read (env : Env) (init : Nat → Nat) (d : pci_device) (size i o v : Nat)
    (w : World) (hsize : size = 8 ∨ size = 16 ∨ size = 32) (hram : plain_ram env init)
    (hi : i < d.num_regions) (hmem : (d.regions i).is_io = false)
    (hmapped : (d.regions i).map ≠ MAP_FAILED) (ho : o < (d.regions i).size) :
    (pci_device_region_read size env d i o (pci_device_region_write size d i o v w)).1
        = v % 2 ^ size ∧
    ∀ o', o' ≠ o →
      (pci_device_region_read size env d i o' (pci_device_region_write size d i o v w)).1
        = (pci_device_region_read size env d i o' w).1 := by
  have hw : pci_device_region_write size d i o v w
      = { w with trace := Event.store size (d.regions i).map o (v % 2 ^ size) :: w.trace } := by
    unfold pci_device_region_write
    have h1 : ¬ (i ≥ d.num_regions ∨ o ≥ (d.regions i).size) := by omega
    rw [if_neg h1]
    simp [hmem, hmapped]
  have hpow : 256 ^ (size / 8) = 2 ^ size := by
    rcases hsize with h | h | h <;> subst h <;> norm_num
  rw [hw]
  constructor
  · unfold pci_device_region_read
    have h1 : ¬ (i ≥ d.num_regions ∨ o ≥ (d.regions i).size) := by omega
    rw [if_neg h1]
    simp only [hmem, hmapped, hram _ _ _ _]
    have := ram_value_store_same init w.trace size (d.regions i).map o (v % 2 ^ size)
      (size / 8) 0 (by omega)
    simp only [Nat.add_zero, pow_zero, Nat.div_one] at this
    simp [this, hpow, hmapped]
  · intro o' hne
    unfold pci_device_region_read
    by_cases h1 : i ≥ d.num_regions ∨ o' ≥ (d.regions i).size
    · rw [if_pos h1, if_pos h1]
    · rw [if_neg h1, if_neg h1]
      simp only [hmem, hmapped, hram _ _ _ _]
      have := ram_value_store_other init w.trace size (d.regions i).map o (v % 2 ^ size)
        (size / 8) ((d.regions i).map + o' * (size / 8)) (by
          rcases hsize with h | h | h <;> subst h <;> omega)
      simp [this, hmapped]

/-- Witness of C20: on a memory filled with `0xAA`, a 16-bit write of `0xBEEF` at offset 3
of the mapped region reads back as `0xBEEF`, and the element at offset 2 still reads
`0xAAAA`. -/
theorem ram_write_read_witness :
    (pci_device_region_read 16 (ram_env fun _ => 0xAA) ram_dev 0 3
        (pci_device_region_write 16 ram_dev 0 3 0xBEEF {})).1 = 0xBEEF ∧
    (pci_device_region_read 16 (ram_env fun _ => 0xAA) ram_dev 0 2
        (pci_device_region_write 16 ram_dev 0 3 0xBEEF {})).1 = 0xAAAA :=
  ⟨(ram_write_read (ram_env fun _ => 0xAA) (fun _ => 0xAA) ram_dev 16 0 3 0xBEEF {}
      (by decide) (fun _ _ _ _ => rfl) (by decide) (by decide) (by decide) (by decide)).1.trans
    (by decide),
   by decide⟩

/-! ## The region access surface: I/O regions and the accessors -/

/-- C21 (amended): for an I/O region `i`, an offset below its size and any width, the read
performs exactly one `io_read<w>`, at the port `(base_address(i) + off) mod 2 ^ 16` (the
port parameter of `io.h` is a `uint16_t`), and returns its result; the write performs
exactly one `io_write<w>` of `v` at that port.  Nothing else is added to the trace, so no
mapping is touched, and `errno` and the error reports are unchanged. -/
theorem io_region_access (env : Env) (d : pci_device) (size i off v : Nat) (w : World)
    (hi : i < d.num_regions) (hio : (d.regions i).is_io = true)
    (hoff : off < (d.regions i).size) :
    pci_device_region_read size env d i off w
      = (env.io_read w.trace size (((d.regions i).base_address + off) % 2 ^ 16) % 2 ^ size,
          { w with trace :=
            (Event.io_read size (((d.regions i).base_address + off) % 2 ^ 16)
              (env.io_read w.trace size (((d.regions i).base_address + off) % 2 ^ 16) % 2 ^ size)
              :: w.trace) }) ∧
    pci_device_region_write size d i off v w
      = { w with trace :=
          (Event.io_write size (((d.regions i).base_address + off) % 2 ^ 16) (v % 2 ^ size)
            :: w.trace) } := by
  have h1 : ¬ (i ≥ d.num_regions ∨ off ≥ (d.regions i).size) := by omega
  constructor
  · unfold pci_device_region_read
    rw [if_neg h1]
    simp [hio, io_read]
  · unfold pci_device_region_write
    rw [if_neg h1]
    simp [hio, io_write]

/-- Witness of C21 (amended): a 16-bit read at offset 2 of the I/O region at `0x1f0` is one
`in` at port `0x1f2`. -/
theorem io_region_access_witness :
    pci_device_region_read 16 ones_env io8_dev 0 2 {}
      = (0xFFFF, { trace := [Event.io_read 16 0x1f2 0xFFFF] }) ∧
    pci_device_region_write 16 io8_dev 0 2 0xBEEF {}
      = { trace := [Event.io_write 16 0x1f2 0xBEEF] } :=
  ⟨(io_region_access ones_env io8_dev 16 0 2 0xBEEF {} (by decide) (by decide)
      (by decide)).1.trans (by decide),
   (io_region_access ones_env io8_dev 16 0 2 0xBEEF {} (by decide) (by decide)
      (by decide)).2.trans (by decide)⟩

/-- Counterexample to C21: in the I/O region of 8 ports at base `0xFFFC`, the accesses at
the in-bounds offset 4 go to port `0`, not to `base_address + off = 0x10000`. -/
theorem io_region_port_counterexample :
    (wide_io_dev.regions 0).is_io = true ∧ 4 < (wide_io_dev.regions 0).size ∧
    (wide_io_dev.regions 0).base_address + 4 = 0x10000 ∧
    (pci_device_region_read 8 zero_env wide_io_dev 0 4 {}).2.trace = [Event.io_read 8 0 0] ∧
    (pci_device_region_write 8 wide_io_dev 0 4 0x55 {}).trace = [Event.io_write 8 0 0x55] ∧
    (pci_device_region_write 8 wide_io_dev 0 4 0x55 {}).trace
      ≠ [Event.io_write 8 ((wide_io_dev.regions 0).base_address + 4) 0x55] := by
  decide

/-- Evaluation for C22: for every index at or past `num_regions`,
`pci_device_region_is_io` and `pci_device_region_is_mapped` both return `true` (and report
`EINVAL`), whatever the region descriptors hold. -/
theorem region_predicates_bad_index (d : pci_device) (n : Nat) (w : World) :
    (pci_device_region_is_io d (d.num_regions + n) w).1 = true ∧
    (pci_device_region_is_mapped d (d.num_regions + n) w).1 = true ∧
    (pci_device_region_is_io d (d.num_regions + n) w).2.errno = EINVAL ∧
    (pci_device_region_is_mapped d (d.num_regions + n) w).2.errno = EINVAL := by
  have h : d.num_regions + n ≥ d.num_regions := by omega
  unfold pci_device_region_is_io pci_device_region_is_mapped
  rw [if_pos h, if_pos h]
  exact ⟨by simp, by simp, rfl, rfl⟩

/-- C23: for an index at or past `num_regions`, each of the four accessors sets `errno` to
`EINVAL`, reports it, performs no access and returns a result that does not depend on the
region descriptors; `get_base_address` and `get_size` return `2 ^ 64 - 1`.  For an index
below `num_regions` they return the stored `base_address`, `size` and `is_io` (and, for
`is_mapped`, whether the region is memory with a mapping other than `MAP_FAILED`) and
leave the world as it is. -/
theorem region_accessors_contract (d : pci_device) (i : Nat) (w : World) :
    (i ≥ d.num_regions →
      pci_device_region_get_base_address d i w
        = (2 ^ 64 - 1, ⟨w.trace, EINVAL, ⟨EINVAL, "pci_device_region_get_base_address"⟩ :: w.reports⟩) ∧
      pci_device_region_get_size d i w
        = (2 ^ 64 - 1, ⟨w.trace, EINVAL, ⟨EINVAL, "pci_device_region_get_size"⟩ :: w.reports⟩) ∧
      (pci_device_region_is_io d i w).2
        = ⟨w.trace, EINVAL, ⟨EINVAL, "pci_device_region_is_io"⟩ :: w.reports⟩ ∧
      (pci_device_region_is_mapped d i w).2
        = ⟨w.trace, EINVAL, ⟨EINVAL, "pci_device_region_is_mapped"⟩ :: w.reports⟩ ∧
      ∀ regions : Nat → region,
        pci_device_region_get_base_address { d with regions := regions } i w
          = pci_device_region_get_base_address d i w ∧
        pci_device_region_get_size { d with regions := regions } i w
          = pci_device_region_get_size d i w ∧
        pci_device_region_is_io { d with regions := regions } i w
          = pci_device_region_is_io d i w ∧
        pci_device_region_is_mapped { d with regions := regions } i w
          = pci_device_region_is_mapped d i w) ∧
    (i < d.num_regions →
      pci_device_region_get_base_address d i w = ((d.regions i).base_address, w) ∧
      pci_device_region_get_size d i w = ((d.regions i).size, w) ∧
      pci_device_region_is_io d i w = ((d.regions i).is_io, w) ∧
      pci_device_region_is_mapped d i w
        = (!(d.regions i).is_io && (d.regions i).map != MAP_FAILED, w)) := by
  constructor
  · intro h
    unfold pci_device_region_get_base_address pci_device_region_get_size
      pci_device_region_is_io pci_device_region_is_mapped
    simp [h, set_errno, pci_device_error]
  · intro h
    have h1 : ¬ i ≥ d.num_regions := by omega
    unfold pci_device_region_get_base_address pci_device_region_get_size
      pci_device_region_is_io pci_device_region_is_mapped
    simp [h1]

/-- Witness of C23: the device with one I/O region of 8 ports at `0x1f0`, at index 1 (out
of range) and at index 0. -/
theorem region_accessors_contract_witness :
    pci_device_region_get_size io8_dev 1 {}
      = (2 ^ 64 - 1, { errno := EINVAL, reports := [⟨EINVAL, "pci_device_region_get_size"⟩] }) ∧
    pci_device_region_get_base_address io8_dev 0 {} = (0x1f0, {}) ∧
    pci_device_region_get_size io8_dev 0 {} = (8, {}) ∧
    pci_device_region_is_io io8_dev 0 {} = (true, {}) :=
  ⟨((region_accessors_contract io8_dev 1 {}).1 (by decide)).2.1,
   ((region_accessors_contract io8_dev 0 {}).2 (by decide)).1,
   ((region_accessors_contract io8_dev 0 {}).2 (by decide)).2.1,
   ((region_accessors_contract io8_dev 0 {}).2 (by decide)).2.2.1⟩

/-! ## Reading the input -/

/-- Bits of a little-endian byte sequence. -/
theorem le_value_lt (bytes : List Nat) : le_value bytes < 256 ^ bytes.length := by
  induction bytes with
  | nil => simp [le_value]
  | cons b bs ih =>
    simp only [le_value, List.length_cons, pow_succ]
    have : b % 256 < 256 := Nat.mod_lt _ (by decide)
    omega

/-- C25: for `n` in {8, 16, 32, 64}, on a stream that begins with `n / 8` bytes `bytes`,
`input_read<n>` returns their little-endian value (the first byte is the least
significant, and the value is below `2 ^ n`) and leaves the stream after them; on a stream
with fewer than `n / 8` bytes it aborts. -/
theorem input_read_contract (n : Nat) (hn : n = 8 ∨ n = 16 ∨ n = 32 ∨ n = 64) :
    (∀ bytes rest : List Nat, bytes.length = n / 8 →
      input_read n (bytes ++ rest) = (Outcome.ok (le_value bytes), rest) ∧
      le_value bytes < 2 ^ n ∧
      ∀ b bs, bytes = b :: bs → le_value bytes = b % 256 + 256 * le_value bs) ∧
    (∀ stream : List Nat, stream.length < n / 8 → (input_read n stream).1 = Outcome.abort) := by
  constructor
  · intro bytes rest hl
    refine ⟨?_, ?_, ?_⟩
    · unfold input_read
      have h : n / 8 ≤ (bytes ++ rest).length := by
        rw [List.length_append]; omega
      rw [if_pos h, ← hl]
      simp
    · have h := le_value_lt bytes
      rw [hl] at h
      rcases hn with h8 | h8 | h8 | h8 <;> subst h8 <;> exact h
    · intro b bs hb
      subst hb
      rfl
  · intro stream hl
    unfold input_read
    rw [if_neg (by omega)]

/-- Witness of C25: `input_read32` on the bytes `78 56 34 12 09` returns `0x12345678` and
leaves `09`; on three bytes it aborts. -/
theorem input_read_contract_witness :
    input_read 32 [0x78, 0x56, 0x34, 0x12, 0x09] = (Outcome.ok 0x12345678, [0x09]) ∧
    (input_read 32 [0x78, 0x56, 0x34]).1 = Outcome.abort :=
  ⟨((input_read_contract 32 (by decide)).1 [0x78, 0x56, 0x34, 0x12] [0x09] rfl).1.trans
      (by decide),
   (input_read_contract 32 (by decide)).2 [0x78, 0x56, 0x34] (by decide)⟩

/-! ## Destruction -/

/-- The loop of `pci_device_regions_unmap` from the state in which it enters iteration
`k`. -/
theorem regions_unmap_from_entry (env : Env) (d : pci_device) (w : World) (k : Nat) :
    ∀ (n : Nat) (wk : World), regions_unmap_entry env d w k = some wk →
      regions_unmap_from env (k + n) d 0 w = regions_unmap_from env n d k wk := by
  induction k with
  | zero =>
    intro n wk h
    simp only [regions_unmap_entry, Option.some.injEq] at h
    subst h
    simp
  | succ k ih =>
    intro n wk h
    simp only [regions_unmap_entry] at h
    rcases hk : regions_unmap_entry env d w k with _ | w0
    · rw [hk] at h; simp at h
    · rw [hk] at h
      simp only [] at h
      have e : k + 1 + n = k + (n + 1) := by omega
      rw [e, ih (n + 1) w0 hk]
      conv_lhs => unfold regions_unmap_from
      by_cases h1 : (d.regions k).is_io = true
      · rw [if_pos h1] at h ⊢
        simp only [Option.some.injEq] at h
        rw [h]
      · rw [if_neg h1] at h ⊢
        by_cases h2 : (!(d.regions k).is_io && (d.regions k).map == MAP_FAILED) = true
        · rw [if_pos h2] at h ⊢
          simp only [Option.some.injEq] at h
          rw [h]
        · rw [if_neg h2] at h ⊢
          by_cases h3 : (env.munmap w0.trace (d.regions k).base_address (d.regions k).size).1
              = -1
          · rw [if_pos h3] at h; simp at h
          · rw [if_neg h3] at h
            simp only [Option.some.injEq] at h
            simp only [if_neg h3]
            rw [← h]

/-- C24 (amended): `pci_device_destroy` unmaps the memory regions in index order and stops
at the first failure.  When the loop reaches a memory region `k` (not I/O, `map` other than
`MAP_FAILED`) whose `munmap` fails, the failure is reported and the function returns: the
failed call is the last access it performs, and the loop enters no later iteration, so no
`munmap` is issued for any region `j > k`. -/
theorem unmap_stops_at_first_failure (env : Env) (d : pci_device) (w wk : World) (k : Nat)
    (hk : k < d.num_regions)
    (hs : regions_unmap_entry env d w k = some wk)
    (hmem : (d.regions k).is_io = false) (hmap : (d.regions k).map ≠ MAP_FAILED)
    (hfail : (env.munmap wk.trace (d.regions k).base_address (d.regions k).size).1 = -1) :
    pci_device_destroy env (some d) w
      = ⟨Event.munmap (d.regions k).base_address (d.regions k).size (-1) :: wk.trace,
         (env.munmap wk.trace (d.regions k).base_address (d.regions k).size).2,
         ⟨(env.munmap wk.trace (d.regions k).base_address (d.regions k).size).2,
           "pci_device_regions_unmap"⟩ :: wk.reports⟩ ∧
    ∀ j, k < j → regions_unmap_entry env d w j = none := by
  constructor
  · obtain ⟨n, hn⟩ : ∃ n, d.num_regions = k + (n + 1) := ⟨d.num_regions - k - 1, by omega⟩
    unfold pci_device_destroy pci_device_regions_unmap
    simp only []
    rw [hn, regions_unmap_from_entry env d w k (n + 1) wk hs]
    unfold regions_unmap_from
    simp [hmem, hmap, hfail, pci_device_error]
  · have h1 : regions_unmap_entry env d w (k + 1) = none := by
      simp [regions_unmap_entry, hs, hmem, hmap, hfail]
    intro j hj
    obtain ⟨m, hm⟩ : ∃ m, j = k + 1 + m := ⟨j - k - 1, by omega⟩
    subst hm
    clear hj
    induction m with
    | zero => exact h1
    | succ m ih =>
      have e : k + 1 + (m + 1) = (k + 1 + m) + 1 := by omega
      rw [e]
      simp [regions_unmap_entry, ih]

/-- Witness of C24 (amended): two mapped memory regions on a host where the first `munmap`
fails: the only access of `pci_device_destroy` is the failed call for region 0. -/
theorem unmap_stops_at_first_failure_witness :
    pci_device_destroy munmap_fails_once_env (some two_mem_dev) {}
      = ⟨[Event.munmap 0xfe000000 4096 (-1)], EINVAL,
         [⟨EINVAL, "pci_device_regions_unmap"⟩]⟩ :=
  ((unmap_stops_at_first_failure munmap_fails_once_env two_mem_dev {} {} 0 (by decide) rfl
    (by decide) (by decide) (by decide)).1).trans (by decide)

/-- Counterexample to C24: with two mapped memory regions, on a host where the `munmap`
for region 0 fails and any later `munmap` would succeed, `pci_device_destroy` issues no
`munmap` for region 1. -/
theorem unmap_failure_counterexample :
    (pci_device_region_is_mapped two_mem_dev 0 {}).1 = true ∧
    (pci_device_region_is_mapped two_mem_dev 1 {}).1 = true ∧
    (munmap_fails_once_env.munmap [Event.munmap 0xfe000000 4096 (-1)] 0xfd000000 4096).1 = 0 ∧
    (pci_device_destroy munmap_fails_once_env (some two_mem_dev) {}).trace
      = [Event.munmap 0xfe000000 4096 (-1)] ∧
    (∀ e ∈ (pci_device_destroy munmap_fails_once_env (some two_mem_dev) {}).trace,
      e ≠ Event.munmap 0xfd000000 4096 0 ∧ e ≠ Event.munmap 0xfd000000 4096 (-1) ∧
      e ≠ Event.munmap 0x7f0000001000 4096 0 ∧ e ≠ Event.munmap 0x7f0000001000 4096 (-1)) := by
  decide

/-! ## Fermat numbers -/

/-- Evaluation for C26: on the eight input bytes `00 00 00 00 00 00 00 F8`
`input_derive_range(1, 31)` returns 32 and `input_derive_fermat_number` returns
`2 ^ 32 + 1`; on eight bytes `FF` they return 33 and `2 ^ 33 + 1`.  Both results are
greater than `2 ^ 31 + 1`. -/
theorem fermat_number_exceeds_range :
    input_derive_range [0, 0, 0, 0, 0, 0, 0, 0xF8] 1 31 = (Outcome.ok 32, []) ∧
    input_derive_fermat_number [0, 0, 0, 0, 0, 0, 0, 0xF8] = (Outcome.ok (2 ^ 32 + 1), []) ∧
    input_derive_range [0xFF, 0xFF, 0xFF, 0xFF, 0xFF, 0xFF, 0xFF, 0xFF] 1 31
      = (Outcome.ok 33, []) ∧
    input_derive_fermat_number [0xFF, 0xFF, 0xFF, 0xFF, 0xFF, 0xFF, 0xFF, 0xFF]
      = (Outcome.ok (2 ^ 33 + 1), []) ∧
    2 ^ 31 + 1 < 2 ^ 32 + 1 := by
  decide

/-! ## The width of a memory BAR -/

/-- Bit 2 of a BAR value in terms of the type field, bits 1-2. -/
theorem bar_type_bit2 (saved : Nat) :
    (saved &&& 0x04 ≠ 0 ↔ (saved >>> 1) &&& 0x03 = 2 ∨ (saved >>> 1) &&& 0x03 = 3) ∧
    (saved &&& 0x04 = 0 ↔ (saved >>> 1) &&& 0x03 = 0 ∨ (saved >>> 1) &&& 0x03 = 1) := by
  have h4 : saved &&& 0x04 = saved / 4 % 2 * 4 := by
    have := and_shiftLeft_mask saved 1 2
    simp only [Nat.shiftLeft_eq, Nat.shiftRight_eq_div_pow, Nat.and_one_is_mod] at this
    simpa using this
  have h3 : (saved >>> 1) &&& 0x03 = saved / 2 % 4 := by
    rw [Nat.shiftRight_eq_div_pow]
    exact Nat.and_pow_two_sub_one_eq_mod _ 2
  rw [h4, h3]
  omega

/-- C30 (amended): for a memory BAR (saved value `saved` with bit 0 clear, under the cursor
on entry to iteration `k`, and not replaced by the ATA legacy ports),
`pci_device_regions_map` tests bit 2 alone.  If bit 2 is set, that is for the type fields
`0b10` and `0b11`, the region gets `is_64` and the next slot is consumed (the next
iteration starts 8 further); if bit 2 is clear, that is for the type fields `0b00` and
`0b01`, the region is sized as a 32-bit BAR, `is_64` stays false and the next iteration
starts 4 further. -/
theorem mem_bar_width (env : Env) (d : pci_device) (w : World) (k : Nat)
    (s : pci_device × Nat × World) (saved : Nat)
    (hk : k < d.num_regions)
    (hs : regions_map_entry env d w k = some s)
    (hfresh : d.regions k = {})
    (hsaved : (size_bar32 env s.1 s.2.1 s.2.2).base_address = saved)
    (h0 : saved &&& 0x01 = 0)
    (hata : ¬(pci_device_is_ata_controller d = true ∧ d.class_code &&& 0x05 = 0 ∧ saved = 0 ∧
      (s.2.1 = 16 ∨ s.2.1 = 20 ∨ s.2.1 = 24 ∨ s.2.1 = 28))) :
    ((saved >>> 1) &&& 0x03 = 2 ∨ (saved >>> 1) &&& 0x03 = 3 →
      ((pci_device_regions_map env d w).2.1.regions k).is_64 = true ∧
      ∀ s', regions_map_entry env d w (k + 1) = some s' → s'.2.1 = s.2.1 + 8) ∧
    ((saved >>> 1) &&& 0x03 = 0 ∨ (saved >>> 1) &&& 0x03 = 1 →
      ((pci_device_regions_map env d w).2.1.regions k).is_64 = false ∧
      ((pci_device_regions_map env d w).2.1.regions k).size
        = 2 ^ 32 - (size_bar32 env s.1 s.2.1 s.2.2).probe / 16 * 16 ∧
      ∀ s', regions_map_entry env d w (k + 1) = some s' → s'.2.1 = s.2.1 + 4) := by
  have hnext : ∀ c, (regions_map_body env s.1 k s.2.1 s.2.2).2.2.1 = c →
      ∀ s', regions_map_entry env d w (k + 1) = some s' → s'.2.1 = c + 4 := by
    intro c hc s' hs'
    obtain ⟨t, ht, -, rfl⟩ := regions_map_entry_succ env d w k s' hs'
    rw [hs] at ht
    simp only [Option.some.injEq] at ht
    subst ht
    simp only [hc]
  constructor
  · intro ht
    have h2 : saved &&& 0x04 ≠ 0 := (bar_type_bit2 saved).1.2 ht
    have hne : saved ≠ 0 := by
      rintro rfl
      simp at h2
    have ho := ata_compat_override_of_ne_zero s.1 s.2.1 saved
      (size_bar32 env s.1 s.2.1 s.2.2).size hne
    have hj : (regions_map_body env s.1 k s.2.1 s.2.2).2.2.1 = s.2.1 + 4 :=
      (regions_map_body_mem64 env s.1 k s.2.1 s.2.2
        (by rw [hsaved, ho]; exact h0) (by rw [hsaved, ho]; exact h2)).1
    exact ⟨(regions_map_mem64 env d w k s saved hk hs hsaved h0 h2).2.1, hnext _ hj⟩
  · intro ht
    have h2 : saved &&& 0x04 = 0 := (bar_type_bit2 saved).2.2 ht
    obtain ⟨-, -, -, -, hcc, -⟩ := regions_map_entry_frame env d w k s hs
    have hata' : ¬(pci_device_is_ata_controller s.1 = true ∧ s.1.class_code &&& 0x05 = 0 ∧
        saved = 0 ∧ (s.2.1 = 16 ∨ s.2.1 = 20 ∨ s.2.1 = 24 ∨ s.2.1 = 28)) := by
      simpa only [pci_device_is_ata_controller, hcc] using hata
    have ho := ata_compat_override_of_not s.1 s.2.1 saved
      (size_bar32 env s.1 s.2.1 s.2.2).size hata'
    have hj : (regions_map_body env s.1 k s.2.1 s.2.2).2.2.1 = s.2.1 :=
      (regions_map_body_mem32 env s.1 k s.2.1 s.2.2
        (by rw [hsaved, ho]; exact h0) (by rw [hsaved, ho]; exact h2)).1
    have h32 := regions_map_mem32 env d w k s saved _ hk hs hsaved rfl h0 h2 hata
    refine ⟨?_, h32.2.2.2, hnext _ hj⟩
    rw [h32.2.1, hfresh]

/-- Witness of C30 (amended): the memory BAR `0xFE000006`, whose type field is `0b11`, is
sized as a 64-bit BAR and the iteration for region 1 starts at offset `0x18`; the memory
BAR `0xFE000000`, whose type field is `0b00`, is sized as a 32-bit BAR and the iteration
for region 1 starts at offset `0x14`. -/
theorem mem_bar_width_witness :
    (size_bar32 mem_type3_env (example_dev 0) 16 {}).base_address = 0xFE000006 ∧
    ((pci_device_regions_map mem_type3_env (example_dev 0) {}).2.1.regions 0).is_64 = true ∧
    ((regions_map_entry mem_type3_env (example_dev 0) {} 1).map fun s => s.2.1) = some 0x18 ∧
    (size_bar32 mem32_env (example_dev 0) 16 {}).base_address = 0xFE000000 ∧
    ((pci_device_regions_map mem32_env (example_dev 0) {}).2.1.regions 0).is_64 = false ∧
    ((regions_map_entry mem32_env (example_dev 0) {} 1).map fun s => s.2.1) = some 0x14 :=
  ⟨by decide,
   ((mem_bar_width mem_type3_env (example_dev 0) {} 0 (example_dev 0, 16, {}) 0xFE000006
      (by decide) rfl rfl (by decide) (by decide) (by decide)).1 (by decide)).1,
   by decide, by decide,
   ((mem_bar_width mem32_env (example_dev 0) {} 0 (example_dev 0, 16, {}) 0xFE000000
      (by decide) rfl rfl (by decide) (by decide) (by decide)).2 (by decide)).1,
   by decide⟩

/-- Counterexample to C30: the saved value `0xFE000006` has bit 0 clear and the type field
`0b11`, not `0b10`; `pci_device_regions_map` sets `is_64` for its region and consumes the
next slot (region 1 is sized at offset `0x18`). -/
theorem mem_bar_width_counterexample :
    (size_bar32 mem_type3_env (example_dev 0) 16 {}).base_address = 0xFE000006 ∧
    0xFE000006 &&& 0x01 = 0 ∧ (0xFE000006 >>> 1) &&& 0x03 = 3 ∧
    ((pci_device_create mem_type3_env 0 0 0 {}).1.map fun d => (d.regions 0).is_64)
      = some true ∧
    ((regions_map_entry mem_type3_env (example_dev 0) {} 1).map fun s => s.2.1)
      = some 0x18 := by
  decide

/-! ## The region list of the command line -/

/-- The bit-setting loop stays inside the bit array when the array has an element for
`max_elements`. -/
theorem set_range_some (max_elements len end_ : Nat) (hlen : max_elements / 4 < len) :
    ∀ (n value : Nat) (bit_array : Nat → Nat),
      ∃ b, set_range max_elements len end_ n value bit_array = some b := by
  intro n
  induction n with
  | zero => intro value bit_array; exact ⟨bit_array, rfl⟩
  | succ n ih =>
    intro value bit_array
    unfold set_range
    by_cases hc : value ≤ end_ ∧ value ≤ max_elements
    · have hv : value / 4 < len := lt_of_le_of_lt (Nat.div_le_div_right hc.2) hlen
      rw [if_pos hc, if_pos hv]
      exact ih _ _
    · rw [if_neg hc]
      exact ⟨bit_array, rfl⟩

/-- The collecting loops stay inside the bit array when the array has an element for
`max_elements`, and deliver indices from the range they scan. -/
theorem collect_range_some (max_elements len : Nat) (bit_array : Nat → Nat)
    (hlen : max_elements / 4 < len) :
    ∀ (n i : Nat), i + n ≤ max_elements + 1 →
      ∃ l, collect_range len bit_array n i = some l ∧ ∀ x ∈ l, i ≤ x ∧ x < i + n := by
  intro n
  induction n with
  | zero => intro i _; exact ⟨[], rfl, fun x hx => by simp at hx⟩
  | succ n ih =>
    intro i hi
    obtain ⟨l, hl, hx⟩ := ih (i + 1) (by omega)
    have hv : i / 4 < len :=
      lt_of_le_of_lt (Nat.div_le_div_right (by omega : i ≤ max_elements)) hlen
    unfold collect_range
    rw [if_pos hv, hl]
    refine ⟨_, rfl, ?_⟩
    intro x hxl
    by_cases hb : bit_array (i / 4) &&& (1 <<< (i % 4)) ≠ 0
    · rw [if_pos hb] at hxl
      rcases List.mem_cons.mp hxl with h | h
      · omega
      · have := hx x h; omega
    · rw [if_neg hb] at hxl
      have := hx x hxl; omega

/-- One token: the loop goes on or leaves with `EINVAL`; it leaves with `EINVAL` when the
first or the second field of the token has a value above `max_elements`. -/
theorem split_range_token_cases (strtoul : List Char → Nat × Nat) (max_elements len : Nat)
    (token : List Char) (bit_array : Nat → Nat) (errno : Nat) (hlen : max_elements / 4 < len) :
    ((∃ b e, split_range_token strtoul max_elements len token bit_array errno
        = SplitStep.next b e) ∨
      split_range_token strtoul max_elements len token bit_array errno
        = SplitStep.err EINVAL) ∧
    ((∃ field ∈ (strtok_r_all token ['-']).take 2, (strtoul field).1 > max_elements) →
      split_range_token strtoul max_elements len token bit_array errno
        = SplitStep.err EINVAL) := by
  unfold split_range_token
  rcases strtok_r_all token ['-'] with _ | ⟨a, more⟩
  · simp
  · simp only []
    by_cases h1 : (strtoul a).2 = EINVAL
    · simp [h1]
    · rw [if_neg h1]
      by_cases h2 : (strtoul a).1 > max_elements
      · simp [h2]
      · rw [if_neg h2]
        rcases more with _ | ⟨b, rest⟩
        · simp only []
          obtain ⟨r, hr⟩ := set_range_some max_elements len (strtoul a).1 hlen
            (max_elements + 1 - (strtoul a).1) (strtoul a).1 bit_array
          rw [hr]
          simp only []
          refine ⟨Or.inl ⟨_, _, rfl⟩, ?_⟩
          rintro ⟨field, hf, hgt⟩
          simp at hf
          subst hf
          exact absurd hgt h2
        · simp only []
          by_cases h3 : (strtoul b).2 = EINVAL
          · simp [h3]
          · rw [if_neg h3]
            by_cases h4 : (strtoul a).1 > (strtoul b).1 ∨ (strtoul b).1 > max_elements
            · simp [h4]
            · rw [if_neg h4]
              obtain ⟨r, hr⟩ := set_range_some max_elements len (strtoul b).1 hlen
                (max_elements + 1 - (strtoul a).1) (strtoul a).1 bit_array
              rw [hr]
              simp only []
              refine ⟨Or.inl ⟨_, _, rfl⟩, ?_⟩
              rintro ⟨field, hf, hgt⟩
              simp at hf
              rcases hf with hf | hf
              · subst hf; exact absurd hgt h2
              · subst hf; exact absurd (Or.inr hgt) h4

/-- The token loop: it ends or leaves with `EINVAL`; it leaves with `EINVAL` when a field
of some token has a value above `max_elements`. -/
theorem split_range_tokens_cases (strtoul : List Char → Nat × Nat) (max_elements len : Nat)
    (hlen : max_elements / 4 < len) :
    ∀ (tokens : List (List Char)) (bit_array : Nat → Nat) (errno : Nat),
      ((∃ b e, split_range_tokens strtoul max_elements len tokens bit_array errno
          = SplitStep.next b e) ∨
        split_range_tokens strtoul max_elements len tokens bit_array errno
          = SplitStep.err EINVAL) ∧
      ((∃ token ∈ tokens, ∃ field ∈ (strtok_r_all token ['-']).take 2,
          (strtoul field).1 > max_elements) →
        split_range_tokens strtoul max_elements len tokens bit_array errno
          = SplitStep.err EINVAL) := by
  intro tokens
  induction tokens with
  | nil =>
    intro bit_array errno
    refine ⟨Or.inl ⟨_, _, rfl⟩, ?_⟩
    rintro ⟨token, ht, -⟩
    simp at ht
  | cons token rest ih =>
    intro bit_array errno
    obtain ⟨hc, hbad⟩ := split_range_token_cases strtoul max_elements len token bit_array
      errno hlen
    unfold split_range_tokens
    rcases hc with ⟨b, e, hstep⟩ | hstep
    · rw [hstep]
      simp only []
      refine ⟨(ih b e).1, ?_⟩
      rintro ⟨t, ht, hf⟩
      rcases List.mem_cons.mp ht with h | h
      · subst h
        rw [hbad hf] at hstep
        exact SplitStep.noConfusion hstep
      · exact (ih b e).2 ⟨t, h, hf⟩
    · rw [hstep]
      simp only []
      exact ⟨Or.inr trivial, fun _ => trivial⟩

/-- The bound that the parse of the `--regions` list applies, with any `strtoul`: the call
returns; it returns `0`, or `-1` with `errno = EINVAL`; every element it delivers is at
most 6; and it returns `-1` with `EINVAL` whenever the first or second `-`-separated field
of some `,`-separated token has a value greater than 6.  The value compared with is
`MAX_REGIONS = 6`, the number of regions, not the largest region index 5. -/
theorem regions_option_bounds (strtoul : List Char → Nat × Nat) (optarg : List Char)
    (errno : Nat) :
    (∃ r, main_option_regions strtoul optarg errno = Outcome.ok r ∧
      (r.status = 0 ∨ (r.status = -1 ∧ r.errno = EINVAL ∧ r.elements = [])) ∧
      ∀ x ∈ r.elements, x ≤ 6) ∧
    ((∃ token ∈ strtok_r_all optarg [','], ∃ field ∈ (strtok_r_all token ['-']).take 2,
        (strtoul field).1 > 6) →
      main_option_regions strtoul optarg errno = Outcome.ok ⟨-1, EINVAL, []⟩) := by
  have hlen : MAX_REGIONS / 4 < (MAX_REGIONS + (4 - 1)) / 4 := by decide
  obtain ⟨hc, hbad⟩ := split_range_tokens_cases strtoul MAX_REGIONS
    ((MAX_REGIONS + (4 - 1)) / 4) hlen (strtok_r_all optarg [',']) (fun _ => 0) errno
  have hmax : ¬ MAX_REGIONS > INT_MAX := by decide
  unfold main_option_regions string_split_rangei string_split_range
  simp only [if_neg hmax]
  constructor
  · rcases hc with ⟨b, e, hstep⟩ | hstep
    · rw [hstep]
      simp only []
      obtain ⟨l, hl, hx⟩ := collect_range_some MAX_REGIONS ((MAX_REGIONS + (4 - 1)) / 4) b hlen
        (MAX_REGIONS + 1) 0 (by omega)
      rw [hl]
      refine ⟨_, rfl, Or.inl rfl, ?_⟩
      intro x hxl
      have := hx x hxl
      have h6 : MAX_REGIONS = 6 := rfl
      omega
    · rw [hstep]
      exact ⟨_, rfl, Or.inr ⟨rfl, rfl, rfl⟩, fun x hx => by simp at hx⟩
  · intro h
    rw [hbad h]

/-- Example: the list `1,3-5,7` is rejected with `EINVAL` because of its token `7`; the
list `1,3-5` is accepted and yields the regions 1, 3, 4 and 5. -/
theorem regions_option_bounds_witness :
    main_option_regions strtoul_decimal "1,3-5,7".data 0 = Outcome.ok ⟨-1, EINVAL, []⟩ ∧
    main_option_regions strtoul_decimal "1,3-5".data 0 = Outcome.ok ⟨0, 0, [1, 3, 4, 5]⟩ :=
  ⟨(regions_option_bounds strtoul_decimal "1,3-5,7".data 0).2
      ⟨"7".data, by decide, "7".data, by decide, by decide⟩,
   by decide⟩

/-- Evaluation for C27: `MAX_REGIONS` is 6, the number of regions of a device, whose
indices are 0 to 5.  The list `6` contains an index greater than 5 and is accepted by the
parse of `--regions`, yielding the region index 6; the list `0-6` is accepted and yields
seven indices.  On a device with six regions the index 6 is rejected with `EINVAL` by the
region functions, and an iteration of the fuzzer restricted to the list `[6]` logs a read
of region 6 that fails with `EINVAL`. -/
theorem regions_option_accepts_max_regions :
    MAX_REGIONS = 6 ∧
    main_option_regions strtoul_decimal "6".data 0 = Outcome.ok ⟨0, 0, [6]⟩ ∧
    (strtoul_decimal "6".data).1 = 6 ∧ 5 < 6 ∧
    main_option_regions strtoul_decimal "0-6".data 0
      = Outcome.ok ⟨0, 0, [0, 1, 2, 3, 4, 5, 6]⟩ ∧
    (example_dev 0).num_regions = 6 ∧
    pci_device_region_get_size (example_dev 0) 6 {}
      = (2 ^ 64 - 1, ⟨[], EINVAL, [⟨EINVAL, "pci_device_region_get_size"⟩]⟩) ∧
    (pci_fuzzer_iterate zero_env ⟨example_dev 0, some [6], 1⟩
        { stream := [0, 0, 0, 0, 0, 0, 0, 0, 0, 0, 0, 0, 0, 0, 0, 0,
                     0, 0, 0, 0, 0, 0, 0, 0, 7] }).2.log
      = [⟨"suu", "pci_device_region_read16", 6, 0, none⟩] ∧
    (pci_fuzzer_iterate zero_env ⟨example_dev 0, some [6], 1⟩
        { stream := [0, 0, 0, 0, 0, 0, 0, 0, 0, 0, 0, 0, 0, 0, 0, 0,
                     0, 0, 0, 0, 0, 0, 0, 0, 7] }).2.world.trace = [] ∧
    (pci_fuzzer_iterate zero_env ⟨example_dev 0, some [6], 1⟩
        { stream := [0, 0, 0, 0, 0, 0, 0, 0, 0, 0, 0, 0, 0, 0, 0, 0,
                     0, 0, 0, 0, 0, 0, 0, 0, 7] }).2.world.errno = EINVAL := by
  refine ⟨by decide, by decide, by decide, by decide, by decide, by decide, by decide,
    by decide, by decide, by decide⟩

/-! ## The BAR slots reached by the sizing loop -/

/-- Evaluation for C28: with a 64-bit memory BAR in slots 0 and 1, construction of a
header-type-0 function (6 regions) writes the all-ones probe at the offsets `0x10` to
`0x28`, and construction of a header-type-1 function (2 regions) writes it at `0x10`,
`0x14` and `0x18`: the last offset is `0x10 + 4 * num_regions`, the register after the last
BAR slot. -/
theorem probe_past_last_bar_slot :
    ((pci_device_create mem64_env 0 0 0 {}).1.map fun d => (d.header_type, d.num_regions))
      = some (0, 6) ∧
    probed_offsets (pci_device_create mem64_env 0 0 0 {}).2.trace
      = [0x28, 0x24, 0x20, 0x1c, 0x18, 0x14, 0x10] ∧
    ((pci_device_create bridge_mem64_env 0 0 0 {}).1.map fun d => (d.header_type, d.num_regions))
      = some (1, 2) ∧
    probed_offsets (pci_device_create bridge_mem64_env 0 0 0 {}).2.trace
      = [0x18, 0x14, 0x10] ∧
    ((List.range 2).map fun k =>
        (regions_map_entry bridge_mem64_env { header_type := 1, num_regions := 2 }
          (pci_config_read8 bridge_mem64_env 0 0 0 14
            (create_header_world bridge_mem64_env 0 0 0 {})).2 k).map fun s => s.2.1)
      = [some 0x10, some 0x18] := by
  decide

/-! ## The sizing discipline -/

theorem bar_writes_decoding_off_append (a0 : Nat) (init : Nat → Nat) (old n1 : List Event) :
    ∀ n2 : List Event, bar_writes_decoding_off a0 init old (n2 ++ n1)
      = (bar_writes_decoding_off a0 init (n1 ++ old) n2
          && bar_writes_decoding_off a0 init old n1) := by
  intro n2
  induction n2 with
  | nil => simp [bar_writes_decoding_off]
  | cons e n2 ih =>
    simp only [List.cons_append, bar_writes_decoding_off, List.append_eq, ih, List.append_assoc,
      Bool.and_assoc]

theorem decoding_off_since_refl (a0 : Nat) (init : Nat → Nat) (t0 : List Event) :
    decoding_off_since a0 init t0 t0 :=
  ⟨[], rfl, rfl⟩

theorem decoding_off_since_trans (a0 : Nat) (init : Nat → Nat) (t0 t1 t2 : List Event)
    (h1 : decoding_off_since a0 init t0 t1) (h2 : decoding_off_since a0 init t1 t2) :
    decoding_off_since a0 init t0 t2 := by
  obtain ⟨n1, e1, p1⟩ := h1
  obtain ⟨n2, e2, p2⟩ := h2
  refine ⟨n2 ++ n1, by rw [e2, e1, List.append_assoc], ?_⟩
  rw [bar_writes_decoding_off_append, ← e1, p2, p1]
  rfl

/-- An access that is not a 32-bit write to the data port keeps the discipline. -/
theorem decoding_off_since_cons (a0 : Nat) (init : Nat → Nat) (t0 t : List Event) (e : Event)
    (h : decoding_off_since a0 init t0 t)
    (he : ∀ v, e ≠ Event.io_write 32 0xcfc v) :
    decoding_off_since a0 init t0 (e :: t) := by
  obtain ⟨new, e1, p1⟩ := h
  refine ⟨e :: new, by rw [e1]; rfl, ?_⟩
  unfold bar_writes_decoding_off
  rw [p1]
  cases e with
  | io_write size port value =>
    by_cases hc : size = 32 ∧ port = 0xcfc
    · exact absurd (by rw [hc.1, hc.2]) (he value)
    · simp [hc]
  | _ => rfl

/-- A 32-bit write to the data port keeps the discipline when the command register has
bits 0 and 1 clear. -/
theorem decoding_off_since_bar_write (a0 : Nat) (init : Nat → Nat) (t0 t : List Event) (v : Nat)
    (h : decoding_off_since a0 init t0 t)
    (hc : command_register a0 init t &&& 0x03 = 0) :
    decoding_off_since a0 init t0 (Event.io_write 32 0xcfc v :: t) := by
  obtain ⟨new, e1, p1⟩ := h
  refine ⟨Event.io_write 32 0xcfc v :: new, by rw [e1]; rfl, ?_⟩
  unfold bar_writes_decoding_off
  rw [p1, ← e1]
  simp [hc]

/-- A write to the address port leaves the bytes of the register file as they are. -/
theorem command_register_latch (a0 : Nat) (init : Nat → Nat) (t : List Event) (a : Nat) :
    command_register a0 init (Event.io_write 32 0xcf8 a :: t) = command_register a0 init t := by
  simp [command_register, cfg_replay, cfg_step]

theorem decoding_off_since_read (a0 : Nat) (init : Nat → Nat) (t0 : List Event)
    (size mask : Nat) (env : Env) (bus device function : Int) (o : Nat) (w : World)
    (h : decoding_off_since a0 init t0 w.trace) :
    decoding_off_since a0 init t0
      (pci_config_read size mask env bus device function o w).2.trace := by
  simp only [pci_config_read, io_read, io_write]
  apply decoding_off_since_cons _ _ _ _ _ _ (by intro v hv; cases hv)
  apply decoding_off_since_cons _ _ _ _ _ h
  intro v hv
  simp at hv

theorem decoding_off_since_write16 (a0 : Nat) (init : Nat → Nat) (t0 : List Event)
    (mask : Nat) (bus device function : Int) (o v : Nat) (w : World)
    (h : decoding_off_since a0 init t0 w.trace) :
    decoding_off_since a0 init t0
      (pci_config_write 16 mask bus device function o v w).trace := by
  simp only [pci_config_write, io_write]
  apply decoding_off_since_cons _ _ _ _ _ _ (by intro v hv; simp at hv)
  apply decoding_off_since_cons _ _ _ _ _ h
  intro v hv
  simp at hv

theorem decoding_off_since_write32 (a0 : Nat) (init : Nat → Nat) (t0 : List Event)
    (bus device function : Int) (o v : Nat) (w : World)
    (h : decoding_off_since a0 init t0 w.trace)
    (hc : command_register a0 init w.trace &&& 0x03 = 0) :
    decoding_off_since a0 init t0
      (pci_config_write 32 0 bus device function o v w).trace := by
  simp only [pci_config_write, io_write, Nat.and_zero, Nat.add_zero]
  apply decoding_off_since_bar_write
  · apply decoding_off_since_cons _ _ _ _ _ h
    intro v hv
    simp at hv
  · show command_register a0 init (Event.io_write 32 0xcf8 _ :: w.trace) &&& 0x03 = 0
    rw [command_register_latch]
    exact hc

/-- A configuration write outside the first dword leaves the command register as it is. -/
theorem command_register_write_other (a0 : Nat) (init : Nat → Nat) (size mask : Nat)
    (bus device function : Int) (o v : Nat) (w : World)
    (ha : a0 = pci_config_address (to_u8 bus) (to_u8 device) (to_u8 function) 0)
    (ho : 4 ≤ o % 256) :
    command_register a0 init (pci_config_write size mask bus device function o v w).trace
      = command_register a0 init w.trace := by
  unfold command_register
  rw [cfg_replay_write_other a0 init size mask bus device function o v w ha ho]

/-- The value written to the command register to disable decoding has bits 0 and 1
clear. -/
theorem command_disable_bits (c : Nat) : (c &&& bnot 32 0x03) % 2 ^ 16 &&& 0x03 = 0 := by
  have h := and_shiftLeft_mask c 0x3FFFFFFF 2
  have hb : bnot 32 0x03 = 0x3FFFFFFF <<< 2 := by decide
  rw [hb, h, Nat.shiftLeft_eq]
  have h3 : ∀ x : Nat, x &&& 0x03 = x % 4 := fun x => Nat.and_pow_two_sub_one_eq_mod x 2
  rw [h3]
  omega

/-- The discipline is violated by a 32-bit write to the data port made while the command
register has bit 0 or bit 1 set. -/
theorem bar_writes_decoding_off_example :
    bar_writes_decoding_off 0x80000000 (fun _ => 0x03) []
      [Event.io_write 32 0xcfc 0xffffffff, Event.io_write 32 0xcf8 0x80000010] = false ∧
    bar_writes_decoding_off 0x80000000 (fun _ => 0x03) []
      [Event.io_write 32 0xcfc 0xffffffff, Event.io_write 32 0xcf8 0x80000010,
       Event.io_write 16 0xcfe 0x0100, Event.io_write 32 0xcf8 0x80000002] = true := by
  decide
/-- Two address words of one function select the same dword exactly when their offsets
do. -/
theorem pci_config_address_dword (bus device function : Int) (o o' : Nat) (ho : o < 256)
    (ho' : o' < 256) :
    (pci_config_address (to_u8 bus) (to_u8 device) (to_u8 function) o / 4
      = pci_config_address (to_u8 bus) (to_u8 device) (to_u8 function) o' / 4) ↔ o / 4 = o' / 4 := by
  obtain ⟨h1, hm⟩ := pci_config_address_add (to_u8 bus) (to_u8 device) (to_u8 function) o
    (to_u8_lt _) (to_u8_lt _) (to_u8_lt _) ho
  obtain ⟨h2, -⟩ := pci_config_address_add (to_u8 bus) (to_u8 device) (to_u8 function) o'
    (to_u8_lt _) (to_u8_lt _) (to_u8_lt _) ho'
  rw [h1, h2]
  omega

/-- A configuration write to another dword leaves the dword of `a` as it is. -/
theorem cfg_replay_write_ne (a : Nat) (init : Nat → Nat) (size mask : Nat)
    (bus device function : Int) (o v : Nat) (w : World)
    (hsel : pci_config_address (to_u8 bus) (to_u8 device) (to_u8 function) (o % 256) / 4
      ≠ a / 4) :
    cfg_replay a init (pci_config_write size mask bus device function o v w).trace
      = (pci_config_address (to_u8 bus) (to_u8 device) (to_u8 function) (o % 256),
          (cfg_replay a init w.trace).2) := by
  have hp : pci_config_address (to_u8 bus) (to_u8 device) (to_u8 function) (o % 256) % 2 ^ 32
      = pci_config_address (to_u8 bus) (to_u8 device) (to_u8 function) (o % 256) := by
    unfold pci_config_address
    exact Nat.mod_mod _ _
  have hne : (0xcfc + (o % 256 &&& mask)) % 65536 ≠ 0xcf8 := (data_port_ne o mask).1
  simp only [pci_config_write, io_write, cfg_replay, cfg_step, hp]
  simp [hne, hsel]

theorem config_dword_read (a : Nat) (init : Nat → Nat) (size mask : Nat) (env : Env)
    (bus device function : Int) (o : Nat) (w : World) :
    config_dword a init (pci_config_read size mask env bus device function o w).2.trace
      = config_dword a init w.trace := by
  unfold config_dword
  rw [cfg_replay_read]

theorem config_dword_write_ne (a : Nat) (init : Nat → Nat) (size mask : Nat)
    (bus device function : Int) (o v : Nat) (w : World)
    (hsel : pci_config_address (to_u8 bus) (to_u8 device) (to_u8 function) (o % 256) / 4
      ≠ a / 4) :
    config_dword a init (pci_config_write size mask bus device function o v w).trace
      = config_dword a init w.trace := by
  unfold config_dword
  rw [cfg_replay_write_ne a init size mask bus device function o v w hsel]

/-- A 32-bit configuration write to the dword of `a` leaves the value written in it. -/
theorem config_dword_write32 (a : Nat) (init : Nat → Nat)
    (bus device function : Int) (o v : Nat) (w : World)
    (hsel : pci_config_address (to_u8 bus) (to_u8 device) (to_u8 function) (o % 256) / 4
      = a / 4) :
    config_dword a init (pci_config_write 32 0 bus device function o v w).trace
      = v % 2 ^ 32 := by
  have hp : pci_config_address (to_u8 bus) (to_u8 device) (to_u8 function) (o % 256) % 2 ^ 32
      = pci_config_address (to_u8 bus) (to_u8 device) (to_u8 function) (o % 256) := by
    unfold pci_config_address
    exact Nat.mod_mod _ _
  simp only [config_dword, pci_config_write, io_write, cfg_replay, cfg_step, hp, le_value]
  norm_num [hsel, Nat.shiftRight_eq_div_pow]
  omega
/-- Sizing the low half of a BAR keeps the discipline: both writes of the slot are made
after the write that clears bits 0 and 1 of the command register. -/
theorem size_bar32_discipline (env : Env) (a0 : Nat) (init : Nat → Nat) (t0 : List Event)
    (d : pci_device) (j : Nat) (w : World)
    (ha : a0 = pci_config_address (to_u8 d.bus) (to_u8 d.device) (to_u8 d.function) 0)
    (hj : 4 ≤ j % 256) (h : decoding_off_since a0 init t0 w.trace) :
    decoding_off_since a0 init t0 (size_bar32 env d j w).world.trace := by
  unfold size_bar32 pci_config_read16 pci_config_write16 pci_config_read32 pci_config_write32
  simp only []
  have q1 := decoding_off_since_read a0 init t0 16 2 env d.bus d.device d.function 2 w h
  generalize pci_config_read 16 2 env d.bus d.device d.function 2 w = r1 at q1 ⊢
  have q2 := decoding_off_since_write16 a0 init t0 2 d.bus d.device d.function 2
    (r1.1 &&& bnot 32 0x03) r1.2 q1
  have c2 : command_register a0 init
      (pci_config_write 16 2 d.bus d.device d.function 2 (r1.1 &&& bnot 32 0x03) r1.2).trace
      = (r1.1 &&& bnot 32 0x03) % 2 ^ 16 :=
    (cfg_replay_write_command a0 init d.bus d.device d.function _ r1.2 ha).2
  generalize pci_config_write 16 2 d.bus d.device d.function 2 (r1.1 &&& bnot 32 0x03) r1.2
    = w1 at q2 c2 ⊢
  have q3 := decoding_off_since_read a0 init t0 32 0 env d.bus d.device d.function j w1 q2
  have c3 : command_register a0 init
      (pci_config_read 32 0 env d.bus d.device d.function j w1).2.trace
      = (r1.1 &&& bnot 32 0x03) % 2 ^ 16 := by
    rw [command_register_read]; exact c2
  generalize pci_config_read 32 0 env d.bus d.device d.function j w1 = r2 at q3 c3 ⊢
  have q4 := decoding_off_since_write32 a0 init t0 d.bus d.device d.function j 0xffffffff r2.2
    q3 (by rw [c3]; exact command_disable_bits _)
  have c4 : command_register a0 init
      (pci_config_write 32 0 d.bus d.device d.function j 0xffffffff r2.2).trace
      = (r1.1 &&& bnot 32 0x03) % 2 ^ 16 := by
    rw [command_register_write_other a0 init 32 0 d.bus d.device d.function j _ r2.2 ha hj]
    exact c3
  generalize pci_config_write 32 0 d.bus d.device d.function j 0xffffffff r2.2 = w2 at q4 c4 ⊢
  have q5 := decoding_off_since_read a0 init t0 32 0 env d.bus d.device d.function j w2 q4
  have c5 : command_register a0 init
      (pci_config_read 32 0 env d.bus d.device d.function j w2).2.trace
      = (r1.1 &&& bnot 32 0x03) % 2 ^ 16 := by
    rw [command_register_read]; exact c4
  generalize pci_config_read 32 0 env d.bus d.device d.function j w2 = r3 at q5 c5 ⊢
  have q6 := decoding_off_since_write32 a0 init t0 d.bus d.device d.function j r2.1 r3.2
    q5 (by rw [c5]; exact command_disable_bits _)
  exact decoding_off_since_write16 a0 init t0 2 d.bus d.device d.function 2 r1.1 _ q6

/-- Sizing the high half of a 64-bit BAR keeps the discipline. -/
theorem size_bar64_discipline (env : Env) (a0 : Nat) (init : Nat → Nat) (t0 : List Event)
    (d : pci_device) (j c b s : Nat) (w : World)
    (ha : a0 = pci_config_address (to_u8 d.bus) (to_u8 d.device) (to_u8 d.function) 0)
    (hj : 4 ≤ (j + 4) % 256) (h : decoding_off_since a0 init t0 w.trace) :
    decoding_off_since a0 init t0 (size_bar64 env d j c b s w).world.trace := by
  unfold size_bar64 pci_config_write16 pci_config_read32 pci_config_write32
  simp only []
  have q2 := decoding_off_since_write16 a0 init t0 2 d.bus d.device d.function 2
    (c &&& bnot 32 0x03) w h
  have c2 : command_register a0 init
      (pci_config_write 16 2 d.bus d.device d.function 2 (c &&& bnot 32 0x03) w).trace
      = (c &&& bnot 32 0x03) % 2 ^ 16 :=
    (cfg_replay_write_command a0 init d.bus d.device d.function _ w ha).2
  generalize pci_config_write 16 2 d.bus d.device d.function 2 (c &&& bnot 32 0x03) w
    = w1 at q2 c2 ⊢
  have q3 := decoding_off_since_read a0 init t0 32 0 env d.bus d.device d.function (j + 4) w1 q2
  have c3 : command_register a0 init
      (pci_config_read 32 0 env d.bus d.device d.function (j + 4) w1).2.trace
      = (c &&& bnot 32 0x03) % 2 ^ 16 := by
    rw [command_register_read]; exact c2
  generalize pci_config_read 32 0 env d.bus d.device d.function (j + 4) w1 = r2 at q3 c3 ⊢
  have q4 := decoding_off_since_write32 a0 init t0 d.bus d.device d.function (j + 4) 0xffffffff
    r2.2 q3 (by rw [c3]; exact command_disable_bits _)
  have c4 : command_register a0 init
      (pci_config_write 32 0 d.bus d.device d.function (j + 4) 0xffffffff r2.2).trace
      = (c &&& bnot 32 0x03) % 2 ^ 16 := by
    rw [command_register_write_other a0 init 32 0 d.bus d.device d.function (j + 4) _ r2.2 ha hj]
    exact c3
  generalize pci_config_write 32 0 d.bus d.device d.function (j + 4) 0xffffffff r2.2
    = w2 at q4 c4 ⊢
  have q5 := decoding_off_since_read a0 init t0 32 0 env d.bus d.device d.function (j + 4) w2 q4
  have c5 : command_register a0 init
      (pci_config_read 32 0 env d.bus d.device d.function (j + 4) w2).2.trace
      = (c &&& bnot 32 0x03) % 2 ^ 16 := by
    rw [command_register_read]; exact c4
  generalize pci_config_read 32 0 env d.bus d.device d.function (j + 4) w2 = r3 at q5 c5 ⊢
  have q6 := decoding_off_since_write32 a0 init t0 d.bus d.device d.function (j + 4)
    ((b ||| (r2.1 <<< 32)) >>> 32) r3.2 q5 (by rw [c5]; exact command_disable_bits _)
  exact decoding_off_since_write16 a0 init t0 2 d.bus d.device d.function 2 c _ q6

/-- Mapping a region performs no port access. -/
theorem map_region_discipline (env : Env) (a0 : Nat) (init : Nat → Nat) (t0 : List Event)
    (d : pci_device) (i : Nat) (w : World) (h : decoding_off_since a0 init t0 w.trace) :
    decoding_off_since a0 init t0 (map_region env d i w).2.2.trace := by
  have e1 : ∀ (fd : Int) (v : Nat), Event.dev_mem_open fd ≠ Event.io_write 32 0xcfc v := by
    intro fd v hv; cases hv
  have e2 : ∀ (l : Nat) (fd : Int) (o m : Nat) (v : Nat),
      Event.mmap l fd o m ≠ Event.io_write 32 0xcfc v := by
    intro l fd o m v hv; cases hv
  have e3 : ∀ (fd : Int) (v : Nat), Event.close fd ≠ Event.io_write 32 0xcfc v := by
    intro fd v hv; cases hv
  have hA := decoding_off_since_cons _ _ _ _ _ h (e1 (env.dev_mem_open w.trace).1)
  unfold map_region
  simp only []
  split_ifs
  all_goals first
    | exact hA
    | exact decoding_off_since_cons _ _ _ _ _
        (decoding_off_since_cons _ _ _ _ _ hA (e2 _ _ _ _)) (e3 _)

/-- The world in which an iteration of the sizing loop ends: the world after the sizing
(of the low half, or of both halves when bit 0 is clear and bit 2 is set), followed by the
mapping unless the region is I/O. -/
theorem regions_map_body_world (env : Env) (d : pci_device) (i j : Nat) (w : World) :
    ((ata_compat_override d j (size_bar32 env d j w).base_address
        (size_bar32 env d j w).size).1 &&& 0x01 = 0 ∧
      (ata_compat_override d j (size_bar32 env d j w).base_address
        (size_bar32 env d j w).size).1 &&& 0x04 ≠ 0 ∧
      ((regions_map_body env d i j w).2.2.2
          = (size_bar64 env d j (size_bar32 env d j w).command
              (ata_compat_override d j (size_bar32 env d j w).base_address
                (size_bar32 env d j w).size).1
              (ata_compat_override d j (size_bar32 env d j w).base_address
                (size_bar32 env d j w).size).2 (size_bar32 env d j w).world).world ∨
        ∃ d', (regions_map_body env d i j w).2.2.2
          = (map_region env d' i (size_bar64 env d j (size_bar32 env d j w).command
              (ata_compat_override d j (size_bar32 env d j w).base_address
                (size_bar32 env d j w).size).1
              (ata_compat_override d j (size_bar32 env d j w).base_address
                (size_bar32 env d j w).size).2 (size_bar32 env d j w).world).world).2.2)) ∨
    (¬ ((ata_compat_override d j (size_bar32 env d j w).base_address
          (size_bar32 env d j w).size).1 &&& 0x01 = 0 ∧
        (ata_compat_override d j (size_bar32 env d j w).base_address
          (size_bar32 env d j w).size).1 &&& 0x04 ≠ 0) ∧
      ((regions_map_body env d i j w).2.2.2 = (size_bar32 env d j w).world ∨
        ∃ d', (regions_map_body env d i j w).2.2.2
          = (map_region env d' i (size_bar32 env d j w).world).2.2)) := by
  have hc : ∀ r c b s w', size_bar64 env (d.set_region i r) j c b s w'
      = size_bar64 env d j c b s w' :=
    fun r c b s w' => size_bar64_congr env d _ j c b s w' rfl rfl rfl
  by_cases h0 : (ata_compat_override d j (size_bar32 env d j w).base_address
      (size_bar32 env d j w).size).1 &&& 0x01 = 0
  · by_cases h2 : (ata_compat_override d j (size_bar32 env d j w).base_address
        (size_bar32 env d j w).size).1 &&& 0x04 = 0
    · refine Or.inr ⟨fun h => h.2 h2, ?_⟩
      unfold regions_map_body
      simp only [h0, h2, ne_eq, not_true_eq_false, if_false, set_region_same]
      split_ifs
      · exact Or.inl rfl
      · exact Or.inr ⟨_, rfl⟩
    · refine Or.inl ⟨h0, h2, ?_⟩
      unfold regions_map_body
      simp only [h0, h2, ne_eq, not_true_eq_false, not_false_eq_true, if_false, if_true,
        set_region_same, hc]
      split_ifs
      · exact Or.inl rfl
      · exact Or.inr ⟨_, rfl⟩
  · refine Or.inr ⟨fun h => h0 h.1, Or.inl ?_⟩
    exact (regions_map_body_io env d i j w h0).2.2.1

/-- One iteration of the sizing loop keeps the discipline. -/
theorem regions_map_body_discipline (env : Env) (a0 : Nat) (init : Nat → Nat)
    (t0 : List Event) (d : pci_device) (i j : Nat) (w : World)
    (ha : a0 = pci_config_address (to_u8 d.bus) (to_u8 d.device) (to_u8 d.function) 0)
    (hj : 4 ≤ j % 256) (hj4 : 4 ≤ (j + 4) % 256)
    (h : decoding_off_since a0 init t0 w.trace) :
    decoding_off_since a0 init t0 (regions_map_body env d i j w).2.2.2.trace := by
  have h32 := size_bar32_discipline env a0 init t0 d j w ha hj h
  rcases regions_map_body_world env d i j w with ⟨-, -, hw | ⟨d', hw⟩⟩ | ⟨-, hw | ⟨d', hw⟩⟩
  · rw [hw]
    exact size_bar64_discipline env a0 init t0 d j _ _ _ _ ha hj4 h32
  · rw [hw]
    exact map_region_discipline env a0 init t0 d' i _
      (size_bar64_discipline env a0 init t0 d j _ _ _ _ ha hj4 h32)
  · rw [hw]
    exact h32
  · rw [hw]
    exact map_region_discipline env a0 init t0 d' i _ h32

/-- The sizing loop keeps the discipline while the cursor stays in the first 256 bytes. -/
theorem regions_map_from_discipline (env : Env) (a0 : Nat) (init : Nat → Nat)
    (t0 : List Event) (n : Nat) :
    ∀ (d : pci_device) (i j : Nat) (w : World),
      a0 = pci_config_address (to_u8 d.bus) (to_u8 d.device) (to_u8 d.function) 0 →
      4 ≤ j → j + 8 * n ≤ 252 → decoding_off_since a0 init t0 w.trace →
      decoding_off_since a0 init t0 (regions_map_from env n d i j w).2.2.trace := by
  induction n with
  | zero => intro d i j w _ _ _ h; exact h
  | succ n ih =>
    intro d i j w ha hj hn h
    have hb := regions_map_body_discipline env a0 init t0 d i j w ha (by omega) (by omega) h
    obtain ⟨hbus, hdev, hfn, -, -⟩ := regions_map_body_header env d i j w
    have hc := regions_map_body_cursor env d i j w
    unfold regions_map_from
    simp only []
    split_ifs
    · exact ih _ _ _ _ (by rw [hbus, hdev, hfn]; exact ha) (by omega) (by omega) hb
    · exact hb
/-- The BAR slot sized by `size_bar32` holds the saved value afterwards. -/
theorem size_bar32_dword_same (env : Env) (init : Nat → Nat) (d : pci_device) (j : Nat)
    (w : World) (hj : 4 ≤ j % 256) :
    config_dword (pci_config_address (to_u8 d.bus) (to_u8 d.device) (to_u8 d.function) (j % 256))
        init (size_bar32 env d j w).world.trace
      = (size_bar32 env d j w).base_address := by
  have hlt := size_bar32_base_lt env d j w
  have h2 : pci_config_address (to_u8 d.bus) (to_u8 d.device) (to_u8 d.function) (2 % 256) / 4
      ≠ pci_config_address (to_u8 d.bus) (to_u8 d.device) (to_u8 d.function) (j % 256) / 4 :=
    (pci_config_address_dword d.bus d.device d.function (2 % 256) (j % 256) (by omega)
      (by omega)).not.mpr (by omega)
  unfold size_bar32 pci_config_read16 pci_config_write16 pci_config_read32 pci_config_write32
    at hlt ⊢
  simp only [] at hlt ⊢
  rw [config_dword_write_ne _ init 16 2 d.bus d.device d.function 2 _ _ h2,
    config_dword_write32 _ init d.bus d.device d.function j _ _ rfl]
  exact Nat.mod_eq_of_lt hlt

/-- Sizing a BAR leaves the dwords of the other slots as they are. -/
theorem size_bar32_dword_ne (env : Env) (init : Nat → Nat) (d : pci_device) (j o : Nat)
    (w : World) (ho : o < 256) (ho4 : 4 ≤ o) (hne : o / 4 ≠ j % 256 / 4) :
    config_dword (pci_config_address (to_u8 d.bus) (to_u8 d.device) (to_u8 d.function) o)
        init (size_bar32 env d j w).world.trace
      = config_dword (pci_config_address (to_u8 d.bus) (to_u8 d.device) (to_u8 d.function) o)
        init w.trace := by
  have h2 : pci_config_address (to_u8 d.bus) (to_u8 d.device) (to_u8 d.function) (2 % 256) / 4
      ≠ pci_config_address (to_u8 d.bus) (to_u8 d.device) (to_u8 d.function) o / 4 :=
    (pci_config_address_dword d.bus d.device d.function (2 % 256) o (by omega) ho).not.mpr
      (by omega)
  have hs : pci_config_address (to_u8 d.bus) (to_u8 d.device) (to_u8 d.function) (j % 256) / 4
      ≠ pci_config_address (to_u8 d.bus) (to_u8 d.device) (to_u8 d.function) o / 4 :=
    (pci_config_address_dword d.bus d.device d.function (j % 256) o (by omega) ho).not.mpr
      (by omega)
  have e2 : ∀ v w', config_dword
      (pci_config_address (to_u8 d.bus) (to_u8 d.device) (to_u8 d.function) o) init
      (pci_config_write 16 2 d.bus d.device d.function 2 v w').trace
      = config_dword (pci_config_address (to_u8 d.bus) (to_u8 d.device) (to_u8 d.function) o)
        init w'.trace :=
    fun v w' => config_dword_write_ne _ init 16 2 d.bus d.device d.function 2 v w' h2
  have ej : ∀ v w', config_dword
      (pci_config_address (to_u8 d.bus) (to_u8 d.device) (to_u8 d.function) o) init
      (pci_config_write 32 0 d.bus d.device d.function j v w').trace
      = config_dword (pci_config_address (to_u8 d.bus) (to_u8 d.device) (to_u8 d.function) o)
        init w'.trace :=
    fun v w' => config_dword_write_ne _ init 32 0 d.bus d.device d.function j v w' hs
  unfold size_bar32 pci_config_read16 pci_config_write16 pci_config_read32 pci_config_write32
  simp only [e2, ej, config_dword_read]

/-- The slot after the cursor, sized by `size_bar64`, holds the saved high half afterwards
when the low half is below `2 ^ 32`. -/
theorem size_bar64_dword_same (env : Env) (init : Nat → Nat) (d : pci_device) (j c b s : Nat)
    (w : World) (hj : 4 ≤ (j + 4) % 256) (hb : b < 2 ^ 32) :
    config_dword
        (pci_config_address (to_u8 d.bus) (to_u8 d.device) (to_u8 d.function) ((j + 4) % 256))
        init (size_bar64 env d j c b s w).world.trace
      = (size_bar64 env d j c b s w).high_saved := by
  have hlt := size_bar64_high_saved_lt env d j c b s w
  have h2 : pci_config_address (to_u8 d.bus) (to_u8 d.device) (to_u8 d.function) (2 % 256) / 4
      ≠ pci_config_address (to_u8 d.bus) (to_u8 d.device) (to_u8 d.function) ((j + 4) % 256) / 4 :=
    (pci_config_address_dword d.bus d.device d.function (2 % 256) ((j + 4) % 256) (by omega)
      (by omega)).not.mpr (by omega)
  unfold size_bar64 pci_config_write16 pci_config_read32 pci_config_write32 at hlt ⊢
  simp only [] at hlt ⊢
  rw [config_dword_write_ne _ init 16 2 d.bus d.device d.function 2 _ _ h2,
    config_dword_write32 _ init d.bus d.device d.function (j + 4) _ _ rfl,
    or_shiftLeft_32 b _ hb, Nat.shiftRight_eq_div_pow]
  generalize (pci_config_read 32 0 env d.bus d.device d.function (j + 4)
    (pci_config_write 16 2 d.bus d.device d.function 2 (c &&& bnot 32 0x03) w)).1 = hs at hlt ⊢
  omega

/-- Sizing the high half of a 64-bit BAR leaves the dwords of the other slots as they
are. -/
theorem size_bar64_dword_ne (env : Env) (init : Nat → Nat) (d : pci_device) (j c b s o : Nat)
    (w : World) (ho : o < 256) (ho4 : 4 ≤ o) (hne : o / 4 ≠ (j + 4) % 256 / 4) :
    config_dword (pci_config_address (to_u8 d.bus) (to_u8 d.device) (to_u8 d.function) o)
        init (size_bar64 env d j c b s w).world.trace
      = config_dword (pci_config_address (to_u8 d.bus) (to_u8 d.device) (to_u8 d.function) o)
        init w.trace := by
  have h2 : pci_config_address (to_u8 d.bus) (to_u8 d.device) (to_u8 d.function) (2 % 256) / 4
      ≠ pci_config_address (to_u8 d.bus) (to_u8 d.device) (to_u8 d.function) o / 4 :=
    (pci_config_address_dword d.bus d.device d.function (2 % 256) o (by omega) ho).not.mpr
      (by omega)
  have hs : pci_config_address (to_u8 d.bus) (to_u8 d.device) (to_u8 d.function)
      ((j + 4) % 256) / 4
      ≠ pci_config_address (to_u8 d.bus) (to_u8 d.device) (to_u8 d.function) o / 4 :=
    (pci_config_address_dword d.bus d.device d.function ((j + 4) % 256) o (by omega)
      ho).not.mpr (by omega)
  have e2 : ∀ v w', config_dword
      (pci_config_address (to_u8 d.bus) (to_u8 d.device) (to_u8 d.function) o) init
      (pci_config_write 16 2 d.bus d.device d.function 2 v w').trace
      = config_dword (pci_config_address (to_u8 d.bus) (to_u8 d.device) (to_u8 d.function) o)
        init w'.trace :=
    fun v w' => config_dword_write_ne _ init 16 2 d.bus d.device d.function 2 v w' h2
  have ej : ∀ v w', config_dword
      (pci_config_address (to_u8 d.bus) (to_u8 d.device) (to_u8 d.function) o) init
      (pci_config_write 32 0 d.bus d.device d.function (j + 4) v w').trace
      = config_dword (pci_config_address (to_u8 d.bus) (to_u8 d.device) (to_u8 d.function) o)
        init w'.trace :=
    fun v w' => config_dword_write_ne _ init 32 0 d.bus d.device d.function (j + 4) v w' hs
  unfold size_bar64 pci_config_write16 pci_config_read32 pci_config_write32
  simp only [e2, ej, config_dword_read]

/-- Mapping a region leaves the register file as it is. -/
theorem map_region_dword (a : Nat) (init : Nat → Nat) (env : Env) (d : pci_device)
    (i : Nat) (w : World) :
    config_dword a init (map_region env d i w).2.2.trace = config_dword a init w.trace := by
  unfold map_region
  simp only []
  split_ifs <;> simp [config_dword, cfg_replay, cfg_step, pci_device_error]
/-- An iteration of the sizing loop leaves the dwords of the slots it does not size as they
are. -/
theorem regions_map_body_dword_ne (env : Env) (init : Nat → Nat) (d : pci_device)
    (i j o : Nat) (w : World) (ho : o < 256) (ho4 : 4 ≤ o) (hne : o / 4 ≠ j % 256 / 4)
    (hne4 : o / 4 ≠ (j + 4) % 256 / 4) :
    config_dword (pci_config_address (to_u8 d.bus) (to_u8 d.device) (to_u8 d.function) o)
        init (regions_map_body env d i j w).2.2.2.trace
      = config_dword (pci_config_address (to_u8 d.bus) (to_u8 d.device) (to_u8 d.function) o)
        init w.trace := by
  have h32 := size_bar32_dword_ne env init d j o w ho ho4 hne
  rcases regions_map_body_world env d i j w with ⟨-, -, hw | ⟨d', hw⟩⟩ | ⟨-, hw | ⟨d', hw⟩⟩
  · rw [hw, size_bar64_dword_ne env init d j _ _ _ o _ ho ho4 hne4, h32]
  · rw [hw, map_region_dword, size_bar64_dword_ne env init d j _ _ _ o _ ho ho4 hne4, h32]
  · rw [hw, h32]
  · rw [hw, map_region_dword, h32]

/-- After an iteration of the sizing loop the slot under the cursor holds the value saved
from it. -/
theorem regions_map_body_dword_low (env : Env) (init : Nat → Nat) (d : pci_device)
    (i j : Nat) (w : World) (hj : 4 ≤ j % 256) :
    config_dword (pci_config_address (to_u8 d.bus) (to_u8 d.device) (to_u8 d.function) (j % 256))
        init (regions_map_body env d i j w).2.2.2.trace
      = (size_bar32 env d j w).base_address := by
  have h32 := size_bar32_dword_same env init d j w hj
  have h64 : ∀ c b s w', config_dword
      (pci_config_address (to_u8 d.bus) (to_u8 d.device) (to_u8 d.function) (j % 256))
        init (size_bar64 env d j c b s w').world.trace
      = config_dword
        (pci_config_address (to_u8 d.bus) (to_u8 d.device) (to_u8 d.function) (j % 256))
        init w'.trace :=
    fun c b s w' => size_bar64_dword_ne env init d j c b s (j % 256) w' (by omega) hj (by omega)
  rcases regions_map_body_world env d i j w with ⟨-, -, hw | ⟨d', hw⟩⟩ | ⟨-, hw | ⟨d', hw⟩⟩
  · rw [hw, h64, h32]
  · rw [hw, map_region_dword, h64, h32]
  · rw [hw, h32]
  · rw [hw, map_region_dword, h32]

/-- After an iteration of the sizing loop on a 64-bit memory BAR the slot after the cursor
holds the value saved from it. -/
theorem regions_map_body_dword_high (env : Env) (init : Nat → Nat) (d : pci_device)
    (i j : Nat) (w : World) (hj : 4 ≤ (j + 4) % 256)
    (h0 : (ata_compat_override d j (size_bar32 env d j w).base_address
      (size_bar32 env d j w).size).1 &&& 0x01 = 0)
    (h2 : (ata_compat_override d j (size_bar32 env d j w).base_address
      (size_bar32 env d j w).size).1 &&& 0x04 ≠ 0)
    (hlt : (ata_compat_override d j (size_bar32 env d j w).base_address
      (size_bar32 env d j w).size).1 < 2 ^ 32) :
    config_dword
        (pci_config_address (to_u8 d.bus) (to_u8 d.device) (to_u8 d.function) ((j + 4) % 256))
        init (regions_map_body env d i j w).2.2.2.trace
      = (size_bar64 env d j (size_bar32 env d j w).command
          (ata_compat_override d j (size_bar32 env d j w).base_address
            (size_bar32 env d j w).size).1
          (ata_compat_override d j (size_bar32 env d j w).base_address
            (size_bar32 env d j w).size).2 (size_bar32 env d j w).world).high_saved := by
  rcases regions_map_body_world env d i j w with ⟨-, -, hw | ⟨d', hw⟩⟩ | ⟨hn, -⟩
  · rw [hw, size_bar64_dword_same env init d j _ _ _ _ hj hlt]
  · rw [hw, map_region_dword, size_bar64_dword_same env init d j _ _ _ _ hj hlt]
  · exact absurd ⟨h0, h2⟩ hn

/-- The rest of the sizing loop leaves the dwords of the slots below the cursor as they
are. -/
theorem regions_map_from_dword_ne (env : Env) (init : Nat → Nat) (bus device function : Int)
    (o : Nat) (ho4 : 4 ≤ o) (n : Nat) :
    ∀ (d : pci_device) (i j : Nat) (w : World),
      d.bus = bus → d.device = device → d.function = function →
      o / 4 < j / 4 → j + 8 * n ≤ 252 →
      config_dword (pci_config_address (to_u8 bus) (to_u8 device) (to_u8 function) o)
          init (regions_map_from env n d i j w).2.2.trace
        = config_dword (pci_config_address (to_u8 bus) (to_u8 device) (to_u8 function) o)
          init w.trace := by
  induction n with
  | zero => intro d i j w _ _ _ _ _; rfl
  | succ n ih =>
    intro d i j w hb hd hf ho hn
    have hbody := regions_map_body_dword_ne env init d i j o w (by omega) ho4 (by omega)
      (by omega)
    rw [hb, hd, hf] at hbody
    obtain ⟨hbus, hdev, hfn, -, -⟩ := regions_map_body_header env d i j w
    have hc := regions_map_body_cursor env d i j w
    unfold regions_map_from
    simp only []
    split_ifs
    · rw [ih _ _ _ _ (by rw [hbus, hb]) (by rw [hdev, hd]) (by rw [hfn, hf]) (by omega)
        (by omega), hbody]
    · exact hbody

/-- The cursor on entry to iteration `k` is at most `16 + 8 * k`. -/
theorem regions_map_entry_cursor_ub (env : Env) (d : pci_device) (w : World) (k : Nat) :
    ∀ s, regions_map_entry env d w k = some s → s.2.1 ≤ 16 + 8 * k := by
  induction k with
  | zero =>
    intro s hs
    simp only [regions_map_entry, Option.some.injEq] at hs
    subst hs
    exact le_refl _
  | succ k ih =>
    intro s hs
    obtain ⟨t, ht, -, rfl⟩ := regions_map_entry_succ env d w k s hs
    have := ih t ht
    rcases regions_map_body_cursor env t.1 k t.2.1 t.2.2 with h | h <;>
      simp only [h] <;> omega

/-- The world in which `pci_device_regions_map` ends, from the state in which it enters
iteration `k`: the world after that iteration, or after the `n` iterations that follow
it. -/
theorem regions_map_final (env : Env) (d : pci_device) (w : World) (k : Nat)
    (s : pci_device × Nat × World) (hk : k < d.num_regions)
    (hs : regions_map_entry env d w k = some s) :
    ∃ n, k + n + 1 = d.num_regions ∧
      ((pci_device_regions_map env d w).2.2
          = (regions_map_body env s.1 k s.2.1 s.2.2).2.2.2 ∨
        (pci_device_regions_map env d w).2.2
          = (regions_map_from env n (regions_map_body env s.1 k s.2.1 s.2.2).2.1
              (k + 1) ((regions_map_body env s.1 k s.2.1 s.2.2).2.2.1 + 4)
              (regions_map_body env s.1 k s.2.1 s.2.2).2.2.2).2.2) := by
  obtain ⟨n, hn⟩ : ∃ n, d.num_regions = k + (n + 1) := ⟨d.num_regions - k - 1, by omega⟩
  refine ⟨n, by omega, ?_⟩
  unfold pci_device_regions_map
  rw [hn, regions_map_from_entry env d w k _ s hs]
  conv_lhs => unfold regions_map_from
  conv_rhs => lhs; unfold regions_map_from
  simp only []
  split_ifs
  · right; rfl
  · left; rfl
/-- C29: with configuration space as a register file, for a device with at most
`MAX_REGIONS` regions: every 32-bit write to the data port that `pci_device_regions_map`
performs (the all-ones probe and the restore of each slot it sizes) is made while bits 0
and 1 of the command register are clear; and when the function ends, the slot under the
cursor of every iteration it entered holds the value saved from it, and so does the next
slot, the high half, when that value has bit 0 clear and bit 2 set. -/
theorem sizing_discipline (env : Env) (d : pci_device) (w : World) (init : Nat → Nat)
    (hn : d.num_regions ≤ MAX_REGIONS) :
    decoding_off_since (pci_config_address (to_u8 d.bus) (to_u8 d.device) (to_u8 d.function) 0)
      init w.trace (pci_device_regions_map env d w).2.2.trace ∧
    ∀ (k : Nat) (s : pci_device × Nat × World), k < d.num_regions →
      regions_map_entry env d w k = some s →
      config_dword (pci_config_address (to_u8 d.bus) (to_u8 d.device) (to_u8 d.function) s.2.1)
          init (pci_device_regions_map env d w).2.2.trace
        = (size_bar32 env s.1 s.2.1 s.2.2).base_address ∧
      ((size_bar32 env s.1 s.2.1 s.2.2).base_address &&& 0x01 = 0 →
        (size_bar32 env s.1 s.2.1 s.2.2).base_address &&& 0x04 ≠ 0 →
        config_dword
            (pci_config_address (to_u8 d.bus) (to_u8 d.device) (to_u8 d.function) (s.2.1 + 4))
            init (pci_device_regions_map env d w).2.2.trace
          = (size_bar64 env s.1 s.2.1 (size_bar32 env s.1 s.2.1 s.2.2).command
              (size_bar32 env s.1 s.2.1 s.2.2).base_address (size_bar32 env s.1 s.2.1 s.2.2).size
              (size_bar32 env s.1 s.2.1 s.2.2).world).high_saved) := by
  have h6 : MAX_REGIONS = 6 := rfl
  constructor
  · unfold pci_device_regions_map
    exact regions_map_from_discipline env _ init w.trace d.num_regions d 0 16 w rfl (by omega)
      (by omega) (decoding_off_since_refl _ _ _)
  · intro k s hk hs
    have hub := regions_map_entry_cursor_ub env d w k s hs
    have hlb := regions_map_entry_cursor_le env d w 0 (d, 16, w) rfl k s (by simpa using hs)
    have hlb : 16 + 4 * k ≤ s.2.1 := hlb
    obtain ⟨-, hbus, hdev, hfn, -, -⟩ := regions_map_entry_frame env d w k s hs
    obtain ⟨n, hn1, hfin⟩ := regions_map_final env d w k s hk hs
    obtain ⟨bbus, bdev, bfn, -, -⟩ := regions_map_body_header env s.1 k s.2.1 s.2.2
    have hcur := regions_map_body_cursor env s.1 k s.2.1 s.2.2
    have hmod : s.2.1 % 256 = s.2.1 := Nat.mod_eq_of_lt (by omega)
    have hmod4 : (s.2.1 + 4) % 256 = s.2.1 + 4 := Nat.mod_eq_of_lt (by omega)
    constructor
    · have hlow := regions_map_body_dword_low env init s.1 k s.2.1 s.2.2 (by omega)
      rw [hmod, hbus, hdev, hfn] at hlow
      rcases hfin with h | h
      · rw [h]; exact hlow
      · rw [h, regions_map_from_dword_ne env init d.bus d.device d.function s.2.1 (by omega) n
          _ _ _ _ (by rw [bbus, hbus]) (by rw [bdev, hdev]) (by rw [bfn, hfn]) (by omega)
          (by omega)]
        exact hlow
    · intro h0 h2
      have hne : (size_bar32 env s.1 s.2.1 s.2.2).base_address ≠ 0 := by
        intro hz
        rw [hz] at h2
        simp at h2
      have ho := ata_compat_override_of_ne_zero s.1 s.2.1 _
        (size_bar32 env s.1 s.2.1 s.2.2).size hne
      have hj : (regions_map_body env s.1 k s.2.1 s.2.2).2.2.1 = s.2.1 + 4 :=
        (regions_map_body_mem64 env s.1 k s.2.1 s.2.2
          (by rw [ho]; exact h0) (by rw [ho]; exact h2)).1
      have hhigh := regions_map_body_dword_high env init s.1 k s.2.1 s.2.2 (by omega)
        (by rw [ho]; exact h0) (by rw [ho]; exact h2)
        (by rw [ho]; exact size_bar32_base_lt env s.1 s.2.1 s.2.2)
      rw [ho, hmod4, hbus, hdev, hfn] at hhigh
      rcases hfin with h | h
      · rw [h]; exact hhigh
      · rw [h, regions_map_from_dword_ne env init d.bus d.device d.function (s.2.1 + 4)
          (by omega) n _ _ _ _ (by rw [bbus, hbus]) (by rw [bdev, hdev]) (by rw [bfn, hfn])
          (by omega) (by omega)]
        exact hhigh

/-- Witness of C29: a function with a 64-bit memory BAR in slots 0 and 1 (saved
`0xFE00000C` and `0x00000001`): after `pci_device_regions_map` the two slots hold these
values again, and every 32-bit write to the data port was made with decoding disabled. -/
theorem sizing_discipline_witness :
    config_dword 0x80000010 (fun _ => 0)
        (pci_device_regions_map mem64_env (example_dev 0) {}).2.2.trace = 0xFE00000C ∧
    config_dword 0x80000014 (fun _ => 0)
        (pci_device_regions_map mem64_env (example_dev 0) {}).2.2.trace = 0x00000001 ∧
    bar_writes_decoding_off 0x80000000 (fun _ => 0x03) []
        (pci_device_regions_map mem64_env (example_dev 0) {}).2.2.trace = true :=
  ⟨((sizing_discipline mem64_env (example_dev 0) {} (fun _ => 0) (by decide)).2 0
      (example_dev 0, 16, {}) (by decide) rfl).1.trans (by decide),
   (((sizing_discipline mem64_env (example_dev 0) {} (fun _ => 0) (by decide)).2 0
      (example_dev 0, 16, {}) (by decide) rfl).2 (by decide) (by decide)).trans (by decide),
   by decide⟩

/-! ## The gate of the ATA legacy ports -/

/-- A read that passes the checks of the arguments performs one access: an `in` at port
`base_address + offset` for an I/O region, else a load of element `offset` of the mapping. -/
theorem region_read_valid (size : Nat) (env : Env) (d : pci_device) (i off : Nat) (w : World)
    (hi : i < d.num_regions) (ho : off < (d.regions i).size)
    (hm : (d.regions i).is_io = true ∨ (d.regions i).map ≠ MAP_FAILED) :
    (pci_device_region_read size env d i off w).2
      = { w with trace :=
            (if (d.regions i).is_io then
              Event.io_read size (((d.regions i).base_address + off) % 2 ^ 16)
                (env.io_read w.trace size (((d.regions i).base_address + off) % 2 ^ 16) % 2 ^ size)
            else
              Event.load size (d.regions i).map off
                (env.load w.trace size (d.regions i).map off % 2 ^ size)) :: w.trace } := by
  have h1 : ¬ (i ≥ d.num_regions ∨ off ≥ (d.regions i).size) := by omega
  unfold pci_device_region_read
  rw [if_neg h1]
  cases hio : (d.regions i).is_io
  · have hmap : (d.regions i).map ≠ MAP_FAILED := by
      rcases hm with h | h
      · rw [hio] at h; exact absurd h (by decide)
      · exact h
    simp [hmap]
  · simp [io_read]

/-- A write that passes the checks of the arguments performs one access: an `out` at port
`base_address + offset` for an I/O region, else a store to element `offset` of the
mapping. -/
theorem region_write_valid (size : Nat) (d : pci_device) (i off v : Nat) (w : World)
    (hi : i < d.num_regions) (ho : off < (d.regions i).size)
    (hm : (d.regions i).is_io = true ∨ (d.regions i).map ≠ MAP_FAILED) :
    pci_device_region_write size d i off v w
      = { w with trace :=
            (if (d.regions i).is_io then
              Event.io_write size (((d.regions i).base_address + off) % 2 ^ 16) (v % 2 ^ size)
            else
              Event.store size (d.regions i).map off (v % 2 ^ size)) :: w.trace } := by
  have h1 : ¬ (i ≥ d.num_regions ∨ off ≥ (d.regions i).size) := by omega
  unfold pci_device_region_write
  rw [if_neg h1]
  cases hio : (d.regions i).is_io
  · have hmap : (d.regions i).map ≠ MAP_FAILED := by
      rcases hm with h | h
      · rw [hio] at h; exact absurd h (by decide)
      · exact h
    simp [hmap]
  · simp [io_write]

/-- An access whose region index or offset fails the check reports `EINVAL` and touches
nothing. -/
theorem region_access_invalid (size : Nat) (env : Env) (d : pci_device) (i off v : Nat)
    (w : World) (h : ¬ (i < d.num_regions ∧ off < (d.regions i).size)) :
    (pci_device_region_read size env d i off w).2
      = { w with errno := EINVAL,
                 reports := ⟨EINVAL, "pci_device_region_read" ++ toString size⟩ :: w.reports } ∧
    pci_device_region_write size d i off v w
      = { w with errno := EINVAL,
                 reports := ⟨EINVAL, "pci_device_region_write" ++ toString size⟩ :: w.reports } := by
  have h1 : i ≥ d.num_regions ∨ off ≥ (d.regions i).size := by omega
  simp [pci_device_region_read, pci_device_region_write, h1, set_errno, pci_device_error]

/-- The usability test and the size query perform no access. -/
theorem iterate_unusable_trace (d : pci_device) (region : Nat) (w : World) :
    (iterate_unusable d region w).2.trace = w.trace := by
  unfold iterate_unusable pci_device_region_is_io pci_device_region_is_mapped
  split_ifs <;> simp [set_errno, pci_device_error]

theorem pci_device_region_get_size_trace (d : pci_device) (region : Nat) (w : World) :
    (pci_device_region_get_size d region w).2.trace = w.trace := by
  unfold pci_device_region_get_size
  split_ifs <;> simp [set_errno, pci_device_error]

theorem pci_device_region_get_size_snd (d : pci_device) (region : Nat) (w : World)
    (h : region < d.num_regions) : (pci_device_region_get_size d region w).2 = w := by
  unfold pci_device_region_get_size
  have h2 : ¬ region ≥ d.num_regions := by omega
  rw [if_neg h2]

/-- What a returning iteration logs and performs: when `pci_fuzzer_iterate` has drawn a
usable region, an offset and a selector and returns, it has logged exactly one record, and
has made exactly one call of
`pci_device_region_read<sz>` or `pci_device_region_write<sz>` (`sz` one of 8, 16, 32) whose
name, region, offset and (for a write) value are those of the record.  When the region index
is below `num_regions` and the offset is below the size of the region, that call performs
exactly one access: an `in` or `out` of `sz` bits at port `(base_address + offset) mod 2^16`
for an I/O region, else a load or store of element `offset` of the mapping, with the logged
value for a write; `errno` and the error reports stay as they were.  Otherwise the call
performs no access: it sets `errno` to `EINVAL` and reports it under the logged name. -/
theorem iterate_record_and_access (env : Env) (f : pci_fuzzer) (st : FuzzState)
    (region offset op size : Nat) (s1 s2 s3 : List Nat) (w0 w : World)
    (hregion : iterate_region f st.stream = (Outcome.ok region, s1))
    (husable : iterate_unusable f.pci_device region st.world = (false, w0))
    (hsize : pci_device_region_get_size f.pci_device region w0 = (size, w))
    (hoffset : input_derive_range s1 0 ((size + (2 ^ 64 - 1)) % 2 ^ 64) = (Outcome.ok offset, s2))
    (hop : input_derive_range s2 0 5 = (Outcome.ok op, s3))
    (hret : (pci_fuzzer_iterate env f st).1 = Outcome.ok ()) :
    ∃ (sz : Nat) (fmt name : String) (value : Option Nat),
      (sz = 8 ∨ sz = 16 ∨ sz = 32) ∧
      (pci_fuzzer_iterate env f st).2.log = ⟨fmt, name, region, offset, value⟩ :: st.log ∧
      ((value = none ∧ fmt = "suu" ∧ name = "pci_device_region_read" ++ toString sz) ∨
       (∃ v, value = some v ∧ v < 2 ^ sz ∧ fmt = "suuu" ∧
          name = "pci_device_region_write" ++ toString sz)) ∧
      (region < f.pci_device.num_regions ∧ offset < (f.pci_device.regions region).size →
        (value = none →
          (pci_fuzzer_iterate env f st).2.world
            = { st.world with trace :=
                  (if (f.pci_device.regions region).is_io then
                    Event.io_read sz (((f.pci_device.regions region).base_address + offset) % 2 ^ 16)
                      (env.io_read st.world.trace sz
                        (((f.pci_device.regions region).base_address + offset) % 2 ^ 16) % 2 ^ sz)
                  else
                    Event.load sz (f.pci_device.regions region).map offset
                      (env.load st.world.trace sz (f.pci_device.regions region).map offset
                        % 2 ^ sz)) :: st.world.trace }) ∧
        (∀ v, value = some v →
          (pci_fuzzer_iterate env f st).2.world
            = { st.world with trace :=
                  (if (f.pci_device.regions region).is_io then
                    Event.io_write sz
                      (((f.pci_device.regions region).base_address + offset) % 2 ^ 16) v
                  else
                    Event.store sz (f.pci_device.regions region).map offset v)
                  :: st.world.trace })) ∧
      (¬ (region < f.pci_device.num_regions ∧ offset < (f.pci_device.regions region).size) →
        (pci_fuzzer_iterate env f st).2.world
            = { w with errno := EINVAL, reports := ⟨EINVAL, name⟩ :: w.reports } ∧
        w.trace = st.world.trace) := by
  have hw0 : w0 = (iterate_unusable f.pci_device region st.world).2 := by rw [husable]
  have hw : w = (pci_device_region_get_size f.pci_device region w0).2 := by rw [hsize]
  have hT : w.trace = st.world.trace := by
    rw [hw, pci_device_region_get_size_trace, hw0, iterate_unusable_trace]
  have hV : region < f.pci_device.num_regions →
      w = st.world ∧ ((f.pci_device.regions region).is_io = true ∨
        (f.pci_device.regions region).map ≠ MAP_FAILED) := by
    intro hlt
    refine ⟨?_, ?_⟩
    · rw [hw, pci_device_region_get_size_snd _ _ _ hlt, hw0, iterate_unusable_snd _ _ _ hlt]
    · have h1 := iterate_unusable_fst f.pci_device region st.world
      rw [husable] at h1
      cases hio : (f.pci_device.regions region).is_io
      · right
        intro hm
        simp [hlt, hio, hm] at h1
      · left; rfl
  have R : ∀ sz,
      (region < f.pci_device.num_regions ∧ offset < (f.pci_device.regions region).size →
        (pci_device_region_read sz env f.pci_device region offset w).2
          = { st.world with trace :=
                (if (f.pci_device.regions region).is_io then
                  Event.io_read sz (((f.pci_device.regions region).base_address + offset) % 2 ^ 16)
                    (env.io_read st.world.trace sz
                      (((f.pci_device.regions region).base_address + offset) % 2 ^ 16) % 2 ^ sz)
                else
                  Event.load sz (f.pci_device.regions region).map offset
                    (env.load st.world.trace sz (f.pci_device.regions region).map offset
                      % 2 ^ sz)) :: st.world.trace }) ∧
      (¬ (region < f.pci_device.num_regions ∧ offset < (f.pci_device.regions region).size) →
        (pci_device_region_read sz env f.pci_device region offset w).2
          = { w with errno := EINVAL,
                     reports := ⟨EINVAL, "pci_device_region_read" ++ toString sz⟩
                       :: w.reports }) := by
    intro sz
    refine ⟨fun hv => ?_, fun hv => (region_access_invalid sz env _ _ _ 0 w hv).1⟩
    obtain ⟨e, hm⟩ := hV hv.1
    rw [e]
    exact region_read_valid sz env _ _ _ _ hv.1 hv.2 hm
  have Wr : ∀ sz v, v < 2 ^ sz →
      (region < f.pci_device.num_regions ∧ offset < (f.pci_device.regions region).size →
        pci_device_region_write sz f.pci_device region offset v w
          = { st.world with trace :=
                (if (f.pci_device.regions region).is_io then
                  Event.io_write sz
                    (((f.pci_device.regions region).base_address + offset) % 2 ^ 16) v
                else
                  Event.store sz (f.pci_device.regions region).map offset v)
                :: st.world.trace }) ∧
      (¬ (region < f.pci_device.num_regions ∧ offset < (f.pci_device.regions region).size) →
        pci_device_region_write sz f.pci_device region offset v w
          = { w with errno := EINVAL,
                     reports := ⟨EINVAL, "pci_device_region_write" ++ toString sz⟩
                       :: w.reports }) := by
    intro sz v hlt
    refine ⟨fun hv => ?_, fun hv => (region_access_invalid sz env _ _ _ v w hv).2⟩
    obtain ⟨e, hm⟩ := hV hv.1
    rw [e, region_write_valid sz _ _ _ v _ hv.1 hv.2 hm, Nat.mod_eq_of_lt hlt]
  rw [pci_fuzzer_iterate_usable env f st region offset op size s1 s2 s3 w0 w hregion husable
    hsize hoffset hop] at hret ⊢
  have rd : ∀ (sz : Nat) (nm : String), (sz = 8 ∨ sz = 16 ∨ sz = 32) →
      nm = "pci_device_region_read" ++ toString sz →
      iterate_switch env f region offset op ⟨s3, w, st.log⟩
        = (Outcome.ok (),
            ⟨s3, (pci_device_region_read sz env f.pci_device region offset w).2,
             ⟨"suu", nm, region, offset, none⟩ :: st.log⟩) →
      ∃ (sz : Nat) (fmt name : String) (value : Option Nat),
        (sz = 8 ∨ sz = 16 ∨ sz = 32) ∧
        (iterate_switch env f region offset op ⟨s3, w, st.log⟩).2.log
          = ⟨fmt, name, region, offset, value⟩ :: st.log ∧
        ((value = none ∧ fmt = "suu" ∧ name = "pci_device_region_read" ++ toString sz) ∨
         (∃ v, value = some v ∧ v < 2 ^ sz ∧ fmt = "suuu" ∧
            name = "pci_device_region_write" ++ toString sz)) ∧
        (region < f.pci_device.num_regions ∧ offset < (f.pci_device.regions region).size →
          (value = none →
            (iterate_switch env f region offset op ⟨s3, w, st.log⟩).2.world
              = { st.world with trace :=
                    (if (f.pci_device.regions region).is_io then
                      Event.io_read sz (((f.pci_device.regions region).base_address + offset) % 2 ^ 16)
                        (env.io_read st.world.trace sz
                          (((f.pci_device.regions region).base_address + offset) % 2 ^ 16) % 2 ^ sz)
                    else
                      Event.load sz (f.pci_device.regions region).map offset
                        (env.load st.world.trace sz (f.pci_device.regions region).map offset
                          % 2 ^ sz)) :: st.world.trace }) ∧
          (∀ v, value = some v →
            (iterate_switch env f region offset op ⟨s3, w, st.log⟩).2.world
              = { st.world with trace :=
                    (if (f.pci_device.regions region).is_io then
                      Event.io_write sz
                        (((f.pci_device.regions region).base_address + offset) % 2 ^ 16) v
                    else
                      Event.store sz (f.pci_device.regions region).map offset v)
                    :: st.world.trace })) ∧
        (¬ (region < f.pci_device.num_regions ∧ offset < (f.pci_device.regions region).size) →
          (iterate_switch env f region offset op ⟨s3, w, st.log⟩).2.world
              = { w with errno := EINVAL, reports := ⟨EINVAL, name⟩ :: w.reports } ∧
          w.trace = st.world.trace) := by
    intro sz nm hsz hnm e
    rw [e]
    refine ⟨sz, "suu", nm, none, hsz, rfl, Or.inl ⟨rfl, rfl, hnm⟩, fun hv => ⟨fun _ => ?_, ?_⟩,
      fun hv => ⟨?_, hT⟩⟩
    · exact (R sz).1 hv
    · intro v hv2; exact absurd hv2 (by simp)
    · rw [hnm]; exact (R sz).2 hv
  have wr : ∀ (sz : Nat) (nm : String) (v : Nat) (rest : List Nat),
      (sz = 8 ∨ sz = 16 ∨ sz = 32) → v < 2 ^ sz →
      nm = "pci_device_region_write" ++ toString sz →
      iterate_switch env f region offset op ⟨s3, w, st.log⟩
        = (Outcome.ok (),
            ⟨rest, pci_device_region_write sz f.pci_device region offset v w,
             ⟨"suuu", nm, region, offset, some v⟩ :: st.log⟩) →
      ∃ (sz : Nat) (fmt name : String) (value : Option Nat),
        (sz = 8 ∨ sz = 16 ∨ sz = 32) ∧
        (iterate_switch env f region offset op ⟨s3, w, st.log⟩).2.log
          = ⟨fmt, name, region, offset, value⟩ :: st.log ∧
        ((value = none ∧ fmt = "suu" ∧ name = "pci_device_region_read" ++ toString sz) ∨
         (∃ v, value = some v ∧ v < 2 ^ sz ∧ fmt = "suuu" ∧
            name = "pci_device_region_write" ++ toString sz)) ∧
        (region < f.pci_device.num_regions ∧ offset < (f.pci_device.regions region).size →
          (value = none →
            (iterate_switch env f region offset op ⟨s3, w, st.log⟩).2.world
              = { st.world with trace :=
                    (if (f.pci_device.regions region).is_io then
                      Event.io_read sz (((f.pci_device.regions region).base_address + offset) % 2 ^ 16)
                        (env.io_read st.world.trace sz
                          (((f.pci_device.regions region).base_address + offset) % 2 ^ 16) % 2 ^ sz)
                    else
                      Event.load sz (f.pci_device.regions region).map offset
                        (env.load st.world.trace sz (f.pci_device.regions region).map offset
                          % 2 ^ sz)) :: st.world.trace }) ∧
          (∀ v, value = some v →
            (iterate_switch env f region offset op ⟨s3, w, st.log⟩).2.world
              = { st.world with trace :=
                    (if (f.pci_device.regions region).is_io then
                      Event.io_write sz
                        (((f.pci_device.regions region).base_address + offset) % 2 ^ 16) v
                    else
                      Event.store sz (f.pci_device.regions region).map offset v)
                    :: st.world.trace })) ∧
        (¬ (region < f.pci_device.num_regions ∧ offset < (f.pci_device.regions region).size) →
          (iterate_switch env f region offset op ⟨s3, w, st.log⟩).2.world
              = { w with errno := EINVAL, reports := ⟨EINVAL, name⟩ :: w.reports } ∧
          w.trace = st.world.trace) := by
    intro sz nm v rest hsz hv hnm e
    rw [e]
    refine ⟨sz, "suuu", nm, some v, hsz, rfl, Or.inr ⟨v, rfl, hv, rfl, hnm⟩,
      fun hval => ⟨fun hn => absurd hn (by simp), ?_⟩, fun hval => ⟨?_, hT⟩⟩
    · intro v2 hv2
      simp only [Option.some.injEq] at hv2
      subst hv2
      exact (Wr sz v hv).1 hval
    · rw [hnm]; exact (Wr sz v hv).2 hval
  have hlen : ∀ n, n ≤ s3.length → (s3.take n).length = n := by
    intro n hn; simp [hn]
  by_cases h3 : op < 3
  · have e := iterate_switch_read env f region offset op ⟨s3, w, st.log⟩ h3
    have h3 : op = 0 ∨ op = 1 ∨ op = 2 := by omega
    rcases h3 with h | h | h <;> subst h
    · exact rd 16 _ (by simp) (by decide) e
    · exact rd 32 _ (by simp) (by decide) e
    · exact rd 8 _ (by simp) (by decide) e
  by_cases h5 : 5 < op
  · rw [iterate_switch_default env f region offset op _ h5] at hret
    exact absurd hret (by simp)
  by_cases hl : (if op = 3 then 2 else if op = 4 then 4 else 1) ≤ s3.length
  · have e := iterate_switch_write env f region offset op ⟨s3, w, st.log⟩ (by omega) (by omega) hl
    have h3 : op = 3 ∨ op = 4 ∨ op = 5 := by omega
    rcases h3 with h | h | h <;> subst h
    · refine wr 16 _ _ _ (by simp) ?_ (by decide) e
      have := le_value_lt (s3.take 2)
      rw [hlen 2 hl] at this
      exact lt_of_lt_of_le this (by norm_num)
    · refine wr 32 _ _ _ (by simp) ?_ (by decide) e
      have := le_value_lt (s3.take 4)
      rw [hlen 4 hl] at this
      exact lt_of_lt_of_le this (by norm_num)
    · refine wr 8 _ _ _ (by simp) ?_ (by decide) e
      have := le_value_lt (s3.take 1)
      rw [hlen 1 hl] at this
      exact lt_of_lt_of_le this (by norm_num)
  · rw [iterate_switch_write_short env f region offset op ⟨s3, w, st.log⟩ (by omega) (by omega)
      (lt_of_not_le hl)] at hret
    exact absurd hret (by simp)

/-- Example: one I/O region of 8 ports at `0x1f0`; the draws are region 0,
offset 2, selector 3 and the value `0xBEEF`.  The record is `write16(region 0, offset 2, value
0xBEEF)` and the only access is the 16-bit `out` of `0xBEEF` at port `0x1f2`. -/
theorem iterate_record_and_access_witness :
    pci_fuzzer_iterate zero_env ⟨io8_dev, none, 0⟩
        { stream := [0, 0, 0, 0, 0, 0, 0, 0, 0, 0, 0, 0, 0, 0, 0, 0x40,
                     0, 0, 0, 0, 0, 0, 0, 0x80, 0xEF, 0xBE, 7] }
      = (Outcome.ok (),
          ⟨[7], ⟨[Event.io_write 16 0x1f2 0xBEEF], 0, []⟩,
           [⟨"suuu", "pci_device_region_write16", 0, 2, some 0xBEEF⟩]⟩) ∧
    ∃ (sz : Nat) (fmt name : String) (value : Option Nat),
      (sz = 8 ∨ sz = 16 ∨ sz = 32) ∧
      (pci_fuzzer_iterate zero_env ⟨io8_dev, none, 0⟩
        { stream := [0, 0, 0, 0, 0, 0, 0, 0, 0, 0, 0, 0, 0, 0, 0, 0x40,
                     0, 0, 0, 0, 0, 0, 0, 0x80, 0xEF, 0xBE, 7] }).2.log
        = [⟨fmt, name, 0, 2, value⟩] := by
  refine ⟨by decide, ?_⟩
  obtain ⟨sz, fmt, name, value, h1, h2, -⟩ :=
    iterate_record_and_access zero_env ⟨io8_dev, none, 0⟩
      { stream := [0, 0, 0, 0, 0, 0, 0, 0, 0, 0, 0, 0, 0, 0, 0, 0x40,
                   0, 0, 0, 0, 0, 0, 0, 0x80, 0xEF, 0xBE, 7] }
      0 2 3 8
      [0, 0, 0, 0, 0, 0, 0, 0x40, 0, 0, 0, 0, 0, 0, 0, 0x80, 0xEF, 0xBE, 7]
      [0, 0, 0, 0, 0, 0, 0, 0x80, 0xEF, 0xBE, 7] [0xEF, 0xBE, 7] {} {}
      (by decide) (by decide) (by decide) (by decide) (by decide) (by decide)
  exact ⟨sz, fmt, name, value, h1, h2⟩

/-- Evaluation for C32: one I/O region of 8 ports at `0x1f0`; the region word is 0, the
offset word is eight bytes `FF` and the selector word is 0.  The offset drawn from the range
`[0, 7]` is 8, the size of the region.  The iteration does not skip: it logs the record
`read16(region 0, offset 8)` and returns, but no port is read: the call of
`pci_device_region_read16` reports `EINVAL`. -/
theorem iterate_record_without_access :
    (iterate_unusable io8_dev 0 {}).1 = false ∧
    pci_fuzzer_iterate zero_env ⟨io8_dev, none, 0⟩
        { stream := [0, 0, 0, 0, 0, 0, 0, 0, 0xFF, 0xFF, 0xFF, 0xFF, 0xFF, 0xFF, 0xFF, 0xFF,
                     0, 0, 0, 0, 0, 0, 0, 0, 7] }
      = (Outcome.ok (),
          ⟨[7], ⟨[], EINVAL, [⟨EINVAL, "pci_device_region_read16"⟩]⟩,
           [⟨"suu", "pci_device_region_read16", 0, 8, none⟩]⟩) := by
  refine ⟨by decide, by decide⟩

/-! ## Region sizes are never zero -/

/-- The ATA substitution either leaves the pair alone or yields an I/O value with one of
the two legacy masks. -/
theorem ata_compat_override_cases (d : pci_device) (j b s : Nat) :
    ata_compat_override d j b s = (b, s) ∨
    ((ata_compat_override d j b s).1 &&& 0x01 ≠ 0 ∧
      ((ata_compat_override d j b s).2 = bnot 64 0x07 ∨
       (ata_compat_override d j b s).2 = bnot 64 0x03)) := by
  unfold ata_compat_override
  split_ifs
  · exact Or.inr ⟨by decide, Or.inl rfl⟩
  · exact Or.inr ⟨by decide, Or.inr rfl⟩
  · exact Or.inr ⟨by decide, Or.inl rfl⟩
  · exact Or.inr ⟨by decide, Or.inr rfl⟩
  all_goals exact Or.inl rfl

/-- The size that one iteration of the loop stores is between 1 and `2 ^ 32`. -/
theorem regions_map_body_size_pos (env : Env) (d : pci_device) (i j : Nat) (w : World) :
    0 < ((regions_map_body env d i j w).2.1.regions i).size ∧
    ((regions_map_body env d i j w).2.1.regions i).size ≤ 2 ^ 32 := by
  have hp := size_bar32_probe_lt env d j w
  have hsz := size_bar32_size env d j w
  by_cases h0 : (ata_compat_override d j (size_bar32 env d j w).base_address
      (size_bar32 env d j w).size).1 &&& 0x01 = 0
  · have ho : ata_compat_override d j (size_bar32 env d j w).base_address
        (size_bar32 env d j w).size
        = ((size_bar32 env d j w).base_address, (size_bar32 env d j w).size) := by
      rcases ata_compat_override_cases d j (size_bar32 env d j w).base_address
        (size_bar32 env d j w).size with h | h
      · exact h
      · exact absurd h0 h.1
    by_cases h2 : (ata_compat_override d j (size_bar32 env d j w).base_address
        (size_bar32 env d j w).size).1 &&& 0x04 = 0
    · rw [(regions_map_body_mem32 env d i j w h0 h2).2.2.2.2, ho]
      simp only []
      rw [hsz, mem32_size_eq _ hp]
      omega
    · rw [(regions_map_body_mem64 env d i j w h0 h2).2.2.2.2, size_bar64_size, ho]
      simp only []
      rw [hsz, mem64_size_ignores_high_probe _ _ hp (size_bar64_high_probe_lt _ _ _ _ _ _ _)]
      omega
  · rw [(regions_map_body_io env d i j w h0).2.2.2]
    simp only []
    rcases ata_compat_override_cases d j (size_bar32 env d j w).base_address
      (size_bar32 env d j w).size with h | h
    · rw [h]
      simp only []
      rw [hsz, io_size_eq _ hp]
      omega
    · rcases h.2 with h | h <;> rw [h] <;> decide

/-- When `pci_device_regions_map` does not fail, every iteration of its loop is entered. -/
theorem regions_map_entry_of_ok (env : Env) (d : pci_device) (w : World)
    (h : (pci_device_regions_map env d w).1 ≠ -1) (k : Nat) (hk : k ≤ d.num_regions) :
    ∃ s, regions_map_entry env d w k = some s := by
  induction k with
  | zero => exact ⟨_, rfl⟩
  | succ k ih =>
    obtain ⟨s, hs⟩ := ih (by omega)
    obtain ⟨n, hn⟩ : ∃ n, d.num_regions = k + (n + 1) := ⟨d.num_regions - k - 1, by omega⟩
    unfold pci_device_regions_map at h
    rw [hn, regions_map_from_entry env d w k (n + 1) s hs, regions_map_from] at h
    by_cases hb : (regions_map_body env s.1 k s.2.1 s.2.2).1 = true
    · refine ⟨((regions_map_body env s.1 k s.2.1 s.2.2).2.1,
        (regions_map_body env s.1 k s.2.1 s.2.2).2.2.1 + 4,
        (regions_map_body env s.1 k s.2.1 s.2.2).2.2.2), ?_⟩
      rw [regions_map_entry, hs]
      simp only [hb, if_true]
    · simp [hb] at h

/-- C33: the size that `pci_device_regions_map` stores for a region whose iteration is
reached is never zero (it lies between 1 and `2 ^ 32`), whatever the saved BAR value and
the probe readback are (I/O, 32-bit memory, 64-bit memory or ATA substitution); so for such
a region `pci_device_region_get_size` returns a non-zero value and `region_size - 1`,
computed in 64 bits in `pci_fuzzer_iterate`, does not wrap around.  When the function does
not fail, this holds for every region index below `num_regions`. -/
theorem region_size_nonzero (env : Env) (d : pci_device) (w : World) (k : Nat)
    (s : pci_device × Nat × World) (hk : k < d.num_regions)
    (hs : regions_map_entry env d w k = some s) :
    ((pci_device_regions_map env d w).2.1.regions k).size ≠ 0 ∧
    ((pci_device_regions_map env d w).2.1.regions k).size ≤ 2 ^ 32 ∧
    (∀ w', (pci_device_region_get_size (pci_device_regions_map env d w).2.1 k w').1 ≠ 0 ∧
      ((pci_device_region_get_size (pci_device_regions_map env d w).2.1 k w').1
          + (2 ^ 64 - 1)) % 2 ^ 64 + 1
        = (pci_device_region_get_size (pci_device_regions_map env d w).2.1 k w').1) ∧
    ((pci_device_regions_map env d w).1 ≠ -1 →
      ∀ i w', i < (pci_device_regions_map env d w).2.1.num_regions →
        (pci_device_region_get_size (pci_device_regions_map env d w).2.1 i w').1 ≠ 0 ∧
        ((pci_device_region_get_size (pci_device_regions_map env d w).2.1 i w').1
            + (2 ^ 64 - 1)) % 2 ^ 64 + 1
          = (pci_device_region_get_size (pci_device_regions_map env d w).2.1 i w').1) := by
  have hn : (pci_device_regions_map env d w).2.1.num_regions = d.num_regions :=
    (regions_map_from_header env _ _ 0 16 _).2.2.2.2
  have key : ∀ i t, i < d.num_regions → regions_map_entry env d w i = some t →
      0 < ((pci_device_regions_map env d w).2.1.regions i).size ∧
      ((pci_device_regions_map env d w).2.1.regions i).size ≤ 2 ^ 32 := by
    intro i t hi ht
    rw [regions_map_region env d w i t hi ht]
    exact regions_map_body_size_pos env t.1 i t.2.1 t.2.2
  have get : ∀ i w', i < d.num_regions →
      (pci_device_region_get_size (pci_device_regions_map env d w).2.1 i w').1
        = ((pci_device_regions_map env d w).2.1.regions i).size := by
    intro i w' hi
    have : ¬ i ≥ (pci_device_regions_map env d w).2.1.num_regions := by omega
    simp [pci_device_region_get_size, this]
  have hkk := key k s hk hs
  refine ⟨by omega, hkk.2, fun w' => ?_, fun hok i w' hi => ?_⟩
  · rw [get k w' hk]
    omega
  · rw [hn] at hi
    obtain ⟨t, ht⟩ := regions_map_entry_of_ok env d w hok i (by omega)
    have := key i t hi ht
    rw [get i w' hi]
    omega

/-- Witness of C33: a 32-bit memory BAR whose probe reads back `0xFFFFF000` is stored with
size `0x1000`. -/
theorem region_size_nonzero_witness :
    0 < (example_dev 0).num_regions ∧
    regions_map_entry mem32_env (example_dev 0) {} 0 = some (example_dev 0, 16, {}) ∧
    ((pci_device_regions_map mem32_env (example_dev 0) {}).2.1.regions 0).size ≠ 0 :=
  ⟨by decide, rfl,
   (region_size_nonzero mem32_env (example_dev 0) {} 0 (example_dev 0, 16, {})
      (by decide) rfl).1⟩

/-! ## Bytes reached by a region access -/

/-- Evaluation for C34.  On the memory region of `ram_dev` (4096 bytes mapped at
`0x7f0000000000`) the offset 4095 passes the bounds check.  The 16-bit write at that offset
stores to element 4095 of an array of 16-bit values: it changes the bytes 8190 and 8191
from the start of the mapping, which ends at byte 4095.  The 32-bit read at that offset
returns the four bytes from 16380 on. -/
theorem region_access_past_mapping :
    (ram_dev.regions 0).size = 4096 ∧
    pci_device_region_write 16 ram_dev 0 4095 0xBEEF {}
      = { trace := [Event.store 16 0x7f0000000000 4095 0xBEEF] } ∧
    ram_byte (fun _ => 0) (pci_device_region_write 16 ram_dev 0 4095 0xBEEF {}).trace
      (0x7f0000000000 + 8190) = 0xEF ∧
    ram_byte (fun _ => 0) (pci_device_region_write 16 ram_dev 0 4095 0xBEEF {}).trace
      (0x7f0000000000 + 8191) = 0xBE ∧
    (pci_device_region_read 32
        (ram_env (fun a => if a = 0x7f0000000000 + 16380 then 0x5A else 0))
        ram_dev 0 4095 {})
      = (0x5A, { trace := [Event.load 32 0x7f0000000000 4095 0x5A] }) ∧
    (pci_device_region_read 8
        (ram_env (fun a => if a = 0x7f0000000000 + 4095 then 0x5A else 0))
        ram_dev 0 4095 {}).1 = 0x5A := by
  refine ⟨by decide, by decide, by decide, by decide, by decide, by decide⟩

/-! ## Values drawn by an iteration -/

/-- Evaluation for C35, on a device with one I/O region of 8 ports.  With eight bytes `FF`
as the region word the region drawn is 1, which is `num_regions`; the iteration goes on
with it (the size query fails with `EINVAL` and returns `2 ^ 64 - 1`) and logs and calls
`pci_device_region_read16` for region 1.  With eight bytes `FF` as the offset word the
offset drawn for region 0 is 8, the size of the region.  With eight bytes `FF` as the
selector word the selector is 6 and the iteration ends in `abort()`. -/
theorem iterate_draws_out_of_range :
    pci_device_get_num_regions io8_dev = 1 ∧
    iterate_region ⟨io8_dev, none, 0⟩ [0xFF, 0xFF, 0xFF, 0xFF, 0xFF, 0xFF, 0xFF, 0xFF]
      = (Outcome.ok 1, []) ∧
    pci_fuzzer_iterate zero_env ⟨io8_dev, none, 0⟩
        { stream := [0xFF, 0xFF, 0xFF, 0xFF, 0xFF, 0xFF, 0xFF, 0xFF,
                     0, 0, 0, 0, 0, 0, 0, 0, 0, 0, 0, 0, 0, 0, 0, 0, 7] }
      = (Outcome.ok (),
          ⟨[7],
           ⟨[], EINVAL,
            [⟨EINVAL, "pci_device_region_read16"⟩, ⟨EINVAL, "pci_device_region_get_size"⟩,
             ⟨EINVAL, "pci_device_region_is_io"⟩]⟩,
           [⟨"suu", "pci_device_region_read16", 1, 0, none⟩]⟩) ∧
    (pci_device_region_get_size io8_dev 0 {}).1 = 8 ∧
    input_derive_range [0xFF, 0xFF, 0xFF, 0xFF, 0xFF, 0xFF, 0xFF, 0xFF] 0
        (((pci_device_region_get_size io8_dev 0 {}).1 + (2 ^ 64 - 1)) % 2 ^ 64)
      = (Outcome.ok 8, []) ∧
    pci_fuzzer_iterate zero_env ⟨io8_dev, none, 0⟩
        { stream := [0, 0, 0, 0, 0, 0, 0, 0, 0, 0, 0, 0, 0, 0, 0, 0,
                     0xFF, 0xFF, 0xFF, 0xFF, 0xFF, 0xFF, 0xFF, 0xFF, 7] }
      = (Outcome.abort, ⟨[7], {}, []⟩) := by
  refine ⟨by decide, by decide, by decide, by decide, by decide, by decide⟩

/-! ## What `pci_device_regions_unmap` unmaps -/

/-- Evaluation for C36.  A device with one memory region mapped at `0x7f0000000000`
(physical base `0xfe000000`, 4096 bytes) is destroyed: the only call is
`munmap(0xfe000000, 4096)`, with the physical base, not the pointer returned by `mmap`.
On a host where the `mmap` of BAR0 fails with `ENOMEM`, `pci_device_create` fails in
iteration 0 of `pci_device_regions_map` and destroys the device: region 0 (mapping failed)
is skipped, and `munmap(0, 0)` is called for each of the regions 1 to 5, which were never
probed; on a host whose `munmap` rejects a zero length, the first of these calls fails and
is reported. -/
theorem unmap_calls :
    (ram_dev.regions 0).map = 0x7f0000000000 ∧
    (pci_device_destroy zero_env (some ram_dev) {}).trace = [Event.munmap 0xfe000000 4096 0] ∧
    (pci_device_create mmap_fails_env 0 0 0 {}).1.isNone = true ∧
    (regions_map_entry mmap_fails_env (example_dev 0) {} 1).isNone = true ∧
    ((pci_device_regions_map mmap_fails_env (example_dev 0) {}).2.1.regions 0).map = MAP_FAILED ∧
    ((pci_device_create mmap_fails_env 0 0 0 {}).2.trace.filter Event.is_mmap).length = 1 ∧
    (pci_device_create mmap_fails_env 0 0 0 {}).2.trace.filter Event.is_munmap
      = [Event.munmap 0 0 0, Event.munmap 0 0 0, Event.munmap 0 0 0, Event.munmap 0 0 0,
         Event.munmap 0 0 0] ∧
    (pci_device_create mmap_fails_strict_env 0 0 0 {}).2.trace.filter Event.is_munmap
      = [Event.munmap 0 0 (-1)] ∧
    (pci_device_create mmap_fails_strict_env 0 0 0 {}).2.reports
      = [⟨EINVAL, "pci_device_regions_unmap"⟩, ⟨ENOMEM, "pci_device_create"⟩,
         ⟨ENOMEM, "pci_device_regions_map"⟩] := by
  refine ⟨by decide, by decide, by decide, by decide, by decide, by decide, by decide,
    by decide, by decide⟩

end PciFuzzer
